import Mathlib

/-!
Verification development for the modstack lifecycle engine
(shallow embedding of `makeModState` / `makeLifecycle` and friends).

The embedding follows the TypeScript source: per-module guides with a
private state machine, a global phase state machine, a memoized single-shot
finalize with dependent waiting, a reverse-order finalization pass with
ordered-finalization barriers, and an interruptible start loop.
-/

set_option maxHeartbeats 1000000

namespace Modstack

/-- JavaScript-style values; we only need enough structure to distinguish
`undefined`/`null` from defined values and to compute truthiness. -/
inductive JsVal
  | undef
  | jsNull
  | jsBool (b : Bool)
  | jsNum (z : Int)
  | jsStr (s : String)
  | jsObj
  deriving DecidableEq, Repr

/-- JavaScript truthiness (`!v` is `¬ truthy v`). -/
def truthy : JsVal → Bool
  | .undef => false
  | .jsNull => false
  | .jsBool b => b
  | .jsNum z => z ≠ 0
  | .jsStr s => s ≠ ""
  | .jsObj => true

/-- `v ?? null` for `v : Inst | undefined` (nullish coalescing: only
`undefined`/`null` are replaced). -/
def coalesceNull (v : JsVal) : JsVal :=
  if v = .undef ∨ v = .jsNull then .jsNull else v

/-- Per-module states (`ModState` in the source). -/
inductive ModState
  | added
  | configuring
  | configured
  | configuration_failed
  | initializing
  | initialized
  | initialization_failed
  | awaiting_finalization
  | finalizing
  | finalized
  | finalization_failed
  deriving DecidableEq, Repr

/-- Global lifecycle phases (`Phase` in the source). -/
inductive Phase
  | loading
  | configuring
  | configuration_failed
  | configured
  | starting
  | starting_failed
  | ready
  | stopping
  | stopping_failed
  | stopped
  deriving DecidableEq, Repr

/-- Model of `ModstackError` (carries the error code). -/
structure MErr where
  code : String
  msg : String
  deriving DecidableEq, Repr

/-- `changePhase(newPhase, allowedCurrentPhases?)`: when a list of allowed
current phases is given and the current phase is not among them, a
`phase.incorrect` error is thrown (synchronously) and the phase is left
unchanged; otherwise the phase is assigned. We return the resulting phase
or the error. -/
def changePhase (cur : Phase) (newPhase : Phase) (allowed : Option (List Phase)) :
    Except MErr Phase :=
  match allowed with
  | some l =>
      if cur ∈ l then .ok newPhase
      else .error ⟨"phase.incorrect", "Cannot change lifecycle phase."⟩
  | none => .ok newPhase

theorem changePhase_error_code (cur newPhase : Phase) (l : List Phase)
    (h : cur ∉ l) :
    changePhase cur newPhase (some l) =
      .error ⟨"phase.incorrect", "Cannot change lifecycle phase."⟩ := by
  simp [changePhase, h]

/-! ## Configure (guide and engine) -/

/-- Behaviour of a descriptor's `configure` function, when present. -/
inductive CfgBehavior
  | retOk
  | retFail (fs : List String)
  | throwE (e : String)
  deriving DecidableEq, Repr

/-- The part of a module descriptor relevant to configuration. -/
structure ModDesc where
  name : String
  configure : Option CfgBehavior
  deriving DecidableEq, Repr

/-- Result value of `guide.configure` (`{ok:true}` or `{ok:false, failure}`). -/
inductive CfgResult
  | ok
  | fail (failure : List String)
  deriving DecidableEq, Repr

def CfgResult.isOk : CfgResult → Bool
  | .ok => true
  | .fail _ => false

def CfgResult.failures : CfgResult → List String
  | .ok => []
  | .fail fs => fs

/-- `guide.configure(envVars)`: when the descriptor has no configure
function, cfg is trivially resolved (`cfg = null`) and the call succeeds
with state `configured`; otherwise the descriptor's configure runs: an ok
result stores the config (state `configured`); an explicit failure returns
its failure list (state `configuration_failed`); a thrown error is caught
and reported as a single failure message (state `configuration_failed`).
Returns (module state, cfg resolved?, result). -/
def guideConfigure (d : ModDesc) : ModState × Bool × CfgResult :=
  match d.configure with
  | none => (.configured, true, .ok)
  | some .retOk => (.configured, true, .ok)
  | some (.retFail fs) => (.configuration_failed, false, .fail fs)
  | some (.throwE e) => (.configuration_failed, false, .fail [e])

/-- Failure strings of one guide, each prefixed with the guide's name. -/
def prefixFailures (name : String) (fs : List String) : List String :=
  fs.map (fun f => "[" ++ name ++ "] " ++ f)

/-- Output of `engine.configure`. `calls` records, in order, the guides
whose `configure` was invoked. -/
structure EngCfgOut where
  phase : Phase
  result : CfgResult
  calls : List String
  deriving DecidableEq, Repr

/-- `engine.configure(envVars)`: requires phase `loading` (else the phase
error is thrown). Calls every guide's `configure` in registration order
unconditionally, aggregates all failure strings prefixed with the guide
names, and moves the phase to `configured` when all guides succeeded and
to `configuration_failed` otherwise. -/
def lifecycleConfigure (cur : Phase) (mods : List ModDesc) :
    Except MErr EngCfgOut :=
  match changePhase cur .configuring (some [.loading]) with
  | .error e => .error e
  | .ok _ =>
      let configResults := mods.map (fun d => (d.name, (guideConfigure d).2.2))
      let allOk := configResults.all (fun r => r.2.isOk)
      let res : CfgResult :=
        if allOk then .ok
        else .fail ((configResults.map
          (fun p => prefixFailures p.1 p.2.failures)).flatten)
      .ok { phase := if res.isOk then .configured else .configuration_failed
          , result := res
          , calls := mods.map (·.name) }

/-! ## Status -/

/-- Opaque model of a JS `Record<string, unknown>` status object. -/
abbrev StatusVal := List (String × String)

/-- `guide.status()` return value. -/
structure GuideStat where
  state : ModState
  status : StatusVal
  deriving DecidableEq, Repr

/-- `guide.status()`: the current module state together with the
descriptor's `status()` result, or an empty object when absent. -/
def guideStatus (state : ModState) (statusFn : Option StatusVal) : GuideStat :=
  { state := state, status := statusFn.getD [] }

/-- Modelled from the spec: the computation of the engine status field
`inStoppablePhase` is absent from the lifecycle source available here (only
its callers, type declarations and tests reference the field); the spec
defines it as `phase∈{ready, starting_failed}`. -/
def specInStoppablePhase (p : Phase) : Bool :=
  p = .ready ∨ p = .starting_failed

/-- `engine.status()` return value. -/
structure EngStat where
  phase : Phase
  inStoppablePhase : Bool
  modules : List (String × GuideStat)
  deriving DecidableEq, Repr

/-- `engine.status()`: the current phase, the (spec-modelled)
`inStoppablePhase` flag, and the per-guide statuses keyed by name. -/
def lifecycleStatus (cur : Phase)
    (guides : List (String × ModState × Option StatusVal)) : EngStat :=
  { phase := cur
  , inStoppablePhase := specInStoppablePhase cur
  , modules := guides.map (fun g => (g.1, guideStatus g.2.1 g.2.2)) }

/-! ## Phase guards for start/stop (synchronous parts) -/

/-- The phase check performed at the top of `engine.start()`. -/
def startPhaseCheck (cur : Phase) : Except MErr Phase :=
  changePhase cur .starting (some [.configured])

/-- Synchronous outcome of an `engine.stop()` call. -/
inductive StopCallOutcome
  | noop
  | acted
  | errorOut (e : MErr)
  deriving DecidableEq, Repr

/-- The synchronous head of `engine.stop()`: a no-op when already
`stopping`/`stopped`; otherwise `changePhase('stopping', [ready,
starting_failed, starting])`, which throws on any other phase and leaves
the phase unchanged. Returns the outcome and the resulting phase. -/
def stopPhaseCheck (cur : Phase) : StopCallOutcome × Phase :=
  if cur = .stopping ∨ cur = .stopped then (.noop, cur)
  else
    match changePhase cur .stopping (some [.ready, .starting_failed, .starting]) with
    | .ok p => (.acted, p)
    | .error e => (.errorOut e, cur)

/-! ## Guide initialize / getInstance / finalize result (value level) -/

/-- Behaviour of a descriptor's `initialize` for one run. -/
inductive InitBehavior
  | resolveInst (v : JsVal) (hasFin : Bool)
  | rejectE
  deriving DecidableEq, Repr

/-- The per-guide fields touched by initialize/finalize. -/
structure GuideA where
  mstate : ModState
  cfgResolved : Bool
  inst : JsVal
  hasFinalizeCb : Bool
  deriving DecidableEq, Repr

/-- `guide.initialize()`: a no-op returning `inst ?? null` when cfg is
unresolved; otherwise runs the descriptor's initialize: on resolution the
instance/finalize/status are stored and state becomes `initialized`; on
rejection the error is caught and state becomes `initialization_failed`.
Returns the updated guide and the value the promise resolves with
(`inst ?? null`). -/
def guideInitialize (g : GuideA) (b : InitBehavior) : GuideA × JsVal :=
  if g.cfgResolved then
    match b with
    | .resolveInst v hf =>
        let g' : GuideA :=
          { g with mstate := .initialized, inst := v, hasFinalizeCb := hf }
        (g', coalesceNull g'.inst)
    | .rejectE => ({ g with mstate := .initialization_failed }, coalesceNull g.inst)
  else (g, coalesceNull g.inst)

/-- `guide.getInstance(dependent)`: throws an invalid-use error when no
instance exists (`inst === undefined`), else returns the instance (the
dependent registration is modelled in the machine layer). -/
def getInstance (g : GuideA) : Except MErr JsVal :=
  if g.inst = .undef then
    .error ⟨"uninitialized_instance", "Uninitialized instance cannot be retrieved."⟩
  else .ok g.inst

/-- Behaviour of a descriptor's `finalize` callback for its one run. -/
inductive CbBehavior
  | retTrue
  | retFalse
  | retVoid
  | throwE
  deriving DecidableEq, Repr

/-- The settled value of `finalize ? await finalize().catch(() => false)
?? true : true`. -/
def cbResult : CbBehavior → Bool
  | .retTrue => true
  | .retVoid => true
  | .retFalse => false
  | .throwE => false

/-- The settled result of the body of `guide.finalize()`'s memoized
computation: `true` immediately (callback never invoked) when the instance
is not truthy; otherwise the callback result when a callback exists, else
`true`. The dependent wait (which does not affect the result) is modelled
in the machine layer. Returns (result, callback invoked?). -/
def guideFinalizeBody (g : GuideA) (cb : CbBehavior) : Bool × Bool :=
  if ¬ truthy g.inst then (true, false)
  else if g.hasFinalizeCb then (cbResult cb, true)
  else (true, false)

/-- The start loop of `engine.start()` at value level (no interruption):
await each guide's initialize in registration order; on the first guide
whose returned instance is not truthy, stop with `starting_failed` leaving
the remaining guides untouched; otherwise finish with `ready`. -/
def startLoopA : List (GuideA × InitBehavior) → Phase × List GuideA
  | [] => (.ready, [])
  | (g, b) :: rest =>
      let r := guideInitialize g b
      if ¬ truthy r.2 then (.starting_failed, r.1 :: rest.map (·.1))
      else
        let rec' := startLoopA rest
        (rec'.1, r.1 :: rec'.2)

/-!
## Machine layer

An interleaving small-step semantics of the lifecycle engine. Each step is
one run-to-completion segment (code between suspension points) of one of
the concurrently outstanding asynchronous computations: the `start()` loop,
the finalization pass spawned by `stop()`, or one guide's memoized
finalization computation. External `stop()` calls can occur at any point.
-/

/-- Static description of one registered module, in registration order. -/
structure GSpec where
  deps : List Nat
  initSteps : Nat
  initOk : Bool
  hasCb : Bool
  cbSteps : Nat
  cb : CbBehavior
  ordered : Bool
  deriving DecidableEq, Repr

instance : Inhabited GSpec := ⟨⟨[], 0, true, false, 0, .retTrue, false⟩⟩

/-- Eventual boolean result of the finalize-callback part of a guide's
finalization (`true` when the descriptor has no finalize callback). -/
def specCbRes (g : GSpec) : Bool :=
  if g.hasCb then cbResult g.cb else true

/-- State of a guide's memoized `finalizationPromise` computation between
its suspension points: waiting for the dependents captured at the await,
running the descriptor's finalize callback, or settled with a result. -/
inductive FinTask
  | waitingDeps (snapshot : List Nat)
  | runningCb (left : Nat)
  | done (result : Bool)
  deriving DecidableEq, Repr

/-- Whether a finalization promise has settled. -/
def FinTask.isDone : Option FinTask → Bool
  | some (.done _) => true
  | _ => false

/-- Progress stage of a finalization computation (monotone along steps). -/
def FinTask.stage : Option FinTask → Nat
  | none => 0
  | some (.waitingDeps _) => 1
  | some (.runningCb _) => 2
  | some (.done _) => 3

/-- Dynamic per-guide machine state. -/
structure GuideDyn where
  mstate : ModState
  hasInst : Bool
  dependents : List Nat
  finTask : Option FinTask
  deriving DecidableEq, Repr

/-- A guide that passed configuration and was not touched since. -/
def freshGuide : GuideDyn :=
  { mstate := .configured, hasInst := false, dependents := [], finTask := none }

/-- An entry of the engine's `finalizationPromises` array: a guide's
finalization promise, or an already-resolved barrier promise. -/
inductive FinRef
  | guideRef (i : Nat)
  | resolvedRef (b : Bool)
  deriving DecidableEq, Repr

/-- State of the `start()` coroutine. -/
inductive StartTask
  | idle
  | initRunning (k : Nat) (left : Nat)
  | initSettled (k : Nat)
  | finishedSt (started : Bool) (stopping : Bool)
  | crashed
  deriving DecidableEq, Repr

/-- State of the finalization pass spawned by `stop()`. -/
inductive StopTask
  | waitingInterrupt
  | finLoop (pos : Nat) (pending : List FinRef)
  | atBarrier (pos : Nat) (pending : List FinRef)
  | finalWait (pending : List FinRef)
  | doneStop
  deriving DecidableEq, Repr

/-- Global machine state. `interrupt` models the `interruptStart`
resolvable: `none` = never created, `some false` = created and pending,
`some true` = resolved. `stoppedCell` models the `stopped` resolvable. -/
structure EState where
  phase : Phase
  guides : List GuideDyn
  interrupt : Option Bool
  stoppedCell : Option Bool
  startTask : StartTask
  stopTask : Option StopTask
  deriving DecidableEq, Repr

def EState.guide (s : EState) (i : Nat) : GuideDyn :=
  s.guides.getD i freshGuide

def setGuide (s : EState) (i : Nat) (g : GuideDyn) : EState :=
  { s with guides := s.guides.set i g }

/-- Eventual finalize result of guide `i` in state `s`: `true` when no
instance was produced, else determined by the descriptor's callback. -/
def finResultD (spec : List GSpec) (s : EState) (i : Nat) : Bool :=
  if (s.guide i).hasInst then specCbRes (spec.getD i default) else true

/-- Whether a `finalizationPromises` entry has settled. -/
def refSettled (s : EState) : FinRef → Bool
  | .guideRef i => FinTask.isDone (s.guide i).finTask
  | .resolvedRef _ => true

/-- The settled value stored in a `finalizationPromises` entry (only
meaningful under `refSettled`). -/
def refStoredVal (s : EState) : FinRef → Bool
  | .guideRef i =>
      match (s.guide i).finTask with
      | some (.done b) => b
      | _ => true
  | .resolvedRef b => b

/-- The eventual value of a `finalizationPromises` entry. -/
def refVal (spec : List GSpec) (s : EState) : FinRef → Bool
  | .guideRef i => finResultD spec s i
  | .resolvedRef b => b

/-- The continuation of a guide's finalization after the (possibly empty)
dependent wait: state→finalizing, then run the descriptor's finalize
callback when present; with no callback the result `true` is computed in
the same segment and state→finalized. -/
def startCbGuide (sp : GSpec) (g : GuideDyn) : GuideDyn :=
  if sp.hasCb then
    { g with mstate := .finalizing, finTask := some (.runningCb sp.cbSteps) }
  else { g with mstate := .finalized, finTask := some (.done true) }

/-- The synchronous prefix of `guide.finalize()`: a memo hit returns the
existing promise unchanged; with no instance the computation settles `true`
immediately; with registered dependents state→awaiting_finalization and the
computation blocks on the dependents captured now; otherwise the callback
part starts. -/
def finalizeEffect (sp : GSpec) (g : GuideDyn) : GuideDyn :=
  if g.finTask.isSome then g
  else if g.hasInst = false then { g with finTask := some (.done true) }
  else if g.dependents = [] then startCbGuide sp g
  else
    { g with mstate := .awaiting_finalization
           , finTask := some (.waitingDeps g.dependents) }

/-- `dependents.push(dependent)` on guide `d` by dependent `k`. -/
def pushDependent (k : Nat) (g : GuideDyn) : GuideDyn :=
  { g with dependents := g.dependents ++ [k] }

/-- Resolving the declared dependencies of guide `k` at the start of its
initialize: each dependency's `getInstance({finalized})` registers `k` as a
dependent, or throws when that dependency has no instance (the partial
registrations made so far remain). Returns the updated guides and whether
all lookups succeeded. -/
def regDeps (k : Nat) : List Nat → List GuideDyn → List GuideDyn × Bool
  | [], gs => (gs, true)
  | d :: ds, gs =>
      if (gs.getD d freshGuide).hasInst then
        regDeps k ds (gs.set d (pushDependent k (gs.getD d freshGuide)))
      else (gs, false)

/-- The synchronous prefix of `guide.initialize()` for guide `k` as invoked
by the start loop: state→initializing, resolve dependencies (registering
`k` as their dependent), then suspend on the descriptor's initialize. A
failed dependency lookup rejects the `start()` promise (`crashed`). -/
def issueInit (spec : List GSpec) (s : EState) (k : Nat) : EState :=
  let s1 := setGuide s k { s.guide k with mstate := .initializing }
  let r := regDeps k (spec.getD k default).deps s1.guides
  if r.2 then
    { s1 with guides := r.1
            , startTask := .initRunning k (spec.getD k default).initSteps }
  else { s1 with guides := r.1, startTask := .crashed }

/-- The synchronous body of `engine.stop()`: a no-op when already stopping
or stopped; called during `starting` it creates the interrupt resolvable
and the spawned pass first waits on it; from `ready`/`starting_failed` the
pass starts at the reversed guide list; any other phase throws (caller
state unchanged). -/
def stopCallFn (s : EState) : EState :=
  if s.phase = .stopping ∨ s.phase = .stopped then s
  else if s.phase = .starting then
    { s with interrupt := some false, phase := .stopping
           , stopTask := some .waitingInterrupt }
  else if s.phase = .ready ∨ s.phase = .starting_failed then
    { s with phase := .stopping
           , stopTask := some (if s.interrupt.isSome then StopTask.waitingInterrupt
                               else .finLoop 0 []) }
  else s

/-- The synchronous prefix of `engine.start()`: requires phase
`configured`, phase→starting, then the first guide's initialize is issued
(on an empty stack the loop finishes at once with phase `ready`). -/
def startCallFn (spec : List GSpec) (s : EState) : Option EState :=
  if s.phase = .configured then
    let s1 := { s with phase := Phase.starting }
    some (if spec.length = 0 then
            { s1 with phase := .ready, startTask := .finishedSt true false }
          else issueInit spec s1 0)
  else none

/-- One resumption of the `start()` loop: descriptor-initialize progress
and settlement, then the loop continuation: the interrupt check first
(abort, signalling the waiter, result `{started:false, stopping:true}`),
then the missing-instance check (phase→starting_failed, `stop()` invoked
iff `autoStopOnError`, result `{started:false, stopping:auto}`), else the
next guide is issued, or with no guide left phase→ready and result
`{started:true}`. -/
def startStepFn (spec : List GSpec) (auto : Bool) (s : EState) : Option EState :=
  match s.startTask with
  | .initRunning k (l+1) => some { s with startTask := .initRunning k l }
  | .initRunning k 0 =>
      if (spec.getD k default).initOk then
        some { setGuide s k { s.guide k with mstate := .initialized, hasInst := true } with
                 startTask := .initSettled k }
      else
        some { setGuide s k { s.guide k with mstate := .initialization_failed } with
                 startTask := .initSettled k }
  | .initSettled k =>
      if s.interrupt.isSome then
        some { s with interrupt := some true, startTask := .finishedSt false true }
      else if (s.guide k).hasInst = false then
        let s1 := { s with phase := Phase.starting_failed
                         , startTask := .finishedSt false auto }
        some (if auto then stopCallFn s1 else s1)
      else if k + 1 < spec.length then
        some (issueInit spec s (k + 1))
      else
        some { s with phase := .ready, startTask := .finishedSt true false }
  | _ => none

/-- One resumption of the finalization pass: waking from the interrupt
wait; the loop issuing the next reversed-order guide's finalize (or, at an
`orderedFinalization` guide, first suspending on all promises issued so
far); the barrier resumption collapsing the settled promises into one
resolved barrier carrying their aggregate verdict before issuing the
flagged guide; and the final wait after the loop, which settles the
aggregate verdict, the phase, and the stopped signal. -/
def stopStepFn (spec : List GSpec) (s : EState) : Option EState :=
  match s.stopTask with
  | some .waitingInterrupt =>
      if s.interrupt = some true then
        some { s with stopTask := some (.finLoop 0 []) }
      else none
  | some (.finLoop pos pend) =>
      if pos < spec.length then
        let i := spec.length - 1 - pos
        if (spec.getD i default).ordered then
          some { s with stopTask := some (.atBarrier pos pend) }
        else
          let s1 := setGuide s i (finalizeEffect (spec.getD i default) (s.guide i))
          some { s1 with stopTask := some (.finLoop (pos+1) (pend ++ [.guideRef i])) }
      else some { s with stopTask := some (.finalWait pend) }
  | some (.atBarrier pos pend) =>
      if pend.all (refSettled s) then
        let c := pend.all (refStoredVal s)
        let i := spec.length - 1 - pos
        let s1 := setGuide s i (finalizeEffect (spec.getD i default) (s.guide i))
        some { s1 with stopTask := some (.finLoop (pos+1) [.resolvedRef c, .guideRef i]) }
      else none
  | some (.finalWait pend) =>
      if pend.all (refSettled s) then
        let c := pend.all (refStoredVal s)
        some { s with phase := if c then Phase.stopped else .stopping_failed
                    , stoppedCell := some c
                    , stopTask := some .doneStop }
      else none
  | _ => none

/-- One resumption of guide `i`'s finalization computation: the dependent
wait resumes once every captured dependent's promise has settled
(regardless of the individual results); the callback makes progress and
finally settles, fixing the guide's terminal state. -/
def guideStepFn (spec : List GSpec) (s : EState) (i : Nat) : Option EState :=
  if i < s.guides.length then
    match (s.guide i).finTask with
    | some (.waitingDeps snap) =>
        if snap.all (fun d => FinTask.isDone (s.guide d).finTask) then
          some (setGuide s i (startCbGuide (spec.getD i default) (s.guide i)))
        else none
    | some (.runningCb (l+1)) =>
        some (setGuide s i { s.guide i with finTask := some (.runningCb l) })
    | some (.runningCb 0) =>
        let r := cbResult (spec.getD i default).cb
        some (setGuide s i
          { s.guide i with
              mstate := if r then .finalized else .finalization_failed
            , finTask := some (.done r) })
    | _ => none
  else none

/-- Scheduler labels: which outstanding computation performs the next
run-to-completion segment (or which external call occurs). -/
inductive Lbl
  | startCall
  | startStep
  | stopCall
  | stopStep
  | guideStep (i : Nat)
  deriving DecidableEq, Repr

/-- The machine's step function: label-indexed, deterministic per label. -/
def stepFn (spec : List GSpec) (auto : Bool) (s : EState) : Lbl → Option EState
  | .startCall => startCallFn spec s
  | .startStep => startStepFn spec auto s
  | .stopCall => some (stopCallFn s)
  | .stopStep => stopStepFn spec s
  | .guideStep i => guideStepFn spec s i

/-- The machine's initial state: phase `configured`, one fresh guide per
registered module. -/
def initState (spec : List GSpec) : EState :=
  { phase := .configured
  , guides := spec.map (fun _ => freshGuide)
  , interrupt := none
  , stoppedCell := none
  , startTask := .idle
  , stopTask := none }

/-- Multi-step reachability along a trace of labels. -/
inductive Reaches (spec : List GSpec) (auto : Bool) : EState → List Lbl → EState → Prop
  | refl (s : EState) : Reaches spec auto s [] s
  | head {s s' s'' : EState} {l : Lbl} {ls : List Lbl} :
      stepFn spec auto s l = some s' → Reaches spec auto s' ls s'' →
      Reaches spec auto s (l :: ls) s''

/-- Executable runner over a label script (for concrete runs). -/
def runL (spec : List GSpec) (auto : Bool) : EState → List Lbl → Option EState
  | s, [] => some s
  | s, l :: ls =>
      match stepFn spec auto s l with
      | some s' => runL spec auto s' ls
      | none => none

theorem runL_reaches {spec : List GSpec} {auto : Bool} :
    ∀ {ls : List Lbl} {s s' : EState},
      runL spec auto s ls = some s' → Reaches spec auto s ls s'
  | [], s, s', h => by
      simp [runL] at h
      exact h ▸ Reaches.refl s
  | l :: ls, s, s', h => by
      revert h
      simp only [runL]
      cases hstep : stepFn spec auto s l with
      | none => intro h; cases h
      | some s1 => intro h; exact Reaches.head hstep (runL_reaches h)

/-! ### Basic list and state helper lemmas -/

theorem getD_set_self {α : Type} :
    ∀ (l : List α) (i : Nat) (a d : α), i < l.length → (l.set i a).getD i d = a
  | _ :: _, 0, _, _, _ => rfl
  | _ :: xs, i+1, a, d, h => getD_set_self xs i a d (by simpa using h)

theorem getD_set_ne {α : Type} :
    ∀ (l : List α) (i j : Nat) (a d : α), i ≠ j → (l.set i a).getD j d = l.getD j d
  | [], _, _, _, _, _ => rfl
  | _ :: _, 0, 0, _, _, h => absurd rfl h
  | _ :: _, 0, _+1, _, _, _ => rfl
  | _ :: _, _+1, 0, _, _, _ => rfl
  | _ :: xs, i+1, j+1, a, d, h => getD_set_ne xs i j a d (by omega)

theorem getD_len_le {α : Type} :
    ∀ (l : List α) (i : Nat) (d : α), l.length ≤ i → l.getD i d = d
  | [], _, _, _ => rfl
  | _ :: _, 0, _, h => by simp at h
  | _ :: xs, i+1, d, h => by
      have := getD_len_le xs i d (by simpa using h)
      simpa [List.getD] using this

@[simp] theorem setGuide_phase (s : EState) (i : Nat) (g : GuideDyn) :
    (setGuide s i g).phase = s.phase := rfl

@[simp] theorem setGuide_interrupt (s : EState) (i : Nat) (g : GuideDyn) :
    (setGuide s i g).interrupt = s.interrupt := rfl

@[simp] theorem setGuide_stoppedCell (s : EState) (i : Nat) (g : GuideDyn) :
    (setGuide s i g).stoppedCell = s.stoppedCell := rfl

@[simp] theorem setGuide_startTask (s : EState) (i : Nat) (g : GuideDyn) :
    (setGuide s i g).startTask = s.startTask := rfl

@[simp] theorem setGuide_stopTask (s : EState) (i : Nat) (g : GuideDyn) :
    (setGuide s i g).stopTask = s.stopTask := rfl

@[simp] theorem setGuide_len (s : EState) (i : Nat) (g : GuideDyn) :
    (setGuide s i g).guides.length = s.guides.length := by
  simp [setGuide]

theorem guide_setGuide_self {s : EState} {i : Nat} {g : GuideDyn}
    (h : i < s.guides.length) : (setGuide s i g).guide i = g :=
  getD_set_self _ _ _ _ h

theorem guide_setGuide_ne {s : EState} (i : Nat) {j : Nat} (g : GuideDyn)
    (h : i ≠ j) : (setGuide s i g).guide j = s.guide j :=
  getD_set_ne _ _ _ _ _ h

theorem guide_oob {s : EState} {i : Nat} (h : s.guides.length ≤ i) :
    s.guide i = freshGuide :=
  getD_len_le _ _ _ h

theorem guide_setGuide_cases (s : EState) (i j : Nat) (g : GuideDyn) :
    ((setGuide s i g).guide j = g ∧ i = j) ∨ (setGuide s i g).guide j = s.guide j := by
  by_cases hij : i = j
  · subst hij
    by_cases hi : i < s.guides.length
    · exact .inl ⟨guide_setGuide_self hi, rfl⟩
    · right
      rw [guide_oob (s := setGuide s i g) (by simpa using Nat.le_of_not_lt hi),
        guide_oob (Nat.le_of_not_lt hi)]
  · exact .inr (guide_setGuide_ne i g hij)

theorem set_len_le {α : Type} :
    ∀ (l : List α) (i : Nat) (a : α), l.length ≤ i → l.set i a = l
  | [], _, _, _ => rfl
  | _ :: _, 0, _, h => by simp at h
  | x :: xs, i+1, a, h => by
      simpa [List.set] using set_len_le xs i a (by simpa using h)

theorem getD_set_cases {α : Type} (l : List α) (i j : Nat) (a d : α) :
    ((l.set i a).getD j d = a ∧ i = j) ∨ (l.set i a).getD j d = l.getD j d := by
  by_cases hij : i = j
  · subst hij
    by_cases h : i < l.length
    · exact .inl ⟨getD_set_self _ _ _ _ h, rfl⟩
    · right
      rw [set_len_le l i a (Nat.le_of_not_lt h)]
  · exact .inr (getD_set_ne _ _ _ _ _ hij)

@[simp] theorem pushDependent_mstate (k : Nat) (g : GuideDyn) :
    (pushDependent k g).mstate = g.mstate := rfl

@[simp] theorem pushDependent_hasInst (k : Nat) (g : GuideDyn) :
    (pushDependent k g).hasInst = g.hasInst := rfl

@[simp] theorem pushDependent_finTask (k : Nat) (g : GuideDyn) :
    (pushDependent k g).finTask = g.finTask := rfl

theorem regDeps_length (k : Nat) :
    ∀ (ds : List Nat) (gs : List GuideDyn), (regDeps k ds gs).1.length = gs.length
  | [], _ => rfl
  | d :: ds, gs => by
      simp only [regDeps]
      split
      · rw [regDeps_length k ds]; simp
      · rfl

theorem regDeps_guide (k : Nat) :
    ∀ (ds : List Nat) (gs : List GuideDyn) (j : Nat),
      ((regDeps k ds gs).1.getD j freshGuide).mstate = (gs.getD j freshGuide).mstate ∧
      ((regDeps k ds gs).1.getD j freshGuide).hasInst = (gs.getD j freshGuide).hasInst ∧
      ((regDeps k ds gs).1.getD j freshGuide).finTask = (gs.getD j freshGuide).finTask ∧
      (((regDeps k ds gs).1.getD j freshGuide).dependents = (gs.getD j freshGuide).dependents ∨
        (gs.getD j freshGuide).hasInst = true)
  | [], gs, j => ⟨rfl, rfl, rfl, .inl rfl⟩
  | d :: ds, gs, j => by
      simp only [regDeps]
      split
      · rename_i hd
        have IH := regDeps_guide k ds (gs.set d (pushDependent k (gs.getD d freshGuide))) j
        rcases getD_set_cases gs d j (pushDependent k (gs.getD d freshGuide)) freshGuide with
          ⟨heq, hdj⟩ | heq
        · subst hdj
          rw [heq] at IH
          refine ⟨?_, ?_, ?_, .inr hd⟩
          · rw [IH.1, pushDependent_mstate]
          · rw [IH.2.1, pushDependent_hasInst]
          · rw [IH.2.2.1, pushDependent_finTask]
        · rw [heq] at IH
          exact IH
      · exact ⟨rfl, rfl, rfl, .inl rfl⟩

theorem issueInit_const (spec : List GSpec) (s : EState) (k : Nat) :
    (issueInit spec s k).phase = s.phase ∧
    (issueInit spec s k).interrupt = s.interrupt ∧
    (issueInit spec s k).stoppedCell = s.stoppedCell ∧
    (issueInit spec s k).stopTask = s.stopTask ∧
    (issueInit spec s k).guides.length = s.guides.length := by
  simp only [issueInit]
  split
  · refine ⟨rfl, rfl, rfl, rfl, ?_⟩
    simp [regDeps_length, setGuide]
  · refine ⟨rfl, rfl, rfl, rfl, ?_⟩
    simp [regDeps_length, setGuide]

theorem issueInit_startTask (spec : List GSpec) (s : EState) (k : Nat) :
    (issueInit spec s k).startTask = .initRunning k (spec.getD k default).initSteps ∨
    (issueInit spec s k).startTask = .crashed := by
  simp only [issueInit]
  split
  · exact .inl rfl
  · exact .inr rfl

theorem issueInit_guide_eq (spec : List GSpec) (s : EState) (k j : Nat) :
    (issueInit spec s k).guide j =
      ((regDeps k (spec.getD k default).deps
        (setGuide s k { s.guide k with mstate := .initializing }).guides).1).getD j
        freshGuide := by
  simp only [issueInit]
  split <;> rfl

theorem issueInit_guide (spec : List GSpec) (s : EState) (k : Nat) (j : Nat) :
    (((issueInit spec s k).guide j).mstate = (s.guide j).mstate ∨
      (j = k ∧ ((issueInit spec s k).guide j).mstate = .initializing)) ∧
    ((issueInit spec s k).guide j).hasInst = (s.guide j).hasInst ∧
    ((issueInit spec s k).guide j).finTask = (s.guide j).finTask ∧
    (((issueInit spec s k).guide j).dependents = (s.guide j).dependents ∨
      (s.guide j).hasInst = true) := by
  have heq := issueInit_guide_eq spec s k j
  have hreg := regDeps_guide k (spec.getD k default).deps
    (setGuide s k { s.guide k with mstate := .initializing }).guides j
  have hconv : (setGuide s k { s.guide k with mstate := .initializing }).guides.getD j
      freshGuide = (setGuide s k { s.guide k with mstate := .initializing }).guide j := rfl
  rw [hconv] at hreg
  rw [heq]
  rcases guide_setGuide_cases s k j { s.guide k with mstate := .initializing } with
    ⟨hset, hkj⟩ | hset
  · subst hkj
    refine ⟨.inr ⟨rfl, ?_⟩, ?_, ?_, ?_⟩
    · rw [hreg.1, hset]
    · rw [hreg.2.1, hset]
    · rw [hreg.2.2.1, hset]
    · rcases hreg.2.2.2 with hdep | hinst
      · left; rw [hdep, hset]
      · right; rw [hset] at hinst; exact hinst
  · refine ⟨.inl ?_, ?_, ?_, ?_⟩
    · rw [hreg.1, hset]
    · rw [hreg.2.1, hset]
    · rw [hreg.2.2.1, hset]
    · rcases hreg.2.2.2 with hdep | hinst
      · left; rw [hdep, hset]
      · right; rw [hset] at hinst; exact hinst

/-! ### Characterizations of the finalize effects -/

theorem startCbGuide_cases (sp : GSpec) (g : GuideDyn) :
    (sp.hasCb = true ∧ startCbGuide sp g =
      { g with mstate := .finalizing, finTask := some (.runningCb sp.cbSteps) }) ∨
    (sp.hasCb = false ∧ startCbGuide sp g =
      { g with mstate := .finalized, finTask := some (.done true) }) := by
  unfold startCbGuide
  by_cases h : sp.hasCb = true
  · exact .inl ⟨h, by simp [h]⟩
  · exact .inr ⟨by simpa using h, by simp [h]⟩

@[simp] theorem startCbGuide_hasInst (sp : GSpec) (g : GuideDyn) :
    (startCbGuide sp g).hasInst = g.hasInst := by
  unfold startCbGuide; split <;> rfl

@[simp] theorem startCbGuide_dependents (sp : GSpec) (g : GuideDyn) :
    (startCbGuide sp g).dependents = g.dependents := by
  unfold startCbGuide; split <;> rfl

theorem finalizeEffect_cases (sp : GSpec) (g : GuideDyn) :
    (g.finTask.isSome = true ∧ finalizeEffect sp g = g) ∨
    (g.finTask = none ∧ g.hasInst = false ∧
      finalizeEffect sp g = { g with finTask := some (.done true) }) ∨
    (g.finTask = none ∧ g.hasInst = true ∧ g.dependents = [] ∧
      finalizeEffect sp g = startCbGuide sp g) ∨
    (g.finTask = none ∧ g.hasInst = true ∧ g.dependents ≠ [] ∧
      finalizeEffect sp g =
        { g with mstate := .awaiting_finalization
               , finTask := some (.waitingDeps g.dependents) }) := by
  unfold finalizeEffect
  by_cases h1 : g.finTask.isSome = true
  · exact .inl ⟨h1, by simp [h1]⟩
  · have hn : g.finTask = none := by
      cases hft : g.finTask
      · rfl
      · rw [hft] at h1; simp at h1
    by_cases h2 : g.hasInst = false
    · exact .inr (.inl ⟨hn, h2, by simp [hn, h2]⟩)
    · have h2' : g.hasInst = true := by simpa using h2
      by_cases h3 : g.dependents = []
      · exact .inr (.inr (.inl ⟨hn, h2', h3, by simp [hn, h2', h3]⟩))
      · exact .inr (.inr (.inr ⟨hn, h2', h3, by simp [hn, h2', h3]⟩))

theorem finalizeEffect_memo (sp : GSpec) (g : GuideDyn) (h : g.finTask.isSome = true) :
    finalizeEffect sp g = g := by
  unfold finalizeEffect; simp [h]

@[simp] theorem finalizeEffect_hasInst (sp : GSpec) (g : GuideDyn) :
    (finalizeEffect sp g).hasInst = g.hasInst := by
  rcases finalizeEffect_cases sp g with ⟨_, h⟩ | ⟨_, _, h⟩ | ⟨_, _, _, h⟩ | ⟨_, _, _, h⟩ <;>
    rw [h] <;> simp

theorem finalizeEffect_stage (sp : GSpec) (g : GuideDyn) :
    FinTask.stage g.finTask ≤ FinTask.stage (finalizeEffect sp g).finTask := by
  rcases finalizeEffect_cases sp g with ⟨_, h⟩ | ⟨hn, _, h⟩ | ⟨hn, _, _, h⟩ | ⟨hn, _, _, h⟩
  · rw [h]
  · rw [h, hn]; simp [FinTask.stage]
  · rw [h, hn]
    rcases startCbGuide_cases sp g with ⟨_, hc⟩ | ⟨_, hc⟩ <;> rw [hc] <;>
      simp [FinTask.stage]
  · rw [h, hn]; simp [FinTask.stage]

theorem finalizeEffect_done_preserve (sp : GSpec) (g : GuideDyn) (b : Bool)
    (h : g.finTask = some (.done b)) : finalizeEffect sp g = g :=
  finalizeEffect_memo sp g (by rw [h]; rfl)

theorem stopCallFn_guides (s : EState) : (stopCallFn s).guides = s.guides := by
  unfold stopCallFn
  split
  · rfl
  · split
    · rfl
    · split <;> rfl

theorem stopCallFn_startTask (s : EState) : (stopCallFn s).startTask = s.startTask := by
  unfold stopCallFn
  split
  · rfl
  · split
    · rfl
    · split <;> rfl

theorem stopCallFn_stoppedCell (s : EState) : (stopCallFn s).stoppedCell = s.stoppedCell := by
  unfold stopCallFn
  split
  · rfl
  · split
    · rfl
    · split <;> rfl

theorem stopCallFn_guide (s : EState) (i : Nat) : (stopCallFn s).guide i = s.guide i := by
  show (stopCallFn s).guides.getD i freshGuide = s.guides.getD i freshGuide
  rw [stopCallFn_guides]

/-! ### Step inversion: the exhaustive shapes of one machine step -/

/-- Exhaustive description of the possible successor states of one step. -/
inductive StepShape (spec : List GSpec) (auto : Bool) (s : EState) : EState → Prop
  | startEmpty :
      s.phase = .configured → spec.length = 0 →
      StepShape spec auto s
        { s with phase := .ready, startTask := .finishedSt true false }
  | startFirst :
      s.phase = .configured → 0 < spec.length →
      StepShape spec auto s (issueInit spec { s with phase := .starting } 0)
  | initTick (k l : Nat) :
      s.startTask = .initRunning k (l+1) →
      StepShape spec auto s { s with startTask := .initRunning k l }
  | initSettleOk (k : Nat) :
      s.startTask = .initRunning k 0 → (spec.getD k default).initOk = true →
      StepShape spec auto s
        { setGuide s k { s.guide k with mstate := .initialized, hasInst := true } with
            startTask := .initSettled k }
  | initSettleFail (k : Nat) :
      s.startTask = .initRunning k 0 → (spec.getD k default).initOk = false →
      StepShape spec auto s
        { setGuide s k { s.guide k with mstate := .initialization_failed } with
            startTask := .initSettled k }
  | contInterrupt (k : Nat) :
      s.startTask = .initSettled k → s.interrupt.isSome = true →
      StepShape spec auto s
        { s with interrupt := some true, startTask := .finishedSt false true }
  | contFail (k : Nat) :
      s.startTask = .initSettled k → s.interrupt = none →
      (s.guide k).hasInst = false →
      StepShape spec auto s
        (if auto then
          stopCallFn { s with phase := .starting_failed, startTask := .finishedSt false auto }
         else { s with phase := .starting_failed, startTask := .finishedSt false auto })
  | contAdvance (k : Nat) :
      s.startTask = .initSettled k → s.interrupt = none →
      (s.guide k).hasInst = true → k + 1 < spec.length →
      StepShape spec auto s (issueInit spec s (k+1))
  | contReady (k : Nat) :
      s.startTask = .initSettled k → s.interrupt = none →
      (s.guide k).hasInst = true → ¬ k + 1 < spec.length →
      StepShape spec auto s { s with phase := .ready, startTask := .finishedSt true false }
  | stopCalled :
      StepShape spec auto s (stopCallFn s)
  | stopWake :
      s.stopTask = some .waitingInterrupt → s.interrupt = some true →
      StepShape spec auto s { s with stopTask := some (.finLoop 0 []) }
  | barrierEnter (pos : Nat) (pend : List FinRef) :
      s.stopTask = some (.finLoop pos pend) → pos < spec.length →
      (spec.getD (spec.length - 1 - pos) default).ordered = true →
      StepShape spec auto s { s with stopTask := some (.atBarrier pos pend) }
  | finIssue (pos : Nat) (pend : List FinRef) :
      s.stopTask = some (.finLoop pos pend) → pos < spec.length →
      (spec.getD (spec.length - 1 - pos) default).ordered = false →
      StepShape spec auto s
        { setGuide s (spec.length - 1 - pos)
            (finalizeEffect (spec.getD (spec.length - 1 - pos) default)
              (s.guide (spec.length - 1 - pos))) with
          stopTask := some (.finLoop (pos+1) (pend ++ [.guideRef (spec.length - 1 - pos)])) }
  | loopEnd (pos : Nat) (pend : List FinRef) :
      s.stopTask = some (.finLoop pos pend) → ¬ pos < spec.length →
      StepShape spec auto s { s with stopTask := some (.finalWait pend) }
  | barrierPass (pos : Nat) (pend : List FinRef) :
      s.stopTask = some (.atBarrier pos pend) → pend.all (refSettled s) = true →
      StepShape spec auto s
        { setGuide s (spec.length - 1 - pos)
            (finalizeEffect (spec.getD (spec.length - 1 - pos) default)
              (s.guide (spec.length - 1 - pos))) with
          stopTask := some (.finLoop (pos+1)
            [.resolvedRef (pend.all (refStoredVal s)),
             .guideRef (spec.length - 1 - pos)]) }
  | stopFinish (pend : List FinRef) :
      s.stopTask = some (.finalWait pend) → pend.all (refSettled s) = true →
      StepShape spec auto s
        { s with
            phase := if pend.all (refStoredVal s) then Phase.stopped else .stopping_failed
          , stoppedCell := some (pend.all (refStoredVal s))
          , stopTask := some .doneStop }
  | guideResume (i : Nat) (snap : List Nat) :
      i < s.guides.length → (s.guide i).finTask = some (.waitingDeps snap) →
      snap.all (fun d => FinTask.isDone (s.guide d).finTask) = true →
      StepShape spec auto s (setGuide s i (startCbGuide (spec.getD i default) (s.guide i)))
  | guideTick (i l : Nat) :
      i < s.guides.length → (s.guide i).finTask = some (.runningCb (l+1)) →
      StepShape spec auto s
        (setGuide s i { s.guide i with finTask := some (.runningCb l) })
  | guideSettle (i : Nat) :
      i < s.guides.length → (s.guide i).finTask = some (.runningCb 0) →
      StepShape spec auto s
        (setGuide s i
          { s.guide i with
              mstate := if cbResult (spec.getD i default).cb then .finalized
                        else .finalization_failed
            , finTask := some (.done (cbResult (spec.getD i default).cb)) })

theorem stepFn_shape {spec : List GSpec} {auto : Bool} {s s' : EState} {l : Lbl}
    (h : stepFn spec auto s l = some s') : StepShape spec auto s s' := by
  cases l with
  | startCall =>
      simp only [stepFn, startCallFn] at h
      split at h
      · rename_i hph
        by_cases hlen : spec.length = 0
        · rw [if_pos hlen] at h
          injection h with h
          subst h
          exact .startEmpty hph hlen
        · rw [if_neg hlen] at h
          injection h with h
          subst h
          exact .startFirst hph (Nat.pos_of_ne_zero hlen)
      · cases h
  | startStep =>
      cases hst : s.startTask with
      | idle =>
          simp only [stepFn, startStepFn, hst] at h
          exact Option.noConfusion h
      | crashed =>
          simp only [stepFn, startStepFn, hst] at h
          exact Option.noConfusion h
      | finishedSt a b =>
          simp only [stepFn, startStepFn, hst] at h
          exact Option.noConfusion h
      | initRunning k lft =>
          cases lft with
          | succ l =>
              simp only [stepFn, startStepFn, hst] at h
              injection h with h
              subst h
              exact .initTick k l hst
          | zero =>
              simp only [stepFn, startStepFn, hst] at h
              by_cases hok : (spec.getD k default).initOk = true
              · rw [if_pos hok] at h
                injection h with h
                subst h
                exact .initSettleOk k hst hok
              · rw [if_neg hok] at h
                injection h with h
                subst h
                exact .initSettleFail k hst (by simpa using hok)
      | initSettled k =>
          simp only [stepFn, startStepFn, hst] at h
          by_cases hint : s.interrupt.isSome = true
          · rw [if_pos hint] at h
            injection h with h
            subst h
            exact .contInterrupt k hst hint
          · rw [if_neg hint] at h
            have hnone : s.interrupt = none := by
              cases hi : s.interrupt
              · rfl
              · rw [hi] at hint; simp at hint
            by_cases hinst : (s.guide k).hasInst = false
            · rw [if_pos hinst] at h
              injection h with h
              subst h
              exact .contFail k hst hnone hinst
            · rw [if_neg hinst] at h
              have hinst' : (s.guide k).hasInst = true := by simpa using hinst
              by_cases hlt : k + 1 < spec.length
              · rw [if_pos hlt] at h
                injection h with h
                subst h
                exact .contAdvance k hst hnone hinst' hlt
              · rw [if_neg hlt] at h
                injection h with h
                subst h
                exact .contReady k hst hnone hinst' hlt
  | stopCall =>
      simp only [stepFn] at h
      injection h with h
      subst h
      exact .stopCalled
  | stopStep =>
      cases hst : s.stopTask with
      | none =>
          simp only [stepFn, stopStepFn, hst] at h
          exact Option.noConfusion h
      | some t =>
          cases t with
          | waitingInterrupt =>
              simp only [stepFn, stopStepFn, hst] at h
              split at h
              · injection h with h
                subst h
                exact .stopWake hst (by assumption)
              · cases h
          | finLoop pos pend =>
              simp only [stepFn, stopStepFn, hst] at h
              by_cases hpos : pos < spec.length
              · rw [if_pos hpos] at h
                by_cases hord :
                    (spec.getD (spec.length - 1 - pos) default).ordered = true
                · rw [if_pos hord] at h
                  injection h with h
                  subst h
                  exact .barrierEnter pos pend hst hpos hord
                · rw [if_neg hord] at h
                  injection h with h
                  subst h
                  exact .finIssue pos pend hst hpos (by simpa using hord)
              · rw [if_neg hpos] at h
                injection h with h
                subst h
                exact .loopEnd pos pend hst hpos
          | atBarrier pos pend =>
              simp only [stepFn, stopStepFn, hst] at h
              split at h
              · injection h with h
                subst h
                exact .barrierPass pos pend hst (by assumption)
              · cases h
          | finalWait pend =>
              simp only [stepFn, stopStepFn, hst] at h
              split at h
              · injection h with h
                subst h
                exact .stopFinish pend hst (by assumption)
              · cases h
          | doneStop =>
              simp only [stepFn, stopStepFn, hst] at h
              exact Option.noConfusion h
  | guideStep i =>
      by_cases hlen : i < s.guides.length
      · cases hft : (s.guide i).finTask with
        | none =>
            simp only [stepFn, guideStepFn, hlen, hft, if_true] at h
            exact Option.noConfusion h
        | some t =>
            cases t with
            | waitingDeps snap =>
                simp only [stepFn, guideStepFn, hlen, hft, if_true] at h
                split at h
                · injection h with h
                  subst h
                  exact .guideResume i snap hlen hft (by assumption)
                · cases h
            | runningCb lft =>
                cases lft with
                | succ l =>
                    simp only [stepFn, guideStepFn, hlen, hft, if_true] at h
                    injection h with h
                    subst h
                    exact .guideTick i l hlen hft
                | zero =>
                    simp only [stepFn, guideStepFn, hlen, hft, if_true] at h
                    injection h with h
                    subst h
                    exact .guideSettle i hlen hft
            | done b =>
                simp only [stepFn, guideStepFn, hlen, hft, if_true] at h
                exact Option.noConfusion h
      · simp only [stepFn, guideStepFn, hlen, if_false] at h
        exact Option.noConfusion h

/-! ### Monotonicity of per-guide finalization progress -/

theorem shape_guide_mono {spec : List GSpec} {auto : Bool} {s s' : EState}
    (hs : StepShape spec auto s s') (i : Nat) :
    FinTask.stage (s.guide i).finTask ≤ FinTask.stage (s'.guide i).finTask ∧
    (∀ b, (s.guide i).finTask = some (.done b) → (s'.guide i).finTask = some (.done b)) ∧
    ((s.guide i).hasInst = true → (s'.guide i).hasInst = true) := by
  have triv : ∀ {t : EState}, t.guide i = s.guide i →
      FinTask.stage (s.guide i).finTask ≤ FinTask.stage (t.guide i).finTask ∧
      (∀ b, (s.guide i).finTask = some (.done b) → (t.guide i).finTask = some (.done b)) ∧
      ((s.guide i).hasInst = true → (t.guide i).hasInst = true) := by
    intro t ht
    rw [ht]
    exact ⟨Nat.le_refl _, fun _ hb => hb, fun hh => hh⟩
  have fe : ∀ (i0 : Nat) (st : Option StopTask),
      ({ setGuide s i0 (finalizeEffect (spec.getD i0 default) (s.guide i0)) with
          stopTask := st } : EState).guide i =
        (setGuide s i0 (finalizeEffect (spec.getD i0 default) (s.guide i0))).guide i :=
    fun _ _ => rfl
  have feMono : ∀ (i0 : Nat),
      FinTask.stage (s.guide i).finTask ≤
        FinTask.stage (((setGuide s i0
          (finalizeEffect (spec.getD i0 default) (s.guide i0))).guide i).finTask) ∧
      (∀ b, (s.guide i).finTask = some (.done b) →
        (((setGuide s i0
          (finalizeEffect (spec.getD i0 default) (s.guide i0))).guide i).finTask =
            some (.done b))) ∧
      ((s.guide i).hasInst = true →
        ((setGuide s i0
          (finalizeEffect (spec.getD i0 default) (s.guide i0))).guide i).hasInst = true) := by
    intro i0
    rcases guide_setGuide_cases s i0 i
        (finalizeEffect (spec.getD i0 default) (s.guide i0)) with ⟨hg, hii⟩ | hg
    · subst hii
      rw [hg]
      refine ⟨finalizeEffect_stage _ _, ?_, ?_⟩
      · intro b hb
        rw [finalizeEffect_done_preserve _ _ b hb]
        exact hb
      · intro hh
        rw [finalizeEffect_hasInst]
        exact hh
    · rw [hg]
      exact ⟨Nat.le_refl _, fun _ hb => hb, fun hh => hh⟩
  cases hs with
  | startEmpty hph hlen => exact triv rfl
  | startFirst hph hlen =>
      have hg := issueInit_guide spec { s with phase := Phase.starting } 0 i
      have h1 : ((issueInit spec { s with phase := Phase.starting } 0).guide i).finTask =
          (s.guide i).finTask := hg.2.2.1
      have h2 : ((issueInit spec { s with phase := Phase.starting } 0).guide i).hasInst =
          (s.guide i).hasInst := hg.2.1
      rw [h1, h2]
      exact ⟨Nat.le_refl _, fun _ hb => hb, fun hh => hh⟩
  | initTick k l hst => exact triv rfl
  | initSettleOk k hst hok =>
      rcases guide_setGuide_cases s k i
          { s.guide k with mstate := .initialized, hasInst := true } with ⟨hg, hki⟩ | hg
      · have heq2 : ({ setGuide s k { s.guide k with mstate := .initialized, hasInst := true } with
            startTask := StartTask.initSettled k } : EState).guide i =
            { s.guide k with mstate := .initialized, hasInst := true } := hg
        subst hki
        rw [heq2]
        exact ⟨Nat.le_refl _, fun _ hb => hb, fun _ => rfl⟩
      · exact triv hg
  | initSettleFail k hst hok =>
      rcases guide_setGuide_cases s k i
          { s.guide k with mstate := .initialization_failed } with ⟨hg, hki⟩ | hg
      · have heq2 : ({ setGuide s k { s.guide k with mstate := .initialization_failed } with
            startTask := StartTask.initSettled k } : EState).guide i =
            { s.guide k with mstate := .initialization_failed } := hg
        subst hki
        rw [heq2]
        exact ⟨Nat.le_refl _, fun _ hb => hb, fun hh => hh⟩
      · exact triv hg
  | contInterrupt k hst hint => exact triv rfl
  | contFail k hst hint hinst =>
      cases auto with
      | false => exact triv rfl
      | true =>
          simp only [if_true]
          exact triv (stopCallFn_guide _ i)
  | contAdvance k hst hint hinst hlt =>
      have hg := issueInit_guide spec s (k+1) i
      rw [hg.2.2.1, hg.2.1]
      exact ⟨Nat.le_refl _, fun _ hb => hb, fun hh => hh⟩
  | contReady k hst hint hinst hlt => exact triv rfl
  | stopCalled => exact triv (stopCallFn_guide s i)
  | stopWake hst hint => exact triv rfl
  | barrierEnter pos pend hst hpos hord => exact triv rfl
  | finIssue pos pend hst hpos hord =>
      rw [fe]
      exact feMono _
  | loopEnd pos pend hst hpos => exact triv rfl
  | barrierPass pos pend hst hall =>
      rw [fe]
      exact feMono _
  | stopFinish pend hst hall => exact triv rfl
  | guideResume j snap hlen hft hall =>
      rcases guide_setGuide_cases s j i
          (startCbGuide (spec.getD j default) (s.guide j)) with ⟨hg, hji⟩ | hg
      · subst hji
        rw [hg]
        refine ⟨?_, ?_, ?_⟩
        · rcases startCbGuide_cases (spec.getD j default) (s.guide j) with ⟨_, hc⟩ | ⟨_, hc⟩ <;>
            rw [hc, hft] <;> simp [FinTask.stage]
        · intro b hb
          rw [hft] at hb
          simp at hb
        · intro hh
          rw [startCbGuide_hasInst]
          exact hh
      · exact triv hg
  | guideTick j l hlen hft =>
      rcases guide_setGuide_cases s j i
          { s.guide j with finTask := some (.runningCb l) } with ⟨hg, hji⟩ | hg
      · subst hji
        rw [hg, hft]
        refine ⟨by simp [FinTask.stage], ?_, fun hh => hh⟩
        intro b hb
        simp at hb
      · exact triv hg
  | guideSettle j hlen hft =>
      rcases guide_setGuide_cases s j i
          { s.guide j with
              mstate := if cbResult (spec.getD j default).cb then .finalized
                        else .finalization_failed
            , finTask := some (.done (cbResult (spec.getD j default).cb)) } with
        ⟨hg, hji⟩ | hg
      · subst hji
        rw [hg, hft]
        refine ⟨by simp [FinTask.stage], ?_, fun hh => hh⟩
        intro b hb
        simp at hb
      · exact triv hg

theorem step_guide_mono {spec : List GSpec} {auto : Bool} {s s' : EState} {l : Lbl}
    (h : stepFn spec auto s l = some s') (i : Nat) :
    FinTask.stage (s.guide i).finTask ≤ FinTask.stage (s'.guide i).finTask ∧
    (∀ b, (s.guide i).finTask = some (.done b) → (s'.guide i).finTask = some (.done b)) ∧
    ((s.guide i).hasInst = true → (s'.guide i).hasInst = true) :=
  shape_guide_mono (stepFn_shape h) i

theorem reaches_guide_mono {spec : List GSpec} {auto : Bool} {s : EState} {tr : List Lbl}
    {s' : EState} (h : Reaches spec auto s tr s') (i : Nat) :
    FinTask.stage (s.guide i).finTask ≤ FinTask.stage (s'.guide i).finTask ∧
    (∀ b, (s.guide i).finTask = some (.done b) → (s'.guide i).finTask = some (.done b)) ∧
    ((s.guide i).hasInst = true → (s'.guide i).hasInst = true) := by
  induction h with
  | refl s => exact ⟨Nat.le_refl _, fun _ hb => hb, fun hh => hh⟩
  | head hstep _ ih =>
      have h1 := step_guide_mono hstep i
      exact ⟨Nat.le_trans h1.1 ih.1, fun b hb => ih.2.1 b (h1.2.1 b hb),
        fun hh => ih.2.2 (h1.2.2 hh)⟩

/-! ### The reachability invariant -/

/-- Guide `j` succeeded during start: its descriptor initialize resolves
and the instance was stored. -/
def runGood (spec : List GSpec) (s : EState) (j : Nat) : Prop :=
  (spec.getD j default).initOk = true ∧ (s.guide j).hasInst = true

/-- Guide `j` was not touched by the start loop (yet). -/
def freshish (s : EState) (j : Nat) : Prop :=
  (s.guide j).mstate = .configured ∧ (s.guide j).hasInst = false

/-- Whether the finalization pass has begun iterating the guides. -/
def inPass : Option StopTask → Bool
  | some (.finLoop _ _) => true
  | some (.atBarrier _ _) => true
  | some (.finalWait _) => true
  | some .doneStop => true
  | _ => false

def isFinishedSt : StartTask → Bool
  | .finishedSt _ _ => true
  | _ => false

/-- Conjunction of the eventual finalize results of the first `pos` guides
in reverse registration order. -/
def allRes (spec : List GSpec) (s : EState) (pos : Nat) : Bool :=
  (List.range pos).all (fun q => finResultD spec s (spec.length - 1 - q))

theorem isDone_iff (t : Option FinTask) :
    FinTask.isDone t = true ↔ ∃ b, t = some (.done b) := by
  cases t with
  | none => simp [FinTask.isDone]
  | some u => cases u <;> simp [FinTask.isDone]

theorem isDone_stage {t : Option FinTask} (h : FinTask.isDone t = true) :
    2 ≤ FinTask.stage t := by
  rcases (isDone_iff t).1 h with ⟨b, rfl⟩
  simp [FinTask.stage]

theorem stage2_not_none {t : Option FinTask} (h : 2 ≤ FinTask.stage t) : t ≠ none := by
  intro hn
  rw [hn] at h
  simp [FinTask.stage] at h

/-- Which guides have had their finalize issued, as a function of the pass
position: exactly the first `pos` guides in reverse registration order. -/
def IssuanceP (spec : List GSpec) (s : EState) : Option StopTask → Prop
  | none => ∀ i, (s.guide i).finTask = none
  | some .waitingInterrupt => ∀ i, (s.guide i).finTask = none
  | some (.finLoop pos _) => pos ≤ spec.length ∧
      ∀ q, q < spec.length →
        ((s.guide (spec.length - 1 - q)).finTask ≠ none ↔ q < pos)
  | some (.atBarrier pos _) => pos < spec.length ∧
      ∀ q, q < spec.length →
        ((s.guide (spec.length - 1 - q)).finTask ≠ none ↔ q < pos)
  | some (.finalWait _) => ∀ q, q < spec.length →
      (s.guide (spec.length - 1 - q)).finTask ≠ none
  | some .doneStop => ∀ q, q < spec.length →
      FinTask.isDone (s.guide (spec.length - 1 - q)).finTask = true

/-- Every guide issued before reverse position `pos` is settled or still
tracked by an entry of `pend`. -/
def CoverUpTo (spec : List GSpec) (s : EState) (pos : Nat) (pend : List FinRef) : Prop :=
  ∀ q, q < pos →
    (FinTask.isDone (s.guide (spec.length - 1 - q)).finTask = true ∨
      FinRef.guideRef (spec.length - 1 - q) ∈ pend)

def PendCoverP (spec : List GSpec) (s : EState) : Option StopTask → Prop
  | some (.finLoop pos pend) => CoverUpTo spec s pos pend
  | some (.atBarrier pos pend) => CoverUpTo spec s pos pend
  | some (.finalWait pend) => CoverUpTo spec s spec.length pend
  | _ => True

/-- Every guide before a passed ordered-finalization barrier has settled. -/
def HistUpTo (spec : List GSpec) (s : EState) (pos : Nat) : Prop :=
  ∀ b, b < pos →
    (spec.getD (spec.length - 1 - b) default).ordered = true →
    ∀ r, r < b → FinTask.isDone (s.guide (spec.length - 1 - r)).finTask = true

def BarrierHistP (spec : List GSpec) (s : EState) : Option StopTask → Prop
  | some (.finLoop pos _) => HistUpTo spec s pos
  | some (.atBarrier pos _) => HistUpTo spec s pos
  | some (.finalWait _) => HistUpTo spec s spec.length
  | _ => True

/-- The eventual conjunction of the pending array equals the conjunction of
the eventual results of all guides issued so far. -/
def VerdictP (spec : List GSpec) (s : EState) : Option StopTask → Prop
  | some (.finLoop pos pend) => pend.all (refVal spec s) = allRes spec s pos
  | some (.atBarrier pos pend) => pend.all (refVal spec s) = allRes spec s pos
  | some (.finalWait pend) => pend.all (refVal spec s) = allRes spec s spec.length
  | _ => True

/-- The invariant maintained by every machine step from the initial state. -/
structure Inv (spec : List GSpec) (auto : Bool) (s : EState) : Prop where
  len : s.guides.length = spec.length
  depInst : ∀ i, (s.guide i).dependents ≠ [] → (s.guide i).hasInst = true
  waitInv : ∀ i snap, (s.guide i).finTask = some (.waitingDeps snap) →
      snap = (s.guide i).dependents ∧ (s.guide i).mstate = .awaiting_finalization ∧
      (s.guide i).hasInst = true
  runInv : ∀ i lft, (s.guide i).finTask = some (.runningCb lft) →
      (spec.getD i default).hasCb = true ∧ (s.guide i).hasInst = true ∧
      (s.guide i).mstate = .finalizing
  stageDeps : ∀ i, 2 ≤ FinTask.stage (s.guide i).finTask →
      ∀ d, d ∈ (s.guide i).dependents → FinTask.isDone (s.guide d).finTask = true
  mstageCorr : ∀ i,
      ((s.guide i).mstate = .finalizing ∨ (s.guide i).mstate = .finalized ∨
        (s.guide i).mstate = .finalization_failed) →
      2 ≤ FinTask.stage (s.guide i).finTask
  doneVal : ∀ i b, (s.guide i).finTask = some (.done b) → b = finResultD spec s i
  issuance : IssuanceP spec s s.stopTask
  pendCover : PendCoverP spec s s.stopTask
  barrierHist : BarrierHistP spec s s.stopTask
  verdict : VerdictP spec s s.stopTask
  doneSummary : s.stopTask = some .doneStop →
      s.phase = (if allRes spec s spec.length then Phase.stopped
                 else .stopping_failed) ∧
      s.stoppedCell = some (allRes spec s spec.length)
  cellDone : ∀ b, s.stoppedCell = some b → s.stopTask = some .doneStop
  intrPend : s.interrupt = some false →
      s.phase = .stopping ∧ s.stopTask = some .waitingInterrupt
  intrRes : s.interrupt = some true → s.startTask = .finishedSt false true
  intrPhase : s.interrupt ≠ none →
      s.phase = .stopping ∨ s.phase = .stopped ∨ s.phase = .stopping_failed
  passStart : inPass s.stopTask = true → isFinishedSt s.startTask = true
  phaseReady : s.phase = .ready → s.startTask = .finishedSt true false
  phaseStF : s.phase = .starting_failed → ∃ b, s.startTask = .finishedSt false b
  phaseStarting : s.phase = .starting → isFinishedSt s.startTask = false
  taskPhase : s.stopTask ≠ none →
      s.phase = .stopping ∨ s.phase = .stopped ∨ s.phase = .stopping_failed
  stoppingTask :
      (s.phase = .stopping ∨ s.phase = .stopped ∨ s.phase = .stopping_failed) →
      s.stopTask ≠ none
  waitIntr : s.stopTask = some .waitingInterrupt → s.interrupt ≠ none
  cfgFresh : s.phase = .configured →
      s.startTask = .idle ∧ s.stopTask = none ∧ s.interrupt = none ∧
      ∀ i, s.guide i = freshGuide
  startRun : ∀ k lft, s.startTask = .initRunning k lft →
      k < spec.length ∧ (s.guide k).mstate = .initializing ∧
      (s.guide k).hasInst = false ∧ (s.phase = .starting ∨ s.phase = .stopping) ∧
      (∀ j, j < k → runGood spec s j) ∧ (∀ j, k < j → freshish s j)
  startSet : ∀ k, s.startTask = .initSettled k →
      k < spec.length ∧ (s.phase = .starting ∨ s.phase = .stopping) ∧
      (∀ j, j < k → runGood spec s j) ∧ (∀ j, k < j → freshish s j) ∧
      (s.guide k).hasInst = (spec.getD k default).initOk ∧
      (s.guide k).mstate = (if (spec.getD k default).initOk then ModState.initialized
                            else .initialization_failed)
  startFinT : ∀ b, s.startTask = .finishedSt true b →
      b = false ∧ ∀ j, j < spec.length → runGood spec s j
  startFinF : ∀ b, s.startTask = .finishedSt false b → s.interrupt = none →
      b = auto ∧ ∃ k, k < spec.length ∧ (spec.getD k default).initOk = false ∧
        (∀ j, j < k → runGood spec s j) ∧ (∀ j, k < j → freshish s j) ∧
        (s.guide k).hasInst = false
  startFinI : ∀ b, s.startTask = .finishedSt false b → s.interrupt ≠ none → b = true

theorem getD_const {α β : Type} (c : β) :
    ∀ (l : List α) (i : Nat), (l.map fun _ => c).getD i c = c
  | [], _ => rfl
  | _ :: _, 0 => rfl
  | _ :: xs, i+1 => getD_const c xs i

theorem inv_init (spec : List GSpec) (auto : Bool) : Inv spec auto (initState spec) := by
  have hg : ∀ i, (initState spec).guide i = freshGuide := by
    intro i
    exact getD_const freshGuide spec i
  refine ⟨by simp [initState], ?_, ?_, ?_, ?_, ?_, ?_, ?_, ?_, ?_, ?_, ?_, ?_, ?_, ?_,
    ?_, ?_, ?_, ?_, ?_, ?_, ?_, ?_, ?_, ?_, ?_, ?_, ?_, ?_⟩
  · intro i h
    rw [hg i] at h
    simp [freshGuide] at h
  · intro i snap h
    rw [hg i] at h
    simp [freshGuide] at h
  · intro i lft h
    rw [hg i] at h
    simp [freshGuide] at h
  · intro i h
    rw [hg i] at h
    simp [freshGuide, FinTask.stage] at h
  · intro i h
    rw [hg i] at h
    simp [freshGuide] at h
  · intro i b h
    rw [hg i] at h
    simp [freshGuide] at h
  · show ∀ i, ((initState spec).guide i).finTask = none
    intro i
    rw [hg i]
    rfl
  · trivial
  · trivial
  · trivial
  · intro h
    simp [initState] at h
  · intro b h
    simp [initState] at h
  · intro h
    simp [initState] at h
  · intro h
    simp [initState] at h
  · intro h
    simp [initState] at h
  · intro h
    simp [initState, inPass] at h
  · intro h
    simp [initState] at h
  · intro h
    simp [initState] at h
  · intro h
    simp [initState] at h
  · intro h
    simp [initState] at h
  · intro h
    rcases h with h | h | h <;> simp [initState] at h
  · intro h
    simp [initState] at h
  · intro _
    exact ⟨rfl, rfl, rfl, hg⟩
  · intro k lft h
    simp [initState] at h
  · intro k h
    simp [initState] at h
  · intro b h
    simp [initState] at h
  · intro b h _
    simp [initState] at h
  · intro b h _
    simp [initState] at h

theorem prePass_of_notFinished {spec : List GSpec} {auto : Bool} {s : EState}
    (hInv : Inv spec auto s) (h : isFinishedSt s.startTask = false) :
    (s.stopTask = none ∨ s.stopTask = some .waitingInterrupt) ∧
    ∀ i, (s.guide i).finTask = none := by
  cases hsp : s.stopTask with
  | none =>
      have h2 := hInv.issuance
      rw [hsp] at h2
      exact ⟨.inl rfl, h2⟩
  | some t =>
      cases t with
      | waitingInterrupt =>
          have h2 := hInv.issuance
          rw [hsp] at h2
          exact ⟨.inr rfl, h2⟩
      | finLoop pos pend =>
          have h2 := hInv.passStart (by rw [hsp]; rfl)
          rw [h] at h2
          simp at h2
      | atBarrier pos pend =>
          have h2 := hInv.passStart (by rw [hsp]; rfl)
          rw [h] at h2
          simp at h2
      | finalWait pend =>
          have h2 := hInv.passStart (by rw [hsp]; rfl)
          rw [h] at h2
          simp at h2
      | doneStop =>
          have h2 := hInv.passStart (by rw [hsp]; rfl)
          rw [h] at h2
          simp at h2

theorem finalizeEffect_none_not_none (sp : GSpec) (g : GuideDyn)
    (h : g.finTask = none) : (finalizeEffect sp g).finTask ≠ none := by
  rcases finalizeEffect_cases sp g with ⟨h1, h2⟩ | ⟨_, _, h2⟩ | ⟨_, _, _, h2⟩ | ⟨_, _, _, h2⟩
  · rw [h] at h1; simp at h1
  · rw [h2]; simp
  · rw [h2]
    rcases startCbGuide_cases sp g with ⟨_, hc⟩ | ⟨_, hc⟩ <;> rw [hc] <;> simp
  · rw [h2]; simp

theorem finalizeEffect_mstate_noInst (sp : GSpec) (g : GuideDyn)
    (h : g.hasInst = false) : (finalizeEffect sp g).mstate = g.mstate := by
  rcases finalizeEffect_cases sp g with ⟨_, h2⟩ | ⟨_, _, h2⟩ | ⟨_, hi, _, _⟩ | ⟨_, hi, _, _⟩
  · rw [h2]
  · rw [h2]
  · rw [h] at hi; simp at hi
  · rw [h] at hi; simp at hi

@[simp] theorem finalizeEffect_dependents (sp : GSpec) (g : GuideDyn) :
    (finalizeEffect sp g).dependents = g.dependents := by
  rcases finalizeEffect_cases sp g with ⟨_, h2⟩ | ⟨_, _, h2⟩ | ⟨_, _, _, h2⟩ | ⟨_, _, _, h2⟩ <;>
    rw [h2] <;> simp

theorem all_congrB {α : Type} :
    ∀ (l : List α) (f g : α → Bool), (∀ x, x ∈ l → f x = g x) → l.all f = l.all g
  | [], _, _, _ => rfl
  | x :: xs, f, g, h => by
      simp only [List.all_cons]
      rw [h x (by simp), all_congrB xs f g (fun y hy => h y (by simp [hy]))]

theorem refStored_eq {spec : List GSpec} {s : EState}
    (hdv : ∀ i b, (s.guide i).finTask = some (.done b) → b = finResultD spec s i)
    (r : FinRef) (hr : refSettled s r = true) :
    refStoredVal s r = refVal spec s r := by
  cases r with
  | resolvedRef b => rfl
  | guideRef i =>
      have hd := (isDone_iff _).1 hr
      obtain ⟨b, hb⟩ := hd
      show (match (s.guide i).finTask with
            | some (.done b) => b
            | _ => true) = finResultD spec s i
      rw [hb]
      exact hdv i b hb

theorem finResultD_of_hasInst_eq {spec : List GSpec} {s t : EState}
    (h : ∀ j, (t.guide j).hasInst = (s.guide j).hasInst) (i : Nat) :
    finResultD spec t i = finResultD spec s i := by
  unfold finResultD
  rw [h i]

theorem refVal_of_hasInst_eq {spec : List GSpec} {s t : EState}
    (h : ∀ j, (t.guide j).hasInst = (s.guide j).hasInst) (r : FinRef) :
    refVal spec t r = refVal spec s r := by
  cases r with
  | resolvedRef b => rfl
  | guideRef i =>
      show finResultD spec t i = finResultD spec s i
      exact finResultD_of_hasInst_eq h i

theorem allRes_of_hasInst_eq {spec : List GSpec} {s t : EState}
    (h : ∀ j, (t.guide j).hasInst = (s.guide j).hasInst) (pos : Nat) :
    allRes spec t pos = allRes spec s pos := by
  unfold allRes
  exact all_congrB _ _ _ (fun q _ => finResultD_of_hasInst_eq h _)

theorem issueInit_mstate_self (spec : List GSpec) (s : EState) (k : Nat)
    (hk : k < s.guides.length) :
    ((issueInit spec s k).guide k).mstate = .initializing := by
  have heq := issueInit_guide_eq spec s k k
  have hreg := (regDeps_guide k (spec.getD k default).deps
    (setGuide s k { s.guide k with mstate := .initializing }).guides k).1
  have hconv : (setGuide s k { s.guide k with mstate := .initializing }).guides.getD k
      freshGuide = (setGuide s k { s.guide k with mstate := .initializing }).guide k := rfl
  rw [hconv] at hreg
  rw [heq, hreg, guide_setGuide_self hk]

theorem inv_startEmpty {spec : List GSpec} {auto : Bool} {s : EState}
    (hInv : Inv spec auto s) (hph : s.phase = .configured) (hlen : spec.length = 0) :
    Inv spec auto { s with phase := .ready, startTask := .finishedSt true false } := by
  obtain ⟨hidle, hstop, hintr, hfresh⟩ := hInv.cfgFresh hph
  have hstopT : ({ s with
      phase := Phase.ready,
      startTask := StartTask.finishedSt true false } : EState).stopTask = none := hstop
  have hintrT : ({ s with
      phase := Phase.ready,
      startTask := StartTask.finishedSt true false } : EState).interrupt = none := hintr
  refine
    { len := hInv.len, depInst := hInv.depInst, waitInv := hInv.waitInv,
      runInv := hInv.runInv,
      stageDeps := hInv.stageDeps, mstageCorr := hInv.mstageCorr,
      doneVal := hInv.doneVal, issuance := hInv.issuance,
      pendCover := hInv.pendCover, barrierHist := hInv.barrierHist,
      verdict := hInv.verdict, doneSummary := ?_, cellDone := ?_,
      intrPend := ?_, intrRes := ?_, intrPhase := ?_, passStart := ?_,
      phaseReady := ?_, phaseStF := ?_, phaseStarting := ?_,
      taskPhase := ?_, stoppingTask := ?_,
      waitIntr := ?_, cfgFresh := ?_, startRun := ?_, startSet := ?_,
      startFinT := ?_, startFinF := ?_, startFinI := ?_ }
  · intro h
    rw [hstopT] at h
    exact Option.noConfusion h
  · intro b hb
    have := hInv.cellDone b hb
    rw [hstop] at this
    exact Option.noConfusion this
  · intro h
    rw [hintrT] at h
    exact Option.noConfusion h
  · intro h
    rw [hintrT] at h
    exact Option.noConfusion h
  · intro h
    rw [hintrT] at h
    simp at h
  · intro h
    rw [hstopT] at h
    simp [inPass] at h
  · intro _
    rfl
  · intro h
    simp at h
  · intro h
    simp at h
  · intro h
    rw [hstopT] at h
    simp at h
  · intro h
    rcases h with h | h | h <;> simp at h
  · intro h
    rw [hstopT] at h
    exact Option.noConfusion h
  · intro h
    simp at h
  · intro k lft h
    simp at h
  · intro k h
    simp at h
  · intro b h
    refine ⟨by injection h with h1 h2; exact h2.symm, ?_⟩
    intro j hj
    omega
  · intro b h
    injection h with h1 h2
    simp at h1
  · intro b h
    injection h with h1 h2
    simp at h1

theorem inv_initTick {spec : List GSpec} {auto : Bool} {s : EState} {k l : Nat}
    (hInv : Inv spec auto s) (hst : s.startTask = .initRunning k (l+1)) :
    Inv spec auto { s with startTask := .initRunning k l } := by
  obtain ⟨hk, hmst, hinst, hph, hgood, hfresh⟩ := hInv.startRun k (l+1) hst
  refine
    { len := hInv.len, depInst := hInv.depInst, waitInv := hInv.waitInv,
      runInv := hInv.runInv,
      stageDeps := hInv.stageDeps, mstageCorr := hInv.mstageCorr,
      doneVal := hInv.doneVal, issuance := hInv.issuance,
      pendCover := hInv.pendCover, barrierHist := hInv.barrierHist,
      verdict := hInv.verdict, doneSummary := hInv.doneSummary,
      cellDone := hInv.cellDone, intrPend := hInv.intrPend,
      intrRes := ?_, intrPhase := hInv.intrPhase, passStart := ?_,
      phaseReady := ?_, phaseStF := ?_, phaseStarting := ?_,
      taskPhase := hInv.taskPhase,
      stoppingTask := hInv.stoppingTask, waitIntr := hInv.waitIntr,
      cfgFresh := ?_, startRun := ?_, startSet := ?_,
      startFinT := ?_, startFinF := ?_, startFinI := ?_ }
  · intro h
    have h2 := hInv.intrRes h
    rw [hst] at h2
    simp at h2
  · intro h
    have h2 := hInv.passStart h
    rw [hst] at h2
    simp [isFinishedSt] at h2
  · intro h
    have h2 := hInv.phaseReady h
    rw [hst] at h2
    simp at h2
  · intro h
    have h2 := hInv.phaseStF h
    rw [hst] at h2
    obtain ⟨b, h2⟩ := h2
    simp at h2
  · intro _
    rfl
  · intro h
    have h2 := (hInv.cfgFresh h).1
    rw [hst] at h2
    simp at h2
  · intro k' lft' h
    injection h with h1 h2
    subst h1
    subst h2
    exact hInv.startRun k (l+1) hst
  · intro k' h
    simp at h
  · intro b h
    simp at h
  · intro b h
    simp at h
  · intro b h
    simp at h

theorem inv_contInterrupt {spec : List GSpec} {auto : Bool} {s : EState} {k : Nat}
    (hInv : Inv spec auto s) (hst : s.startTask = .initSettled k)
    (hint : s.interrupt.isSome = true) :
    Inv spec auto { s with interrupt := some true, startTask := .finishedSt false true } := by
  have hintf : s.interrupt = some false := by
    cases hi : s.interrupt with
    | none => rw [hi] at hint; simp at hint
    | some b =>
        cases b with
        | false => rfl
        | true =>
            have h2 := hInv.intrRes hi
            rw [hst] at h2
            simp at h2
  obtain ⟨hphase, hwait⟩ := hInv.intrPend hintf
  refine
    { len := hInv.len, depInst := hInv.depInst, waitInv := hInv.waitInv,
      runInv := hInv.runInv,
      stageDeps := hInv.stageDeps, mstageCorr := hInv.mstageCorr,
      doneVal := hInv.doneVal, issuance := hInv.issuance,
      pendCover := hInv.pendCover, barrierHist := hInv.barrierHist,
      verdict := hInv.verdict, doneSummary := hInv.doneSummary,
      cellDone := hInv.cellDone, intrPend := ?_, intrRes := ?_,
      intrPhase := ?_, passStart := ?_, phaseReady := ?_, phaseStF := ?_,
      phaseStarting := ?_,
      taskPhase := hInv.taskPhase, stoppingTask := hInv.stoppingTask,
      waitIntr := ?_, cfgFresh := ?_, startRun := ?_, startSet := ?_,
      startFinT := ?_, startFinF := ?_, startFinI := ?_ }
  · intro h
    have h2 : (some true : Option Bool) = some false := h
    simp at h2
  · intro _
    rfl
  · intro _
    exact .inl hphase
  · intro h
    have h2 : inPass s.stopTask = true := h
    rw [hwait] at h2
    simp [inPass] at h2
  · intro h
    have h2 : s.phase = .ready := h
    rw [hphase] at h2
    simp at h2
  · intro h
    have h2 : s.phase = .starting_failed := h
    rw [hphase] at h2
    simp at h2
  · intro h
    have h2 : s.phase = .starting := h
    rw [hphase] at h2
    simp at h2
  · intro _
    have h2 : (some true : Option Bool) ≠ none := by simp
    exact h2
  · intro h
    have h2 : s.phase = .configured := h
    rw [hphase] at h2
    simp at h2
  · intro k' lft' h
    simp at h
  · intro k' h
    simp at h
  · intro b h
    injection h with h1 h2
    simp at h1
  · intro b h hn
    have h2 : (some true : Option Bool) = none := hn
    simp at h2
  · intro b h _
    injection h with h1 h2
    exact h2.symm

theorem inv_contReady {spec : List GSpec} {auto : Bool} {s : EState} {k : Nat}
    (hInv : Inv spec auto s) (hst : s.startTask = .initSettled k)
    (hint : s.interrupt = none) (hinst : (s.guide k).hasInst = true)
    (hlt : ¬ k + 1 < spec.length) :
    Inv spec auto { s with phase := .ready, startTask := .finishedSt true false } := by
  obtain ⟨hk, hph, hgood, hfresh, hinsteq, hmst⟩ := hInv.startSet k hst
  have hstopN : s.stopTask = none := by
    cases hsp : s.stopTask with
    | none => rfl
    | some t =>
        cases t with
        | waitingInterrupt =>
            have := hInv.waitIntr hsp
            exact absurd hint this
        | finLoop pos pend =>
            have h2 := hInv.passStart (by rw [hsp]; rfl)
            rw [hst] at h2
            simp [isFinishedSt] at h2
        | atBarrier pos pend =>
            have h2 := hInv.passStart (by rw [hsp]; rfl)
            rw [hst] at h2
            simp [isFinishedSt] at h2
        | finalWait pend =>
            have h2 := hInv.passStart (by rw [hsp]; rfl)
            rw [hst] at h2
            simp [isFinishedSt] at h2
        | doneStop =>
            have h2 := hInv.passStart (by rw [hsp]; rfl)
            rw [hst] at h2
            simp [isFinishedSt] at h2
  have hiss := hInv.issuance
  rw [hstopN] at hiss
  have htT : ({ s with
      phase := Phase.ready,
      startTask := StartTask.finishedSt true false } : EState).stopTask = none := hstopN
  refine
    { len := hInv.len, depInst := hInv.depInst, waitInv := hInv.waitInv,
      runInv := hInv.runInv,
      stageDeps := hInv.stageDeps, mstageCorr := hInv.mstageCorr,
      doneVal := hInv.doneVal, issuance := ?_,
      pendCover := ?_, barrierHist := ?_, verdict := ?_, doneSummary := ?_,
      cellDone := hInv.cellDone, intrPend := ?_, intrRes := ?_,
      intrPhase := ?_, passStart := ?_, phaseReady := ?_, phaseStF := ?_,
      phaseStarting := ?_,
      taskPhase := ?_, stoppingTask := ?_, waitIntr := ?_,
      cfgFresh := ?_, startRun := ?_, startSet := ?_,
      startFinT := ?_, startFinF := ?_, startFinI := ?_ }
  · show IssuanceP spec _ _
    rw [htT]
    intro i
    exact hiss i
  · show PendCoverP spec _ _
    rw [htT]
    trivial
  · show BarrierHistP spec _ _
    rw [htT]
    trivial
  · show VerdictP spec _ _
    rw [htT]
    trivial
  · intro h
    have h2 : s.stopTask = some .doneStop := h
    rw [hstopN] at h2
    exact Option.noConfusion h2
  · intro h
    have h2 : s.interrupt = some false := h
    rw [hint] at h2
    exact Option.noConfusion h2
  · intro h
    have h2 : s.interrupt = some true := h
    rw [hint] at h2
    exact Option.noConfusion h2
  · intro h
    have h2 : s.interrupt ≠ none := h
    exact absurd hint h2
  · intro h
    have h2 : inPass s.stopTask = true := h
    rw [hstopN] at h2
    simp [inPass] at h2
  · intro _
    rfl
  · intro h
    simp at h
  · intro h
    simp at h
  · intro h
    have h2 : s.stopTask ≠ none := h
    exact absurd hstopN h2
  · intro h
    rcases h with h | h | h <;> simp at h
  · intro h
    have h2 : s.stopTask = some .waitingInterrupt := h
    rw [hstopN] at h2
    exact Option.noConfusion h2
  · intro h
    simp at h
  · intro k' lft' h
    simp at h
  · intro k' h
    simp at h
  · intro b h
    injection h with h1 h2
    refine ⟨h2.symm, ?_⟩
    intro j hj
    by_cases hjk : j < k
    · exact hgood j hjk
    · have : j = k := by omega
      subst this
      constructor
      · rw [← hinsteq]
        exact hinst
      · exact hinst
  · intro b h
    injection h with h1 h2
    simp at h1
  · intro b h
    injection h with h1 h2
    simp at h1

theorem inv_issueInit_aux {spec : List GSpec} {auto : Bool} {s1 : EState} {k0 : Nat}
    (hInv : Inv spec auto s1)
    (hph : s1.phase = .starting)
    (hstop : s1.stopTask = none)
    (hint : s1.interrupt = none)
    (hk0 : k0 < spec.length)
    (hgood : ∀ j, j < k0 → runGood spec s1 j)
    (hfresh : ∀ j, k0 ≤ j → freshish s1 j) :
    Inv spec auto (issueInit spec s1 k0) := by
  have hTN : ∀ i, (s1.guide i).finTask = none := by
    have h2 := hInv.issuance
    rw [hstop] at h2
    exact h2
  have hconst := issueInit_const spec s1 k0
  have hguide := issueInit_guide spec s1 k0
  have htT : (issueInit spec s1 k0).stopTask = none := hconst.2.2.2.1.trans hstop
  have htP : (issueInit spec s1 k0).phase = Phase.starting := hconst.1.trans hph
  have htI : (issueInit spec s1 k0).interrupt = none := hconst.2.1.trans hint
  have hFT : ∀ i, ((issueInit spec s1 k0).guide i).finTask = none :=
    fun i => ((hguide i).2.2.1).trans (hTN i)
  refine
    { len := hconst.2.2.2.2.trans hInv.len, depInst := ?_, waitInv := ?_, runInv := ?_,
      stageDeps := ?_, mstageCorr := ?_, doneVal := ?_, issuance := ?_,
      pendCover := ?_, barrierHist := ?_, verdict := ?_, doneSummary := ?_,
      cellDone := ?_, intrPend := ?_, intrRes := ?_,
      intrPhase := ?_, passStart := ?_, phaseReady := ?_,
      phaseStF := ?_, phaseStarting := ?_, taskPhase := ?_,
      stoppingTask := ?_, waitIntr := ?_,
      cfgFresh := ?_, startRun := ?_, startSet := ?_,
      startFinT := ?_, startFinF := ?_, startFinI := ?_ }
  · intro i hne
    rcases (hguide i).2.2.2 with hd | hi
    · rw [hd] at hne
      rw [(hguide i).2.1]
      exact hInv.depInst i hne
    · rw [(hguide i).2.1]
      exact hi
  · intro i snap hsn
    rw [hFT i] at hsn
    exact Option.noConfusion hsn
  · intro i lft hsn
    rw [hFT i] at hsn
    exact Option.noConfusion hsn
  · intro i h2 d hd
    exact absurd (hFT i) (stage2_not_none h2)
  · intro i htrio
    exfalso
    rcases (hguide i).1 with h1 | ⟨hik, hinit⟩
    · rw [h1] at htrio
      have h3 := hInv.mstageCorr i htrio
      exact absurd (hTN i) (stage2_not_none h3)
    · rw [hinit] at htrio
      rcases htrio with h | h | h <;> simp at h
  · intro i b hb
    rw [hFT i] at hb
    exact Option.noConfusion hb
  · rw [htT]
    exact hFT
  · rw [htT]
    trivial
  · rw [htT]
    trivial
  · rw [htT]
    trivial
  · intro h
    rw [htT] at h
    exact Option.noConfusion h
  · intro b hb
    rw [hconst.2.2.1] at hb
    have h2 := hInv.cellDone b hb
    rw [hstop] at h2
    exact Option.noConfusion h2
  · intro h
    rw [htI] at h
    exact Option.noConfusion h
  · intro h
    rw [htI] at h
    exact Option.noConfusion h
  · intro h
    rw [htI] at h
    simp at h
  · intro h
    rw [htT] at h
    simp [inPass] at h
  · intro h
    rw [htP] at h
    simp at h
  · intro h
    rw [htP] at h
    simp at h
  · intro _
    rcases issueInit_startTask spec s1 k0 with hr | hc
    · rw [hr]
      rfl
    · rw [hc]
      rfl
  · intro h
    rw [htT] at h
    exact absurd rfl h
  · intro h
    rcases h with h | h | h <;> rw [htP] at h <;> simp at h
  · intro h
    rw [htT] at h
    exact Option.noConfusion h
  · intro h
    rw [htP] at h
    simp at h
  · intro k' lft h
    rcases issueInit_startTask spec s1 k0 with hr | hc
    · rw [hr] at h
      injection h with h1 h2
      subst h1
      have hklen : k0 < s1.guides.length := by rw [hInv.len]; exact hk0
      refine ⟨hk0, issueInit_mstate_self spec s1 k0 hklen, ?_, .inl htP, ?_, ?_⟩
      · rw [(hguide k0).2.1]
        exact (hfresh k0 (Nat.le_refl _)).2
      · intro j hj
        refine ⟨(hgood j hj).1, ?_⟩
        rw [(hguide j).2.1]
        exact (hgood j hj).2
      · intro j hj
        constructor
        · rcases (hguide j).1 with h1 | ⟨hjk, _⟩
          · rw [h1]
            exact (hfresh j (by omega)).1
          · omega
        · rw [(hguide j).2.1]
          exact (hfresh j (by omega)).2
    · rw [hc] at h
      simp at h
  · intro k' h
    rcases issueInit_startTask spec s1 k0 with hr | hc
    · rw [hr] at h
      simp at h
    · rw [hc] at h
      simp at h
  · intro b h
    rcases issueInit_startTask spec s1 k0 with hr | hc
    · rw [hr] at h
      simp at h
    · rw [hc] at h
      simp at h
  · intro b h
    rcases issueInit_startTask spec s1 k0 with hr | hc
    · rw [hr] at h
      simp at h
    · rw [hc] at h
      simp at h
  · intro b h
    rcases issueInit_startTask spec s1 k0 with hr | hc
    · rw [hr] at h
      simp at h
    · rw [hc] at h
      simp at h

theorem inv_startFirst {spec : List GSpec} {auto : Bool} {s : EState}
    (hInv : Inv spec auto s) (hph : s.phase = .configured) (hn : 0 < spec.length) :
    Inv spec auto (issueInit spec { s with phase := .starting } 0) := by
  obtain ⟨hidle, hstop, hint, hfresh⟩ := hInv.cfgFresh hph
  have hInv1 : Inv spec auto { s with phase := Phase.starting } := by
    refine
      { len := hInv.len, depInst := hInv.depInst, waitInv := hInv.waitInv,
        runInv := hInv.runInv, stageDeps := hInv.stageDeps,
        mstageCorr := hInv.mstageCorr, doneVal := hInv.doneVal,
        issuance := hInv.issuance, pendCover := hInv.pendCover,
        barrierHist := hInv.barrierHist, verdict := hInv.verdict,
        doneSummary := ?_, cellDone := ?_,
        intrPend := ?_, intrRes := ?_, intrPhase := ?_, passStart := ?_,
        phaseReady := ?_, phaseStF := ?_, phaseStarting := ?_, taskPhase := ?_,
        stoppingTask := ?_, waitIntr := hInv.waitIntr, cfgFresh := ?_,
        startRun := ?_, startSet := ?_, startFinT := ?_, startFinF := ?_,
        startFinI := ?_ }
    · intro h
      have h2 : s.stopTask = some .doneStop := h
      rw [hstop] at h2
      exact Option.noConfusion h2
    · intro b hb
      have h2 := hInv.cellDone b hb
      rw [hstop] at h2
      exact Option.noConfusion h2
    · intro h
      have h2 : s.interrupt = some false := h
      rw [hint] at h2
      exact Option.noConfusion h2
    · intro h
      have h2 : s.interrupt = some true := h
      rw [hint] at h2
      exact Option.noConfusion h2
    · intro h
      have h2 : s.interrupt ≠ none := h
      exact absurd hint h2
    · intro h
      have h2 : inPass s.stopTask = true := h
      rw [hstop] at h2
      simp [inPass] at h2
    · intro h
      simp at h
    · intro h
      simp at h
    · intro _
      show isFinishedSt s.startTask = false
      rw [hidle]
      rfl
    · intro h
      have h2 : s.stopTask ≠ none := h
      exact absurd hstop h2
    · intro h
      rcases h with h | h | h <;> simp at h
    · intro h
      simp at h
    · intro k lft h
      have h2 : s.startTask = .initRunning k lft := h
      rw [hidle] at h2
      simp at h2
    · intro k h
      have h2 : s.startTask = .initSettled k := h
      rw [hidle] at h2
      simp at h2
    · intro b h
      have h2 : s.startTask = .finishedSt true b := h
      rw [hidle] at h2
      simp at h2
    · intro b h _
      have h2 : s.startTask = .finishedSt false b := h
      rw [hidle] at h2
      simp at h2
    · intro b h _
      have h2 : s.startTask = .finishedSt false b := h
      rw [hidle] at h2
      simp at h2
  refine inv_issueInit_aux hInv1 rfl hstop hint hn ?_ ?_
  · intro j hj
    omega
  · intro j _
    constructor
    · show (s.guide j).mstate = ModState.configured
      rw [hfresh j]
      rfl
    · show (s.guide j).hasInst = false
      rw [hfresh j]
      rfl

theorem inv_contAdvance {spec : List GSpec} {auto : Bool} {s : EState} {k : Nat}
    (hInv : Inv spec auto s) (hst : s.startTask = .initSettled k)
    (hint : s.interrupt = none) (hinst : (s.guide k).hasInst = true)
    (hlt : k + 1 < spec.length) :
    Inv spec auto (issueInit spec s (k+1)) := by
  obtain ⟨hk, hph, hgood, hfresh, hinsteq, hmst⟩ := hInv.startSet k hst
  obtain ⟨hNW, _⟩ := prePass_of_notFinished hInv (by rw [hst]; rfl)
  have hstopN : s.stopTask = none := by
    rcases hNW with hn | hn
    · exact hn
    · exact absurd (hInv.waitIntr hn) (by simp [hint])
  have hphS : s.phase = .starting := by
    rcases hph with h | h
    · exact h
    · exact absurd (hInv.stoppingTask (.inl h)) (by simp [hstopN])
  refine inv_issueInit_aux hInv hphS hstopN hint hlt ?_ ?_
  · intro j hj
    by_cases hjk : j < k
    · exact hgood j hjk
    · have : j = k := by omega
      subst this
      exact ⟨by rw [← hinsteq]; exact hinst, hinst⟩
  · intro j hj
    exact hfresh j (by omega)

theorem inv_initSettleOk {spec : List GSpec} {auto : Bool} {s : EState} {k : Nat}
    (hInv : Inv spec auto s) (hst : s.startTask = .initRunning k 0)
    (hok : (spec.getD k default).initOk = true) :
    Inv spec auto
      { setGuide s k { s.guide k with mstate := .initialized, hasInst := true } with
          startTask := .initSettled k } := by
  obtain ⟨hk, hmst, hinst, hph, hgood, hfresh⟩ := hInv.startRun k 0 hst
  obtain ⟨hNW, hTN⟩ := prePass_of_notFinished hInv (by rw [hst]; rfl)
  have hklen : k < s.guides.length := by rw [hInv.len]; exact hk
  have hcase : ∀ j,
      (({ setGuide s k { s.guide k with mstate := .initialized, hasInst := true } with
          startTask := StartTask.initSettled k } : EState).guide j =
        { s.guide k with mstate := .initialized, hasInst := true } ∧ k = j) ∨
      ({ setGuide s k { s.guide k with mstate := .initialized, hasInst := true } with
          startTask := StartTask.initSettled k } : EState).guide j = s.guide j :=
    fun j => guide_setGuide_cases s k j _
  have hGk : ({ setGuide s k { s.guide k with mstate := .initialized, hasInst := true } with
      startTask := StartTask.initSettled k } : EState).guide k =
      { s.guide k with mstate := .initialized, hasInst := true } :=
    guide_setGuide_self hklen
  have hGne : ∀ j, j ≠ k →
      ({ setGuide s k { s.guide k with mstate := .initialized, hasInst := true } with
          startTask := StartTask.initSettled k } : EState).guide j = s.guide j :=
    fun j hj => guide_setGuide_ne k _ (fun hh => hj hh.symm)
  have hFT : ∀ j,
      (({ setGuide s k { s.guide k with mstate := .initialized, hasInst := true } with
          startTask := StartTask.initSettled k } : EState).guide j).finTask = none := by
    intro j
    rcases hcase j with ⟨hgj, _⟩ | hgj
    · rw [hgj]
      exact hTN k
    · rw [hgj]
      exact hTN j
  refine
    { len := ?_, depInst := ?_, waitInv := ?_, runInv := ?_,
      stageDeps := ?_, mstageCorr := ?_, doneVal := ?_, issuance := ?_,
      pendCover := ?_, barrierHist := ?_, verdict := ?_, doneSummary := ?_,
      cellDone := ?_, intrPend := hInv.intrPend, intrRes := ?_,
      intrPhase := hInv.intrPhase, passStart := ?_, phaseReady := ?_,
      phaseStF := ?_, phaseStarting := ?_, taskPhase := hInv.taskPhase,
      stoppingTask := hInv.stoppingTask, waitIntr := hInv.waitIntr,
      cfgFresh := ?_, startRun := ?_, startSet := ?_,
      startFinT := ?_, startFinF := ?_, startFinI := ?_ }
  · show (setGuide s k _).guides.length = spec.length
    rw [setGuide_len]
    exact hInv.len
  · intro i hne
    rcases hcase i with ⟨hgi, hik⟩ | hgi
    · rw [hgi]
    · rw [hgi] at hne ⊢
      exact hInv.depInst i hne
  · intro i snap hsn
    rw [hFT i] at hsn
    exact Option.noConfusion hsn
  · intro i lft hsn
    rw [hFT i] at hsn
    exact Option.noConfusion hsn
  · intro i h2 d hd
    exact absurd (hFT i) (stage2_not_none h2)
  · intro i htrio
    exfalso
    rcases hcase i with ⟨hgi, hik⟩ | hgi
    · rw [hgi] at htrio
      rcases htrio with h | h | h <;> simp at h
    · rw [hgi] at htrio
      have h3 := hInv.mstageCorr i htrio
      exact absurd (hTN i) (stage2_not_none h3)
  · intro i b hb
    rw [hFT i] at hb
    exact Option.noConfusion hb
  · rcases hNW with hn | hn
    · have htT : ({ setGuide s k { s.guide k with mstate := .initialized, hasInst := true } with
          startTask := StartTask.initSettled k } : EState).stopTask = none := hn
      rw [htT]
      exact hFT
    · have htT : ({ setGuide s k { s.guide k with mstate := .initialized, hasInst := true } with
          startTask := StartTask.initSettled k } : EState).stopTask =
          some .waitingInterrupt := hn
      rw [htT]
      exact hFT
  · rcases hNW with hn | hn
    · have htT : ({ setGuide s k { s.guide k with mstate := .initialized, hasInst := true } with
          startTask := StartTask.initSettled k } : EState).stopTask = none := hn
      rw [htT]
      trivial
    · have htT : ({ setGuide s k { s.guide k with mstate := .initialized, hasInst := true } with
          startTask := StartTask.initSettled k } : EState).stopTask =
          some .waitingInterrupt := hn
      rw [htT]
      trivial
  · rcases hNW with hn | hn
    · have htT : ({ setGuide s k { s.guide k with mstate := .initialized, hasInst := true } with
          startTask := StartTask.initSettled k } : EState).stopTask = none := hn
      rw [htT]
      trivial
    · have htT : ({ setGuide s k { s.guide k with mstate := .initialized, hasInst := true } with
          startTask := StartTask.initSettled k } : EState).stopTask =
          some .waitingInterrupt := hn
      rw [htT]
      trivial
  · rcases hNW with hn | hn
    · have htT : ({ setGuide s k { s.guide k with mstate := .initialized, hasInst := true } with
          startTask := StartTask.initSettled k } : EState).stopTask = none := hn
      rw [htT]
      trivial
    · have htT : ({ setGuide s k { s.guide k with mstate := .initialized, hasInst := true } with
          startTask := StartTask.initSettled k } : EState).stopTask =
          some .waitingInterrupt := hn
      rw [htT]
      trivial
  · intro h
    have h2 : s.stopTask = some .doneStop := h
    rcases hNW with hn | hn <;> rw [hn] at h2 <;> simp at h2
  · intro b hb
    have h2 := hInv.cellDone b hb
    rcases hNW with hn | hn <;> rw [hn] at h2 <;> simp at h2
  · intro h
    have h2 := hInv.intrRes h
    rw [hst] at h2
    simp at h2
  · intro h
    have h2 : inPass s.stopTask = true := h
    rcases hNW with hn | hn <;> rw [hn] at h2 <;> simp [inPass] at h2
  · intro h
    have h2 := hInv.phaseReady h
    rw [hst] at h2
    simp at h2
  · intro h
    obtain ⟨b, h2⟩ := hInv.phaseStF h
    rw [hst] at h2
    simp at h2
  · intro _
    rfl
  · intro h
    have h2 := (hInv.cfgFresh h).1
    rw [hst] at h2
    simp at h2
  · intro k' lft h
    simp at h
  · intro k' h
    injection h with hk'
    subst hk'
    refine ⟨hk, hph, ?_, ?_, ?_, ?_⟩
    · intro j hj
      have hne : j ≠ k := by omega
      constructor
      · exact (hgood j hj).1
      · rw [hGne j hne]
        exact (hgood j hj).2
    · intro j hj
      have hne : j ≠ k := by omega
      constructor
      · rw [hGne j hne]
        exact (hfresh j hj).1
      · rw [hGne j hne]
        exact (hfresh j hj).2
    · rw [hGk, hok]
    · rw [hGk, hok]
      simp
  · intro b h
    simp at h
  · intro b h
    simp at h
  · intro b h
    simp at h

theorem inv_initSettleFail {spec : List GSpec} {auto : Bool} {s : EState} {k : Nat}
    (hInv : Inv spec auto s) (hst : s.startTask = .initRunning k 0)
    (hok : (spec.getD k default).initOk = false) :
    Inv spec auto
      { setGuide s k { s.guide k with mstate := .initialization_failed } with
          startTask := .initSettled k } := by
  obtain ⟨hk, hmst, hinst, hph, hgood, hfresh⟩ := hInv.startRun k 0 hst
  obtain ⟨hNW, hTN⟩ := prePass_of_notFinished hInv (by rw [hst]; rfl)
  have hklen : k < s.guides.length := by rw [hInv.len]; exact hk
  have hcase : ∀ j,
      (({ setGuide s k { s.guide k with mstate := .initialization_failed } with
          startTask := StartTask.initSettled k } : EState).guide j =
        { s.guide k with mstate := .initialization_failed } ∧ k = j) ∨
      ({ setGuide s k { s.guide k with mstate := .initialization_failed } with
          startTask := StartTask.initSettled k } : EState).guide j = s.guide j :=
    fun j => guide_setGuide_cases s k j _
  have hGk : ({ setGuide s k { s.guide k with mstate := .initialization_failed } with
      startTask := StartTask.initSettled k } : EState).guide k =
      { s.guide k with mstate := .initialization_failed } :=
    guide_setGuide_self hklen
  have hGne : ∀ j, j ≠ k →
      ({ setGuide s k { s.guide k with mstate := .initialization_failed } with
          startTask := StartTask.initSettled k } : EState).guide j = s.guide j :=
    fun j hj => guide_setGuide_ne k _ (fun hh => hj hh.symm)
  have hFT : ∀ j,
      (({ setGuide s k { s.guide k with mstate := .initialization_failed } with
          startTask := StartTask.initSettled k } : EState).guide j).finTask = none := by
    intro j
    rcases hcase j with ⟨hgj, _⟩ | hgj
    · rw [hgj]
      exact hTN k
    · rw [hgj]
      exact hTN j
  refine
    { len := ?_, depInst := ?_, waitInv := ?_, runInv := ?_,
      stageDeps := ?_, mstageCorr := ?_, doneVal := ?_, issuance := ?_,
      pendCover := ?_, barrierHist := ?_, verdict := ?_, doneSummary := ?_,
      cellDone := ?_, intrPend := hInv.intrPend, intrRes := ?_,
      intrPhase := hInv.intrPhase, passStart := ?_, phaseReady := ?_,
      phaseStF := ?_, phaseStarting := ?_, taskPhase := hInv.taskPhase,
      stoppingTask := hInv.stoppingTask, waitIntr := hInv.waitIntr,
      cfgFresh := ?_, startRun := ?_, startSet := ?_,
      startFinT := ?_, startFinF := ?_, startFinI := ?_ }
  · show (setGuide s k _).guides.length = spec.length
    rw [setGuide_len]
    exact hInv.len
  · intro i hne
    rcases hcase i with ⟨hgi, hik⟩ | hgi
    · subst hik
      rw [hgi] at hne ⊢
      exact hInv.depInst k hne
    · rw [hgi] at hne ⊢
      exact hInv.depInst i hne
  · intro i snap hsn
    rw [hFT i] at hsn
    exact Option.noConfusion hsn
  · intro i lft hsn
    rw [hFT i] at hsn
    exact Option.noConfusion hsn
  · intro i h2 d hd
    exact absurd (hFT i) (stage2_not_none h2)
  · intro i htrio
    exfalso
    rcases hcase i with ⟨hgi, hik⟩ | hgi
    · rw [hgi] at htrio
      rcases htrio with h | h | h <;> simp at h
    · rw [hgi] at htrio
      have h3 := hInv.mstageCorr i htrio
      exact absurd (hTN i) (stage2_not_none h3)
  · intro i b hb
    rw [hFT i] at hb
    exact Option.noConfusion hb
  · rcases hNW with hn | hn
    · have htT : ({ setGuide s k { s.guide k with mstate := .initialization_failed } with
          startTask := StartTask.initSettled k } : EState).stopTask = none := hn
      rw [htT]
      exact hFT
    · have htT : ({ setGuide s k { s.guide k with mstate := .initialization_failed } with
          startTask := StartTask.initSettled k } : EState).stopTask =
          some .waitingInterrupt := hn
      rw [htT]
      exact hFT
  · rcases hNW with hn | hn
    · have htT : ({ setGuide s k { s.guide k with mstate := .initialization_failed } with
          startTask := StartTask.initSettled k } : EState).stopTask = none := hn
      rw [htT]
      trivial
    · have htT : ({ setGuide s k { s.guide k with mstate := .initialization_failed } with
          startTask := StartTask.initSettled k } : EState).stopTask =
          some .waitingInterrupt := hn
      rw [htT]
      trivial
  · rcases hNW with hn | hn
    · have htT : ({ setGuide s k { s.guide k with mstate := .initialization_failed } with
          startTask := StartTask.initSettled k } : EState).stopTask = none := hn
      rw [htT]
      trivial
    · have htT : ({ setGuide s k { s.guide k with mstate := .initialization_failed } with
          startTask := StartTask.initSettled k } : EState).stopTask =
          some .waitingInterrupt := hn
      rw [htT]
      trivial
  · rcases hNW with hn | hn
    · have htT : ({ setGuide s k { s.guide k with mstate := .initialization_failed } with
          startTask := StartTask.initSettled k } : EState).stopTask = none := hn
      rw [htT]
      trivial
    · have htT : ({ setGuide s k { s.guide k with mstate := .initialization_failed } with
          startTask := StartTask.initSettled k } : EState).stopTask =
          some .waitingInterrupt := hn
      rw [htT]
      trivial
  · intro h
    have h2 : s.stopTask = some .doneStop := h
    rcases hNW with hn | hn <;> rw [hn] at h2 <;> simp at h2
  · intro b hb
    have h2 := hInv.cellDone b hb
    rcases hNW with hn | hn <;> rw [hn] at h2 <;> simp at h2
  · intro h
    have h2 := hInv.intrRes h
    rw [hst] at h2
    simp at h2
  · intro h
    have h2 : inPass s.stopTask = true := h
    rcases hNW with hn | hn <;> rw [hn] at h2 <;> simp [inPass] at h2
  · intro h
    have h2 := hInv.phaseReady h
    rw [hst] at h2
    simp at h2
  · intro h
    obtain ⟨b, h2⟩ := hInv.phaseStF h
    rw [hst] at h2
    simp at h2
  · intro _
    rfl
  · intro h
    have h2 := (hInv.cfgFresh h).1
    rw [hst] at h2
    simp at h2
  · intro k' lft h
    simp at h
  · intro k' h
    injection h with hk'
    subst hk'
    refine ⟨hk, hph, ?_, ?_, ?_, ?_⟩
    · intro j hj
      have hne : j ≠ k := by omega
      constructor
      · exact (hgood j hj).1
      · rw [hGne j hne]
        exact (hgood j hj).2
    · intro j hj
      have hne : j ≠ k := by omega
      constructor
      · rw [hGne j hne]
        exact (hfresh j hj).1
      · rw [hGne j hne]
        exact (hfresh j hj).2
    · rw [hGk, hok]
      exact hinst
    · rw [hGk, hok]
      simp
  · intro b h
    simp at h
  · intro b h
    simp at h
  · intro b h
    simp at h

theorem inv_stopWake {spec : List GSpec} {auto : Bool} {s : EState}
    (hInv : Inv spec auto s) (hst : s.stopTask = some .waitingInterrupt)
    (hint : s.interrupt = some true) :
    Inv spec auto { s with stopTask := some (.finLoop 0 []) } := by
  have hiss := hInv.issuance
  rw [hst] at hiss
  have hfin := hInv.intrRes hint
  have hintne : s.interrupt ≠ none := by rw [hint]; simp
  refine
    { len := hInv.len, depInst := hInv.depInst, waitInv := hInv.waitInv,
      runInv := hInv.runInv,
      stageDeps := hInv.stageDeps, mstageCorr := hInv.mstageCorr,
      doneVal := hInv.doneVal, issuance := ?_,
      pendCover := ?_, barrierHist := ?_, verdict := ?_, doneSummary := ?_,
      cellDone := ?_, intrPend := ?_, intrRes := hInv.intrRes,
      intrPhase := hInv.intrPhase, passStart := ?_,
      phaseReady := hInv.phaseReady, phaseStF := hInv.phaseStF,
      phaseStarting := ?_,
      taskPhase := ?_, stoppingTask := ?_, waitIntr := ?_,
      cfgFresh := ?_, startRun := ?_, startSet := ?_,
      startFinT := hInv.startFinT, startFinF := hInv.startFinF,
      startFinI := hInv.startFinI }
  · show (0 : Nat) ≤ spec.length ∧ ∀ q, q < spec.length →
        ((s.guide (spec.length - 1 - q)).finTask ≠ none ↔ q < 0)
    refine ⟨Nat.zero_le _, ?_⟩
    intro q hq
    constructor
    · intro hne
      exact absurd (hiss _) hne
    · intro hq0
      omega
  · show ∀ q, q < (0 : Nat) → _
    intro q hq
    omega
  · show ∀ b, b < (0 : Nat) → _
    intro b hb
    omega
  · show (List.all [] (refVal spec _)) = allRes spec _ 0
    rfl
  · intro h
    have h2 : (some (StopTask.finLoop 0 []) : Option StopTask) = some .doneStop := h
    simp at h2
  · intro b hb
    have h2 := hInv.cellDone b hb
    rw [hst] at h2
    simp at h2
  · intro h
    have h2 : s.interrupt = some false := h
    rw [hint] at h2
    simp at h2
  · intro _
    show isFinishedSt s.startTask = true
    rw [hfin]
    rfl
  · intro h
    rcases hInv.intrPhase hintne with h' | h' | h' <;> rw [h] at h' <;> simp at h'
  · intro _
    exact hInv.intrPhase hintne
  · intro _
    show (some (StopTask.finLoop 0 []) : Option StopTask) ≠ none
    simp
  · intro h
    have h2 : (some (StopTask.finLoop 0 []) : Option StopTask) = some .waitingInterrupt := h
    simp at h2
  · intro h
    rcases hInv.intrPhase hintne with h' | h' | h' <;> rw [h] at h' <;> simp at h'
  · intro k lft h
    have h2 : s.startTask = .initRunning k lft := h
    rw [hfin] at h2
    simp at h2
  · intro k h
    have h2 : s.startTask = .initSettled k := h
    rw [hfin] at h2
    simp at h2

theorem inv_barrierEnter {spec : List GSpec} {auto : Bool} {s : EState}
    {pos : Nat} {pend : List FinRef}
    (hInv : Inv spec auto s) (hst : s.stopTask = some (.finLoop pos pend))
    (hpos : pos < spec.length) :
    Inv spec auto { s with stopTask := some (.atBarrier pos pend) } := by
  have hiss := hInv.issuance
  rw [hst] at hiss
  have hpc := hInv.pendCover
  rw [hst] at hpc
  have hbh := hInv.barrierHist
  rw [hst] at hbh
  have hvd := hInv.verdict
  rw [hst] at hvd
  refine
    { len := hInv.len, depInst := hInv.depInst, waitInv := hInv.waitInv,
      runInv := hInv.runInv,
      stageDeps := hInv.stageDeps, mstageCorr := hInv.mstageCorr,
      doneVal := hInv.doneVal, issuance := ⟨hpos, hiss.2⟩,
      pendCover := hpc, barrierHist := hbh, verdict := hvd, doneSummary := ?_,
      cellDone := ?_, intrPend := ?_, intrRes := hInv.intrRes,
      intrPhase := hInv.intrPhase, passStart := ?_,
      phaseReady := hInv.phaseReady, phaseStF := hInv.phaseStF,
      phaseStarting := hInv.phaseStarting,
      taskPhase := ?_, stoppingTask := ?_, waitIntr := ?_,
      cfgFresh := ?_, startRun := hInv.startRun, startSet := hInv.startSet,
      startFinT := hInv.startFinT, startFinF := hInv.startFinF,
      startFinI := hInv.startFinI }
  · intro h
    have h2 : (some (StopTask.atBarrier pos pend) : Option StopTask) = some .doneStop := h
    simp at h2
  · intro b hb
    have h2 := hInv.cellDone b hb
    rw [hst] at h2
    simp at h2
  · intro h
    have h2 := (hInv.intrPend h).2
    rw [hst] at h2
    simp at h2
  · intro _
    apply hInv.passStart
    rw [hst]
    rfl
  · intro _
    apply hInv.taskPhase
    rw [hst]
    simp
  · intro _
    show (some (StopTask.atBarrier pos pend) : Option StopTask) ≠ none
    simp
  · intro h
    have h2 : (some (StopTask.atBarrier pos pend) : Option StopTask) =
        some .waitingInterrupt := h
    simp at h2
  · intro h
    have h2 := (hInv.cfgFresh h).2.1
    rw [hst] at h2
    simp at h2

theorem inv_loopEnd {spec : List GSpec} {auto : Bool} {s : EState}
    {pos : Nat} {pend : List FinRef}
    (hInv : Inv spec auto s) (hst : s.stopTask = some (.finLoop pos pend))
    (hpos : ¬ pos < spec.length) :
    Inv spec auto { s with stopTask := some (.finalWait pend) } := by
  have hiss := hInv.issuance
  rw [hst] at hiss
  have hpc := hInv.pendCover
  rw [hst] at hpc
  have hbh := hInv.barrierHist
  rw [hst] at hbh
  have hvd := hInv.verdict
  rw [hst] at hvd
  have hposn : pos = spec.length := by
    have := hiss.1
    omega
  subst hposn
  refine
    { len := hInv.len, depInst := hInv.depInst, waitInv := hInv.waitInv,
      runInv := hInv.runInv,
      stageDeps := hInv.stageDeps, mstageCorr := hInv.mstageCorr,
      doneVal := hInv.doneVal, issuance := ?_,
      pendCover := ?_, barrierHist := ?_, verdict := hvd, doneSummary := ?_,
      cellDone := ?_, intrPend := ?_, intrRes := hInv.intrRes,
      intrPhase := hInv.intrPhase, passStart := ?_,
      phaseReady := hInv.phaseReady, phaseStF := hInv.phaseStF,
      phaseStarting := hInv.phaseStarting,
      taskPhase := ?_, stoppingTask := ?_, waitIntr := ?_,
      cfgFresh := ?_, startRun := hInv.startRun, startSet := hInv.startSet,
      startFinT := hInv.startFinT, startFinF := hInv.startFinF,
      startFinI := hInv.startFinI }
  · show ∀ q, q < spec.length → (s.guide (spec.length - 1 - q)).finTask ≠ none
    intro q hq
    exact (hiss.2 q hq).2 hq
  · show ∀ q, q < spec.length → _
    intro q hq
    exact hpc q hq
  · show ∀ b, b < spec.length → _
    intro b hb
    exact hbh b hb
  · intro h
    have h2 : (some (StopTask.finalWait pend) : Option StopTask) = some .doneStop := h
    simp at h2
  · intro b hb
    have h2 := hInv.cellDone b hb
    rw [hst] at h2
    simp at h2
  · intro h
    have h2 := (hInv.intrPend h).2
    rw [hst] at h2
    simp at h2
  · intro _
    apply hInv.passStart
    rw [hst]
    rfl
  · intro _
    apply hInv.taskPhase
    rw [hst]
    simp
  · intro _
    show (some (StopTask.finalWait pend) : Option StopTask) ≠ none
    simp
  · intro h
    have h2 : (some (StopTask.finalWait pend) : Option StopTask) =
        some .waitingInterrupt := h
    simp at h2
  · intro h
    have h2 := (hInv.cfgFresh h).2.1
    rw [hst] at h2
    simp at h2

theorem inv_stopCalled {spec : List GSpec} {auto : Bool} {s : EState}
    (hInv : Inv spec auto s) : Inv spec auto (stopCallFn s) := by
  by_cases h1 : s.phase = .stopping ∨ s.phase = .stopped
  · simp only [stopCallFn]
    rw [if_pos h1]
    exact hInv
  · by_cases h2 : s.phase = .starting
    · have hstF : isFinishedSt s.startTask = false := hInv.phaseStarting h2
      obtain ⟨hNW, hFTN⟩ := prePass_of_notFinished hInv hstF
      have hstopN : s.stopTask = none := by
        rcases hNW with hn | hn
        · exact hn
        · exfalso
          rcases hInv.intrPhase (hInv.waitIntr hn) with h | h | h <;> rw [h2] at h <;>
            simp at h
      have hintN : s.interrupt = none := by
        cases hi : s.interrupt with
        | none => rfl
        | some b =>
            exfalso
            rcases hInv.intrPhase (by rw [hi]; simp) with h | h | h <;> rw [h2] at h <;>
              simp at h
      simp only [stopCallFn]
      rw [if_neg h1, if_pos h2]
      refine
        { len := hInv.len, depInst := hInv.depInst, waitInv := hInv.waitInv,
          runInv := hInv.runInv, stageDeps := hInv.stageDeps,
          mstageCorr := hInv.mstageCorr, doneVal := hInv.doneVal,
          issuance := hFTN, pendCover := trivial, barrierHist := trivial,
          verdict := trivial, doneSummary := ?_, cellDone := ?_,
          intrPend := ?_, intrRes := ?_, intrPhase := ?_, passStart := ?_,
          phaseReady := ?_, phaseStF := ?_, phaseStarting := ?_, taskPhase := ?_,
          stoppingTask := ?_, waitIntr := ?_, cfgFresh := ?_,
          startRun := ?_, startSet := ?_, startFinT := ?_, startFinF := ?_,
          startFinI := ?_ }
      · intro h
        simp at h
      · intro b hb
        have hb' : s.stoppedCell = some b := hb
        have h3 := hInv.cellDone b hb'
        rw [hstopN] at h3
        exact Option.noConfusion h3
      · intro _
        exact ⟨rfl, rfl⟩
      · intro h
        simp at h
      · intro _
        exact .inl rfl
      · intro h
        simp [inPass] at h
      · intro h
        simp at h
      · intro h
        simp at h
      · intro h
        simp at h
      · intro _
        exact .inl rfl
      · intro _
        simp
      · intro _
        simp
      · intro h
        simp at h
      · intro k lft h
        have h' : s.startTask = .initRunning k lft := h
        obtain ⟨ha, hb, hc, _, he, hf⟩ := hInv.startRun k lft h'
        exact ⟨ha, hb, hc, .inr rfl, he, hf⟩
      · intro k h
        have h' : s.startTask = .initSettled k := h
        obtain ⟨ha, _, hc, hd, he, hf⟩ := hInv.startSet k h'
        exact ⟨ha, .inr rfl, hc, hd, he, hf⟩
      · intro b h
        have h' : s.startTask = .finishedSt true b := h
        rw [h'] at hstF
        simp [isFinishedSt] at hstF
      · intro b h _
        have h' : s.startTask = .finishedSt false b := h
        rw [h'] at hstF
        simp [isFinishedSt] at hstF
      · intro b h _
        have h' : s.startTask = .finishedSt false b := h
        rw [h'] at hstF
        simp [isFinishedSt] at hstF
    · by_cases h3 : s.phase = .ready ∨ s.phase = .starting_failed
      · have hstopN : s.stopTask = none := by
          cases hsp : s.stopTask with
          | none => rfl
          | some t =>
              exfalso
              rcases hInv.taskPhase (by rw [hsp]; simp) with h | h | h <;>
                rcases h3 with h' | h' <;> rw [h'] at h <;> simp at h
        have hintN : s.interrupt = none := by
          cases hi : s.interrupt with
          | none => rfl
          | some b =>
              exfalso
              rcases hInv.intrPhase (by rw [hi]; simp) with h | h | h <;>
                rcases h3 with h' | h' <;> rw [h'] at h <;> simp at h
        have hFTN : ∀ i, (s.guide i).finTask = none := by
          have h4 := hInv.issuance
          rw [hstopN] at h4
          exact h4
        have hstT : isFinishedSt s.startTask = true := by
          rcases h3 with hr | hf
          · rw [hInv.phaseReady hr]
            rfl
          · obtain ⟨b, hb⟩ := hInv.phaseStF hf
            rw [hb]
            rfl
        simp only [stopCallFn]
        rw [if_neg h1, if_neg h2, if_pos h3, hintN]
        show Inv spec auto
          { s with phase := .stopping, interrupt := none, stopTask := some (.finLoop 0 []) }
        refine
          { len := hInv.len, depInst := hInv.depInst, waitInv := hInv.waitInv,
            runInv := hInv.runInv, stageDeps := hInv.stageDeps,
            mstageCorr := hInv.mstageCorr, doneVal := hInv.doneVal,
            issuance := ?_, pendCover := ?_, barrierHist := ?_,
            verdict := ?_, doneSummary := ?_, cellDone := ?_,
            intrPend := ?_, intrRes := ?_, intrPhase := ?_, passStart := ?_,
            phaseReady := ?_, phaseStF := ?_, phaseStarting := ?_, taskPhase := ?_,
            stoppingTask := ?_, waitIntr := ?_, cfgFresh := ?_,
            startRun := ?_, startSet := ?_, startFinT := ?_, startFinF := ?_,
            startFinI := ?_ }
        · refine ⟨Nat.zero_le _, ?_⟩
          intro q hq
          constructor
          · intro hne
            exact absurd (hFTN _) hne
          · intro h0
            omega
        · intro q hq
          omega
        · intro b hb
          omega
        · rfl
        · intro h
          simp at h
        · intro b hb
          have hb' : s.stoppedCell = some b := hb
          have h4 := hInv.cellDone b hb'
          rw [hstopN] at h4
          exact Option.noConfusion h4
        · intro h
          simp at h
        · intro h
          simp at h
        · intro _
          exact .inl rfl
        · intro _
          exact hstT
        · intro h
          simp at h
        · intro h
          simp at h
        · intro h
          simp at h
        · intro _
          exact .inl rfl
        · intro _
          simp
        · intro h
          simp at h
        · intro h
          simp at h
        · intro k lft h
          have h' : s.startTask = .initRunning k lft := h
          rw [h'] at hstT
          simp [isFinishedSt] at hstT
        · intro k h
          have h' : s.startTask = .initSettled k := h
          rw [h'] at hstT
          simp [isFinishedSt] at hstT
        · intro b h
          have h' : s.startTask = .finishedSt true b := h
          exact hInv.startFinT b h'
        · intro b h _
          have h' : s.startTask = .finishedSt false b := h
          exact hInv.startFinF b h' hintN
        · intro b h hne
          exact absurd rfl hne
      · simp only [stopCallFn]
        rw [if_neg h1, if_neg h2, if_neg h3]
        exact hInv

theorem inv_contFail_base {spec : List GSpec} {auto : Bool} {s : EState} {k : Nat}
    (hInv : Inv spec auto s) (hst : s.startTask = .initSettled k)
    (hint : s.interrupt = none) (hinst : (s.guide k).hasInst = false) :
    Inv spec auto
      { s with phase := .starting_failed, startTask := .finishedSt false auto } := by
  obtain ⟨hk, hph, hgood, hfresh, hinsteq, hmst⟩ := hInv.startSet k hst
  obtain ⟨hNW, hFTN⟩ := prePass_of_notFinished hInv (by rw [hst]; rfl)
  have hstopN : s.stopTask = none := by
    rcases hNW with hn | hn
    · exact hn
    · exact absurd (hInv.waitIntr hn) (by simp [hint])
  have hok : (spec.getD k default).initOk = false := by
    rw [← hinsteq]
    exact hinst
  refine
    { len := hInv.len, depInst := hInv.depInst, waitInv := hInv.waitInv,
      runInv := hInv.runInv, stageDeps := hInv.stageDeps,
      mstageCorr := hInv.mstageCorr, doneVal := hInv.doneVal,
      issuance := hInv.issuance, pendCover := ?_, barrierHist := ?_,
      verdict := ?_, doneSummary := ?_, cellDone := ?_,
      intrPend := ?_, intrRes := ?_, intrPhase := ?_, passStart := ?_,
      phaseReady := ?_, phaseStF := ?_, phaseStarting := ?_, taskPhase := ?_,
      stoppingTask := ?_, waitIntr := ?_, cfgFresh := ?_,
      startRun := ?_, startSet := ?_, startFinT := ?_, startFinF := ?_,
      startFinI := ?_ }
  · change PendCoverP spec _ s.stopTask
    rw [hstopN]
    trivial
  · change BarrierHistP spec _ s.stopTask
    rw [hstopN]
    trivial
  · change VerdictP spec _ s.stopTask
    rw [hstopN]
    trivial
  · intro h
    have h' : s.stopTask = some .doneStop := h
    rw [hstopN] at h'
    exact Option.noConfusion h'
  · intro b hb
    have hb' : s.stoppedCell = some b := hb
    have h3 := hInv.cellDone b hb'
    rw [hstopN] at h3
    exact Option.noConfusion h3
  · intro h
    have h' : s.interrupt = some false := h
    rw [hint] at h'
    exact Option.noConfusion h'
  · intro h
    have h' : s.interrupt = some true := h
    rw [hint] at h'
    exact Option.noConfusion h'
  · intro h
    have h' : s.interrupt ≠ none := h
    exact absurd hint h'
  · intro h
    have h' : inPass s.stopTask = true := h
    rw [hstopN] at h'
    simp [inPass] at h'
  · intro h
    simp at h
  · intro _
    exact ⟨auto, rfl⟩
  · intro h
    simp at h
  · intro h
    have h' : s.stopTask ≠ none := h
    exact absurd hstopN h'
  · intro h
    rcases h with h | h | h <;> simp at h
  · intro h
    have h' : s.stopTask = some .waitingInterrupt := h
    rw [hstopN] at h'
    exact Option.noConfusion h'
  · intro h
    simp at h
  · intro k' lft h
    have h' : StartTask.finishedSt false auto = .initRunning k' lft := h
    simp at h'
  · intro k' h
    have h' : StartTask.finishedSt false auto = .initSettled k' := h
    simp at h'
  · intro b h
    have h' : StartTask.finishedSt false auto = .finishedSt true b := h
    simp at h'
  · intro b h _
    have h' : StartTask.finishedSt false auto = .finishedSt false b := h
    injection h' with h1 h2
    exact ⟨h2.symm, k, hk, hok, hgood, hfresh, hinst⟩
  · intro b h hne
    exact absurd hint hne

theorem issuanceP_mono {spec : List GSpec} {s t : EState}
    (hNe : ∀ j, (s.guide j).finTask ≠ none → (t.guide j).finTask ≠ none)
    (hNe2 : ∀ j, (t.guide j).finTask ≠ none → (s.guide j).finTask ≠ none)
    (hD : ∀ j, FinTask.isDone (s.guide j).finTask = true →
      FinTask.isDone (t.guide j).finTask = true)
    (o : Option StopTask) (h : IssuanceP spec s o) : IssuanceP spec t o := by
  cases o with
  | none =>
      intro i
      by_contra hc
      exact (hNe2 i hc) (h i)
  | some tt =>
      cases tt with
      | waitingInterrupt =>
          intro i
          by_contra hc
          exact (hNe2 i hc) (h i)
      | finLoop pos pend =>
          obtain ⟨h1, h2⟩ := h
          refine ⟨h1, ?_⟩
          intro q hq
          exact ⟨fun htne => (h2 q hq).1 (hNe2 _ htne), fun hlt => hNe _ ((h2 q hq).2 hlt)⟩
      | atBarrier pos pend =>
          obtain ⟨h1, h2⟩ := h
          refine ⟨h1, ?_⟩
          intro q hq
          exact ⟨fun htne => (h2 q hq).1 (hNe2 _ htne), fun hlt => hNe _ ((h2 q hq).2 hlt)⟩
      | finalWait pend =>
          intro q hq
          exact hNe _ (h q hq)
      | doneStop =>
          intro q hq
          exact hD _ (h q hq)

theorem pendCoverP_mono {spec : List GSpec} {s t : EState}
    (hD : ∀ j, FinTask.isDone (s.guide j).finTask = true →
      FinTask.isDone (t.guide j).finTask = true)
    (o : Option StopTask) (h : PendCoverP spec s o) : PendCoverP spec t o := by
  cases o with
  | none => trivial
  | some tt =>
      cases tt with
      | waitingInterrupt => trivial
      | finLoop pos pend => exact fun q hq => (h q hq).imp (hD _) id
      | atBarrier pos pend => exact fun q hq => (h q hq).imp (hD _) id
      | finalWait pend => exact fun q hq => (h q hq).imp (hD _) id
      | doneStop => trivial

theorem barrierHistP_mono {spec : List GSpec} {s t : EState}
    (hD : ∀ j, FinTask.isDone (s.guide j).finTask = true →
      FinTask.isDone (t.guide j).finTask = true)
    (o : Option StopTask) (h : BarrierHistP spec s o) : BarrierHistP spec t o := by
  cases o with
  | none => trivial
  | some tt =>
      cases tt with
      | waitingInterrupt => trivial
      | finLoop pos pend => exact fun b hb hord r hr => hD _ (h b hb hord r hr)
      | atBarrier pos pend => exact fun b hb hord r hr => hD _ (h b hb hord r hr)
      | finalWait pend => exact fun b hb hord r hr => hD _ (h b hb hord r hr)
      | doneStop => trivial

theorem verdictP_congr {spec : List GSpec} {s t : EState}
    (hHI : ∀ j, (t.guide j).hasInst = (s.guide j).hasInst)
    (o : Option StopTask) (h : VerdictP spec s o) : VerdictP spec t o := by
  cases o with
  | none => trivial
  | some tt =>
      cases tt with
      | waitingInterrupt => trivial
      | finLoop pos pend =>
          show pend.all (refVal spec t) = allRes spec t pos
          rw [all_congrB pend _ _ (fun r _ => refVal_of_hasInst_eq hHI r),
            allRes_of_hasInst_eq hHI pos]
          exact h
      | atBarrier pos pend =>
          show pend.all (refVal spec t) = allRes spec t pos
          rw [all_congrB pend _ _ (fun r _ => refVal_of_hasInst_eq hHI r),
            allRes_of_hasInst_eq hHI pos]
          exact h
      | finalWait pend =>
          show pend.all (refVal spec t) = allRes spec t spec.length
          rw [all_congrB pend _ _ (fun r _ => refVal_of_hasInst_eq hHI r),
            allRes_of_hasInst_eq hHI spec.length]
          exact h
      | doneStop => trivial

/-- Preservation of the invariant under a step that rewrites a single
guide's finalization computation without creating or destroying it and
without decreasing settledness. -/
theorem inv_guideLocal {spec : List GSpec} {auto : Bool} {s : EState} {i : Nat}
    {g' : GuideDyn}
    (hInv : Inv spec auto s)
    (hlen : i < s.guides.length)
    (hHIi : g'.hasInst = (s.guide i).hasInst)
    (hDpi : g'.dependents = (s.guide i).dependents)
    (hNe : (s.guide i).finTask ≠ none)
    (hNe2 : g'.finTask ≠ none)
    (hD : FinTask.isDone (s.guide i).finTask = true →
      FinTask.isDone g'.finTask = true)
    (hInstI : (s.guide i).hasInst = true)
    (hWt : ∀ snap, g'.finTask = some (.waitingDeps snap) →
        snap = g'.dependents ∧ g'.mstate = .awaiting_finalization ∧ g'.hasInst = true)
    (hRn : ∀ lft, g'.finTask = some (.runningCb lft) →
        (spec.getD i default).hasCb = true ∧ g'.hasInst = true ∧ g'.mstate = .finalizing)
    (hSg : 2 ≤ FinTask.stage g'.finTask →
        ∀ d, d ∈ g'.dependents → FinTask.isDone (s.guide d).finTask = true)
    (hMc : (g'.mstate = .finalizing ∨ g'.mstate = .finalized ∨
        g'.mstate = .finalization_failed) → 2 ≤ FinTask.stage g'.finTask)
    (hDv : ∀ b, g'.finTask = some (.done b) → b = finResultD spec s i) :
    Inv spec auto (setGuide s i g') := by
  have hgi : (setGuide s i g').guide i = g' := guide_setGuide_self hlen
  have hcase := fun j => guide_setGuide_cases s i j g'
  have hHI : ∀ j, ((setGuide s i g').guide j).hasInst = (s.guide j).hasInst := by
    intro j
    rcases hcase j with ⟨hgj, hij⟩ | hgj
    · subst hij
      rw [hgj]
      exact hHIi
    · rw [hgj]
  have hDp : ∀ j, ((setGuide s i g').guide j).dependents = (s.guide j).dependents := by
    intro j
    rcases hcase j with ⟨hgj, hij⟩ | hgj
    · subst hij
      rw [hgj]
      exact hDpi
    · rw [hgj]
  have hMsNe : ∀ j, j ≠ i → ((setGuide s i g').guide j).mstate = (s.guide j).mstate := by
    intro j hji
    rw [guide_setGuide_ne i g' (Ne.symm hji)]
  have hNeI : ∀ j, (((setGuide s i g').guide j).finTask ≠ none ↔
      (s.guide j).finTask ≠ none) := by
    intro j
    rcases hcase j with ⟨hgj, hij⟩ | hgj
    · subst hij
      rw [hgj]
      exact ⟨fun _ => hNe, fun _ => hNe2⟩
    · rw [hgj]
  have hDm : ∀ j, FinTask.isDone (s.guide j).finTask = true →
      FinTask.isDone ((setGuide s i g').guide j).finTask = true := by
    intro j hd
    rcases hcase j with ⟨hgj, hij⟩ | hgj
    · subst hij
      rw [hgj]
      exact hD hd
    · rw [hgj]
      exact hd
  refine
    { len := (setGuide_len s i g').trans hInv.len, depInst := ?_, waitInv := ?_,
      runInv := ?_, stageDeps := ?_, mstageCorr := ?_, doneVal := ?_,
      issuance := issuanceP_mono (fun j => (hNeI j).2) (fun j => (hNeI j).1) hDm
        s.stopTask hInv.issuance,
      pendCover := pendCoverP_mono hDm s.stopTask hInv.pendCover,
      barrierHist := barrierHistP_mono hDm s.stopTask hInv.barrierHist,
      verdict := verdictP_congr hHI s.stopTask hInv.verdict,
      doneSummary := ?_, cellDone := fun b hb => hInv.cellDone b hb,
      intrPend := fun h => hInv.intrPend h, intrRes := fun h => hInv.intrRes h,
      intrPhase := fun h => hInv.intrPhase h, passStart := fun h => hInv.passStart h,
      phaseReady := fun h => hInv.phaseReady h, phaseStF := fun h => hInv.phaseStF h,
      phaseStarting := fun h => hInv.phaseStarting h,
      taskPhase := fun h => hInv.taskPhase h,
      stoppingTask := fun h => hInv.stoppingTask h,
      waitIntr := fun h => hInv.waitIntr h, cfgFresh := ?_,
      startRun := ?_, startSet := ?_, startFinT := ?_, startFinF := ?_,
      startFinI := fun b h hin => hInv.startFinI b h hin }
  · intro j hne
    rw [hHI j]
    apply hInv.depInst j
    rw [← hDp j]
    exact hne
  · intro j snap hsn
    rcases hcase j with ⟨hgj, hij⟩ | hgj
    · subst hij
      rw [hgj] at hsn ⊢
      exact hWt snap hsn
    · rw [hgj] at hsn ⊢
      exact hInv.waitInv j snap hsn
  · intro j lft hsn
    rcases hcase j with ⟨hgj, hij⟩ | hgj
    · subst hij
      rw [hgj] at hsn ⊢
      exact hRn lft hsn
    · rw [hgj] at hsn ⊢
      exact hInv.runInv j lft hsn
  · intro j h2 d hd
    rcases hcase j with ⟨hgj, hij⟩ | hgj
    · subst hij
      rw [hgj] at h2 hd
      exact hDm d (hSg h2 d hd)
    · rw [hgj] at h2 hd
      exact hDm d (hInv.stageDeps j h2 d hd)
  · intro j htrio
    rcases hcase j with ⟨hgj, hij⟩ | hgj
    · subst hij
      rw [hgj] at htrio ⊢
      exact hMc htrio
    · rw [hgj] at htrio ⊢
      exact hInv.mstageCorr j htrio
  · intro j b hb
    rw [finResultD_of_hasInst_eq hHI j]
    rcases hcase j with ⟨hgj, hij⟩ | hgj
    · subst hij
      rw [hgj] at hb
      exact hDv b hb
    · rw [hgj] at hb
      exact hInv.doneVal j b hb
  · intro h
    obtain ⟨hp, hcell⟩ := hInv.doneSummary h
    refine ⟨?_, ?_⟩
    · rw [allRes_of_hasInst_eq hHI]
      exact hp
    · rw [allRes_of_hasInst_eq hHI]
      exact hcell
  · intro h
    exfalso
    have h4 := (hInv.cfgFresh h).2.2.2 i
    rw [h4] at hNe
    exact hNe rfl
  · intro k lft h
    exfalso
    obtain ⟨_, hFTN⟩ := prePass_of_notFinished hInv
      (by rw [show s.startTask = .initRunning k lft from h]; rfl)
    exact hNe (hFTN i)
  · intro k h
    exfalso
    obtain ⟨_, hFTN⟩ := prePass_of_notFinished hInv
      (by rw [show s.startTask = .initSettled k from h]; rfl)
    exact hNe (hFTN i)
  · intro b h
    obtain ⟨hb, hgood⟩ := hInv.startFinT b h
    refine ⟨hb, ?_⟩
    intro j hj
    refine ⟨(hgood j hj).1, ?_⟩
    rw [hHI j]
    exact (hgood j hj).2
  · intro b h hin
    obtain ⟨hb, k, hk, hok, hgood, hfresh, hki2⟩ := hInv.startFinF b h hin
    refine ⟨hb, k, hk, hok, ?_, ?_, ?_⟩
    · intro j hj
      refine ⟨(hgood j hj).1, ?_⟩
      rw [hHI j]
      exact (hgood j hj).2
    · intro j hj
      have hji : j ≠ i := by
        intro hh
        have h5 := (hfresh j hj).2
        rw [hh, hInstI] at h5
        exact Bool.noConfusion h5
      refine ⟨?_, ?_⟩
      · rw [hMsNe j hji]
        exact (hfresh j hj).1
      · rw [hHI j]
        exact (hfresh j hj).2
    · rw [hHI k]
      exact hki2

theorem inv_guideTick {spec : List GSpec} {auto : Bool} {s : EState} {i l : Nat}
    (hInv : Inv spec auto s) (hlen : i < s.guides.length)
    (hft : (s.guide i).finTask = some (.runningCb (l+1))) :
    Inv spec auto (setGuide s i { s.guide i with finTask := some (.runningCb l) }) := by
  have hRun := hInv.runInv i (l+1) hft
  refine inv_guideLocal hInv hlen rfl rfl ?_ ?_ ?_ hRun.2.1 ?_ ?_ ?_ ?_ ?_
  · rw [hft]
    simp
  · exact fun hh => Option.noConfusion hh
  · intro hd
    rw [hft] at hd
    simp [FinTask.isDone] at hd
  · intro snap hsn
    have h2 : (some (FinTask.runningCb l) : Option FinTask) =
      some (.waitingDeps snap) := hsn
    simp at h2
  · intro lft _
    exact ⟨hRun.1, hRun.2.1, hRun.2.2⟩
  · intro _ d hd
    apply hInv.stageDeps i ?_ d hd
    rw [hft]
    simp [FinTask.stage]
  · intro _
    exact Nat.le_refl 2
  · intro b hb
    have h2 : (some (FinTask.runningCb l) : Option FinTask) = some (.done b) := hb
    simp at h2

theorem inv_guideSettle {spec : List GSpec} {auto : Bool} {s : EState} {i : Nat}
    (hInv : Inv spec auto s) (hlen : i < s.guides.length)
    (hft : (s.guide i).finTask = some (.runningCb 0)) :
    Inv spec auto (setGuide s i
      { s.guide i with
          mstate := if cbResult (spec.getD i default).cb then .finalized
                    else .finalization_failed
        , finTask := some (.done (cbResult (spec.getD i default).cb)) }) := by
  have hRun := hInv.runInv i 0 hft
  refine inv_guideLocal hInv hlen rfl rfl ?_ ?_ ?_ hRun.2.1 ?_ ?_ ?_ ?_ ?_
  · rw [hft]
    simp
  · exact fun hh => Option.noConfusion hh
  · intro _
    rfl
  · intro snap hsn
    have h2 : (some (FinTask.done (cbResult (spec.getD i default).cb)) : Option FinTask) =
      some (.waitingDeps snap) := hsn
    simp at h2
  · intro lft hsn
    have h2 : (some (FinTask.done (cbResult (spec.getD i default).cb)) : Option FinTask) =
      some (.runningCb lft) := hsn
    simp at h2
  · intro _ d hd
    apply hInv.stageDeps i ?_ d hd
    rw [hft]
    simp [FinTask.stage]
  · intro _
    exact Nat.le_succ 2
  · intro b hb
    have h2 : (some (FinTask.done (cbResult (spec.getD i default).cb)) : Option FinTask) =
      some (.done b) := hb
    injection h2 with h3
    injection h3 with h4
    rw [← h4]
    unfold finResultD
    rw [hRun.2.1]
    unfold specCbRes
    rw [hRun.1]
    rfl

theorem inv_guideResume {spec : List GSpec} {auto : Bool} {s : EState} {i : Nat}
    {snap : List Nat}
    (hInv : Inv spec auto s) (hlen : i < s.guides.length)
    (hft : (s.guide i).finTask = some (.waitingDeps snap))
    (hall : snap.all (fun d => FinTask.isDone (s.guide d).finTask) = true) :
    Inv spec auto (setGuide s i (startCbGuide (spec.getD i default) (s.guide i))) := by
  have hWI := hInv.waitInv i snap hft
  refine inv_guideLocal hInv hlen (startCbGuide_hasInst _ _) (startCbGuide_dependents _ _)
    ?_ ?_ ?_ hWI.2.2 ?_ ?_ ?_ ?_ ?_
  · rw [hft]
    simp
  · rcases startCbGuide_cases (spec.getD i default) (s.guide i) with ⟨_, hc⟩ | ⟨_, hc⟩ <;>
      rw [hc] <;> simp
  · intro hd
    rw [hft] at hd
    simp [FinTask.isDone] at hd
  · intro snap2 hsn
    rcases startCbGuide_cases (spec.getD i default) (s.guide i) with ⟨_, hc⟩ | ⟨_, hc⟩ <;>
      rw [hc] at hsn <;> simp at hsn
  · intro lft hsn
    rcases startCbGuide_cases (spec.getD i default) (s.guide i) with ⟨hcb, hc⟩ | ⟨hcb, hc⟩
    · refine ⟨hcb, ?_, ?_⟩
      · rw [startCbGuide_hasInst]
        exact hWI.2.2
      · rw [hc]
    · rw [hc] at hsn
      simp at hsn
  · intro _ d hd
    rw [startCbGuide_dependents] at hd
    have h3 : d ∈ snap := by
      rw [hWI.1]
      exact hd
    exact List.all_eq_true.mp hall d h3
  · intro _
    rcases startCbGuide_cases (spec.getD i default) (s.guide i) with ⟨_, hc⟩ | ⟨_, hc⟩
    · rw [hc]
      exact Nat.le_refl 2
    · rw [hc]
      exact Nat.le_succ 2
  · intro b hb
    rcases startCbGuide_cases (spec.getD i default) (s.guide i) with ⟨hcb, hc⟩ | ⟨hcb, hc⟩
    · rw [hc] at hb
      have h2 : (some (FinTask.runningCb (spec.getD i default).cbSteps) :
        Option FinTask) = some (.done b) := hb
      simp at h2
    · rw [hc] at hb
      have h2 : (some (FinTask.done true) : Option FinTask) = some (.done b) := hb
      injection h2 with h3
      injection h3 with h4
      rw [← h4]
      unfold finResultD
      rw [hWI.2.2]
      unfold specCbRes
      rw [hcb]
      simp

/-- Preservation of the invariant under the pass step that issues guide
`spec.length - 1 - pos`'s finalize and moves the loop to `pos+1` with a new
pending list `pend'`. -/
theorem inv_passIssue {spec : List GSpec} {auto : Bool} {s : EState}
    {pos : Nat} {pend' : List FinRef}
    (hInv : Inv spec auto s)
    (hpos : pos < spec.length)
    (hPh : s.phase = .stopping ∨ s.phase = .stopped ∨ s.phase = .stopping_failed)
    (hstT : isFinishedSt s.startTask = true)
    (hstND : s.stopTask ≠ some .doneStop)
    (hstNW : s.stopTask ≠ some .waitingInterrupt)
    (hCellN : s.stoppedCell = none)
    (hIss : ∀ q, q < spec.length →
        ((s.guide (spec.length - 1 - q)).finTask ≠ none ↔ q < pos))
    (hCov : CoverUpTo spec s pos pend')
    (hHist : HistUpTo spec s pos)
    (hHistTop : (spec.getD (spec.length - 1 - pos) default).ordered = true →
        ∀ r, r < pos → FinTask.isDone (s.guide (spec.length - 1 - r)).finTask = true)
    (hMem : FinRef.guideRef (spec.length - 1 - pos) ∈ pend')
    (hVer : pend'.all (refVal spec s) =
        (allRes spec s pos && finResultD spec s (spec.length - 1 - pos))) :
    Inv spec auto
      { setGuide s (spec.length - 1 - pos)
          (finalizeEffect (spec.getD (spec.length - 1 - pos) default)
            (s.guide (spec.length - 1 - pos))) with
        stopTask := some (.finLoop (pos+1) pend') } := by
  have hF0 : (s.guide (spec.length - 1 - pos)).finTask = none := by
    by_contra hc
    exact absurd ((hIss pos hpos).1 hc) (by omega)
  have hn0 : spec.length - 1 - pos < s.guides.length := by
    rw [hInv.len]
    omega
  have hcase : ∀ j,
      (({ setGuide s (spec.length - 1 - pos)
            (finalizeEffect (spec.getD (spec.length - 1 - pos) default)
              (s.guide (spec.length - 1 - pos))) with
          stopTask := some (.finLoop (pos+1) pend') } : EState).guide j =
        finalizeEffect (spec.getD (spec.length - 1 - pos) default)
          (s.guide (spec.length - 1 - pos)) ∧ spec.length - 1 - pos = j) ∨
      ({ setGuide s (spec.length - 1 - pos)
            (finalizeEffect (spec.getD (spec.length - 1 - pos) default)
              (s.guide (spec.length - 1 - pos))) with
          stopTask := some (.finLoop (pos+1) pend') } : EState).guide j = s.guide j :=
    fun j => guide_setGuide_cases s (spec.length - 1 - pos) j _
  have hG0 : ({ setGuide s (spec.length - 1 - pos)
        (finalizeEffect (spec.getD (spec.length - 1 - pos) default)
          (s.guide (spec.length - 1 - pos))) with
      stopTask := some (.finLoop (pos+1) pend') } : EState).guide (spec.length - 1 - pos) =
      finalizeEffect (spec.getD (spec.length - 1 - pos) default)
        (s.guide (spec.length - 1 - pos)) :=
    guide_setGuide_self hn0
  have hGne : ∀ j, j ≠ spec.length - 1 - pos →
      ({ setGuide s (spec.length - 1 - pos)
            (finalizeEffect (spec.getD (spec.length - 1 - pos) default)
              (s.guide (spec.length - 1 - pos))) with
          stopTask := some (.finLoop (pos+1) pend') } : EState).guide j = s.guide j :=
    fun j hj => guide_setGuide_ne _ _ (fun hh => hj hh.symm)
  have hHI : ∀ j,
      (({ setGuide s (spec.length - 1 - pos)
            (finalizeEffect (spec.getD (spec.length - 1 - pos) default)
              (s.guide (spec.length - 1 - pos))) with
          stopTask := some (.finLoop (pos+1) pend') } : EState).guide j).hasInst =
        (s.guide j).hasInst := by
    intro j
    rcases hcase j with ⟨hgj, hij⟩ | hgj
    · subst hij
      rw [hgj, finalizeEffect_hasInst]
    · rw [hgj]
  have hDp : ∀ j,
      (({ setGuide s (spec.length - 1 - pos)
            (finalizeEffect (spec.getD (spec.length - 1 - pos) default)
              (s.guide (spec.length - 1 - pos))) with
          stopTask := some (.finLoop (pos+1) pend') } : EState).guide j).dependents =
        (s.guide j).dependents := by
    intro j
    rcases hcase j with ⟨hgj, hij⟩ | hgj
    · subst hij
      rw [hgj, finalizeEffect_dependents]
    · rw [hgj]
  have hF0T : (({ setGuide s (spec.length - 1 - pos)
        (finalizeEffect (spec.getD (spec.length - 1 - pos) default)
          (s.guide (spec.length - 1 - pos))) with
      stopTask := some (.finLoop (pos+1) pend') } : EState).guide
        (spec.length - 1 - pos)).finTask ≠ none := by
    rw [hG0]
    exact finalizeEffect_none_not_none _ _ hF0
  have hDm : ∀ j, FinTask.isDone (s.guide j).finTask = true →
      FinTask.isDone
        (({ setGuide s (spec.length - 1 - pos)
              (finalizeEffect (spec.getD (spec.length - 1 - pos) default)
                (s.guide (spec.length - 1 - pos))) with
            stopTask := some (.finLoop (pos+1) pend') } : EState).guide j).finTask =
          true := by
    intro j hd
    rcases hcase j with ⟨hgj, hij⟩ | hgj
    · subst hij
      rw [hF0] at hd
      simp [FinTask.isDone] at hd
    · rw [hgj]
      exact hd
  refine
    { len := ?_, depInst := ?_, waitInv := ?_, runInv := ?_,
      stageDeps := ?_, mstageCorr := ?_, doneVal := ?_, issuance := ?_,
      pendCover := ?_, barrierHist := ?_, verdict := ?_, doneSummary := ?_,
      cellDone := ?_, intrPend := ?_, intrRes := ?_,
      intrPhase := ?_, passStart := ?_, phaseReady := ?_,
      phaseStF := ?_, phaseStarting := ?_, taskPhase := ?_,
      stoppingTask := ?_, waitIntr := ?_, cfgFresh := ?_,
      startRun := ?_, startSet := ?_, startFinT := ?_, startFinF := ?_,
      startFinI := ?_ }
  · show (setGuide s _ _).guides.length = spec.length
    rw [setGuide_len]
    exact hInv.len
  · intro j hne
    rw [hHI j]
    apply hInv.depInst j
    rw [← hDp j]
    exact hne
  · intro j snap hsn
    rcases hcase j with ⟨hgj, hij⟩ | hgj
    · subst hij
      rw [hgj] at hsn ⊢
      rcases finalizeEffect_cases (spec.getD (spec.length - 1 - pos) default)
          (s.guide (spec.length - 1 - pos)) with
        ⟨hS, _⟩ | ⟨_, _, hE⟩ | ⟨_, _, _, hE⟩ | ⟨_, hI, _, hE⟩
      · rw [hF0] at hS
        simp at hS
      · rw [hE] at hsn
        have h2 : (some (FinTask.done true) : Option FinTask) =
          some (.waitingDeps snap) := hsn
        simp at h2
      · rw [hE] at hsn
        rcases startCbGuide_cases (spec.getD (spec.length - 1 - pos) default)
            (s.guide (spec.length - 1 - pos)) with ⟨_, hc⟩ | ⟨_, hc⟩ <;>
          rw [hc] at hsn <;> simp at hsn
      · rw [hE] at hsn ⊢
        have h2 : (some (FinTask.waitingDeps
            (s.guide (spec.length - 1 - pos)).dependents) : Option FinTask) =
          some (.waitingDeps snap) := hsn
        injection h2 with h3
        injection h3 with h4
        exact ⟨h4.symm, rfl, hI⟩
    · rw [hgj] at hsn ⊢
      exact hInv.waitInv j snap hsn
  · intro j lft hsn
    rcases hcase j with ⟨hgj, hij⟩ | hgj
    · subst hij
      rw [hgj] at hsn ⊢
      rcases finalizeEffect_cases (spec.getD (spec.length - 1 - pos) default)
          (s.guide (spec.length - 1 - pos)) with
        ⟨hS, _⟩ | ⟨_, _, hE⟩ | ⟨_, hI, _, hE⟩ | ⟨_, _, _, hE⟩
      · rw [hF0] at hS
        simp at hS
      · rw [hE] at hsn
        have h2 : (some (FinTask.done true) : Option FinTask) =
          some (.runningCb lft) := hsn
        simp at h2
      · rw [hE] at hsn ⊢
        rcases startCbGuide_cases (spec.getD (spec.length - 1 - pos) default)
            (s.guide (spec.length - 1 - pos)) with ⟨hcb, hc⟩ | ⟨_, hc⟩
        · rw [hc] at hsn ⊢
          exact ⟨hcb, hI, rfl⟩
        · rw [hc] at hsn
          have h2 : (some (FinTask.done true) : Option FinTask) =
            some (.runningCb lft) := hsn
          simp at h2
      · rw [hE] at hsn
        have h2 : (some (FinTask.waitingDeps
            (s.guide (spec.length - 1 - pos)).dependents) : Option FinTask) =
          some (.runningCb lft) := hsn
        simp at h2
    · rw [hgj] at hsn ⊢
      exact hInv.runInv j lft hsn
  · intro j h2 d hd
    rcases hcase j with ⟨hgj, hij⟩ | hgj
    · subst hij
      rw [hgj] at h2 hd
      rw [finalizeEffect_dependents] at hd
      rcases finalizeEffect_cases (spec.getD (spec.length - 1 - pos) default)
          (s.guide (spec.length - 1 - pos)) with
        ⟨hS, _⟩ | ⟨_, hI, _⟩ | ⟨_, _, hDp0, _⟩ | ⟨_, _, _, hE⟩
      · rw [hF0] at hS
        simp at hS
      · exfalso
        have h3 := hInv.depInst (spec.length - 1 - pos) (List.ne_nil_of_mem hd)
        rw [h3] at hI
        exact Bool.noConfusion hI
      · rw [hDp0] at hd
        simp at hd
      · rw [hE] at h2
        have h3 : (2:Nat) ≤ 1 := h2
        omega
    · rw [hgj] at h2 hd
      exact hDm d (hInv.stageDeps j h2 d hd)
  · intro j htrio
    rcases hcase j with ⟨hgj, hij⟩ | hgj
    · subst hij
      rw [hgj] at htrio ⊢
      rcases finalizeEffect_cases (spec.getD (spec.length - 1 - pos) default)
          (s.guide (spec.length - 1 - pos)) with
        ⟨hS, _⟩ | ⟨_, _, hE⟩ | ⟨_, _, _, hE⟩ | ⟨_, _, _, hE⟩
      · rw [hF0] at hS
        simp at hS
      · rw [hE]
        exact Nat.le_succ 2
      · rw [hE]
        rcases startCbGuide_cases (spec.getD (spec.length - 1 - pos) default)
            (s.guide (spec.length - 1 - pos)) with ⟨_, hc⟩ | ⟨_, hc⟩
        · rw [hc]
          exact Nat.le_refl 2
        · rw [hc]
          exact Nat.le_succ 2
      · rw [hE] at htrio
        exfalso
        rcases htrio with h | h | h <;>
          · have h2 : ModState.awaiting_finalization = _ := h
            simp at h2
    · rw [hgj] at htrio ⊢
      exact hInv.mstageCorr j htrio
  · intro j b hb
    rw [finResultD_of_hasInst_eq hHI j]
    rcases hcase j with ⟨hgj, hij⟩ | hgj
    · subst hij
      rw [hgj] at hb
      rcases finalizeEffect_cases (spec.getD (spec.length - 1 - pos) default)
          (s.guide (spec.length - 1 - pos)) with
        ⟨hS, _⟩ | ⟨_, hI, hE⟩ | ⟨_, hI, _, hE⟩ | ⟨_, _, _, hE⟩
      · rw [hF0] at hS
        simp at hS
      · rw [hE] at hb
        have h2 : (some (FinTask.done true) : Option FinTask) = some (.done b) := hb
        injection h2 with h3
        injection h3 with h4
        rw [← h4]
        unfold finResultD
        rw [hI]
        simp
      · rw [hE] at hb
        rcases startCbGuide_cases (spec.getD (spec.length - 1 - pos) default)
            (s.guide (spec.length - 1 - pos)) with ⟨_, hc⟩ | ⟨hcb, hc⟩
        · rw [hc] at hb
          have h2 : (some (FinTask.runningCb _) : Option FinTask) = some (.done b) := hb
          simp at h2
        · rw [hc] at hb
          have h2 : (some (FinTask.done true) : Option FinTask) = some (.done b) := hb
          injection h2 with h3
          injection h3 with h4
          rw [← h4]
          unfold finResultD
          rw [hI]
          unfold specCbRes
          rw [hcb]
          simp
      · rw [hE] at hb
        have h2 : (some (FinTask.waitingDeps
            (s.guide (spec.length - 1 - pos)).dependents) : Option FinTask) =
          some (.done b) := hb
        simp at h2
    · rw [hgj] at hb
      exact hInv.doneVal j b hb
  · refine ⟨by omega, ?_⟩
    intro q hq
    by_cases hqp : q = pos
    · subst hqp
      exact ⟨fun _ => by omega, fun _ => hF0T⟩
    · have hne : spec.length - 1 - q ≠ spec.length - 1 - pos := by omega
      rw [hGne _ hne]
      constructor
      · intro h
        have := (hIss q hq).1 h
        omega
      · intro h
        exact (hIss q hq).2 (by omega)
  · intro q hq
    by_cases hqp : q = pos
    · subst hqp
      exact .inr hMem
    · rcases hCov q (by omega) with hd | hm
      · exact .inl (hDm _ hd)
      · exact .inr hm
  · intro b hb hordb r hr
    by_cases hbp : b = pos
    · subst hbp
      exact hDm _ (hHistTop hordb r hr)
    · exact hDm _ (hHist b (by omega) hordb r hr)
  · show pend'.all (refVal spec _) = allRes spec _ (pos + 1)
    rw [all_congrB _ _ _ (fun r _ => refVal_of_hasInst_eq hHI r),
      allRes_of_hasInst_eq hHI, hVer]
    unfold allRes
    rw [List.range_succ, List.all_append]
    simp
  · intro h
    have h2 : (some (StopTask.finLoop (pos+1) pend') : Option StopTask) =
      some .doneStop := h
    simp at h2
  · intro b hb
    have hb' : s.stoppedCell = some b := hb
    rw [hCellN] at hb'
    exact Option.noConfusion hb'
  · intro h
    exfalso
    exact hstNW (hInv.intrPend h).2
  · intro h
    exact hInv.intrRes h
  · intro _
    exact hPh
  · intro _
    exact hstT
  · intro h
    exact hInv.phaseReady h
  · intro h
    exact hInv.phaseStF h
  · intro h
    exact hInv.phaseStarting h
  · intro _
    exact hPh
  · intro _
    show (some (StopTask.finLoop (pos+1) pend') : Option StopTask) ≠ none
    simp
  · intro h
    have h2 : (some (StopTask.finLoop (pos+1) pend') : Option StopTask) =
      some .waitingInterrupt := h
    simp at h2
  · intro h
    exfalso
    have h2 : s.phase = .configured := h
    rcases hPh with hp | hp | hp <;> rw [h2] at hp <;> simp at hp
  · intro k lft h
    exfalso
    have h' : s.startTask = .initRunning k lft := h
    rw [h'] at hstT
    simp [isFinishedSt] at hstT
  · intro k h
    exfalso
    have h' : s.startTask = .initSettled k := h
    rw [h'] at hstT
    simp [isFinishedSt] at hstT
  · intro b h
    obtain ⟨hb, hgood⟩ := hInv.startFinT b h
    refine ⟨hb, ?_⟩
    intro j hj
    refine ⟨(hgood j hj).1, ?_⟩
    rw [hHI j]
    exact (hgood j hj).2
  · intro b h hin
    obtain ⟨hb, k, hk, hok, hgood, hfresh, hki⟩ := hInv.startFinF b h hin
    refine ⟨hb, k, hk, hok, ?_, ?_, ?_⟩
    · intro j hj
      refine ⟨(hgood j hj).1, ?_⟩
      rw [hHI j]
      exact (hgood j hj).2
    · intro j hj
      rcases hcase j with ⟨hgj, hij⟩ | hgj
      · subst hij
        refine ⟨?_, ?_⟩
        · rw [hgj, finalizeEffect_mstate_noInst _ _ ((hfresh _ hj).2)]
          exact (hfresh _ hj).1
        · rw [hgj, finalizeEffect_hasInst]
          exact (hfresh _ hj).2
      · exact ⟨by rw [hgj]; exact (hfresh j hj).1, by rw [hgj]; exact (hfresh j hj).2⟩
    · rw [hHI k]
      exact hki
  · intro b h hin
    exact hInv.startFinI b h hin

theorem inv_finIssue {spec : List GSpec} {auto : Bool} {s : EState}
    {pos : Nat} {pend : List FinRef}
    (hInv : Inv spec auto s) (hst : s.stopTask = some (.finLoop pos pend))
    (hpos : pos < spec.length)
    (hord : (spec.getD (spec.length - 1 - pos) default).ordered = false) :
    Inv spec auto
      { setGuide s (spec.length - 1 - pos)
          (finalizeEffect (spec.getD (spec.length - 1 - pos) default)
            (s.guide (spec.length - 1 - pos))) with
        stopTask := some (.finLoop (pos+1)
          (pend ++ [.guideRef (spec.length - 1 - pos)])) } := by
  have hIss0 : pos ≤ spec.length ∧ ∀ q, q < spec.length →
      ((s.guide (spec.length - 1 - q)).finTask ≠ none ↔ q < pos) := by
    have h2 := hInv.issuance
    rw [hst] at h2
    exact h2
  have hCov0 : CoverUpTo spec s pos pend := by
    have h2 := hInv.pendCover
    rw [hst] at h2
    exact h2
  have hHist0 : HistUpTo spec s pos := by
    have h2 := hInv.barrierHist
    rw [hst] at h2
    exact h2
  have hVer0 : pend.all (refVal spec s) = allRes spec s pos := by
    have h2 := hInv.verdict
    rw [hst] at h2
    exact h2
  refine inv_passIssue hInv hpos ?_ ?_ ?_ ?_ ?_ hIss0.2 ?_ hHist0 ?_ ?_ ?_
  · exact hInv.taskPhase (by rw [hst]; simp)
  · exact hInv.passStart (by rw [hst]; rfl)
  · rw [hst]
    simp
  · rw [hst]
    simp
  · cases hsc : s.stoppedCell with
    | none => rfl
    | some b =>
        exfalso
        have h2 := hInv.cellDone b hsc
        rw [hst] at h2
        simp at h2
  · intro q hq
    rcases hCov0 q hq with hd | hm
    · exact .inl hd
    · exact .inr (List.mem_append.2 (.inl hm))
  · intro hordT
    rw [hord] at hordT
    exact Bool.noConfusion hordT
  · exact List.mem_append.2 (.inr (by simp))
  · rw [List.all_append, hVer0]
    simp [refVal]

theorem inv_barrierPass {spec : List GSpec} {auto : Bool} {s : EState}
    {pos : Nat} {pend : List FinRef}
    (hInv : Inv spec auto s) (hst : s.stopTask = some (.atBarrier pos pend))
    (hall : pend.all (refSettled s) = true) :
    Inv spec auto
      { setGuide s (spec.length - 1 - pos)
          (finalizeEffect (spec.getD (spec.length - 1 - pos) default)
            (s.guide (spec.length - 1 - pos))) with
        stopTask := some (.finLoop (pos+1)
          [.resolvedRef (pend.all (refStoredVal s)),
           .guideRef (spec.length - 1 - pos)]) } := by
  have hIss0 : pos < spec.length ∧ ∀ q, q < spec.length →
      ((s.guide (spec.length - 1 - q)).finTask ≠ none ↔ q < pos) := by
    have h2 := hInv.issuance
    rw [hst] at h2
    exact h2
  have hCov0 : CoverUpTo spec s pos pend := by
    have h2 := hInv.pendCover
    rw [hst] at h2
    exact h2
  have hHist0 : HistUpTo spec s pos := by
    have h2 := hInv.barrierHist
    rw [hst] at h2
    exact h2
  have hVer0 : pend.all (refVal spec s) = allRes spec s pos := by
    have h2 := hInv.verdict
    rw [hst] at h2
    exact h2
  have hSettled : ∀ r, r ∈ pend → refSettled s r = true :=
    fun r hr => List.all_eq_true.mp hall r hr
  have hc : pend.all (refStoredVal s) = allRes spec s pos :=
    (all_congrB pend _ _ (fun r hr => refStored_eq hInv.doneVal r (hSettled r hr))).trans
      hVer0
  refine inv_passIssue hInv hIss0.1 ?_ ?_ ?_ ?_ ?_ hIss0.2 ?_ hHist0 ?_ ?_ ?_
  · exact hInv.taskPhase (by rw [hst]; simp)
  · exact hInv.passStart (by rw [hst]; rfl)
  · rw [hst]
    simp
  · rw [hst]
    simp
  · cases hsc : s.stoppedCell with
    | none => rfl
    | some b =>
        exfalso
        have h2 := hInv.cellDone b hsc
        rw [hst] at h2
        simp at h2
  · intro q hq
    rcases hCov0 q hq with hd | hm
    · exact .inl hd
    · exact .inl (hSettled _ hm)
  · intro _ r hr
    rcases hCov0 r hr with hd | hm
    · exact hd
    · exact hSettled _ hm
  · simp
  · simp [refVal, hc]

theorem inv_stopFinish_aux {spec : List GSpec} {auto : Bool} {s : EState}
    {pend : List FinRef} {c : Bool}
    (hInv : Inv spec auto s) (hst : s.stopTask = some (.finalWait pend))
    (hall : pend.all (refSettled s) = true)
    (hc : c = allRes spec s spec.length) :
    Inv spec auto
      { s with phase := if c then Phase.stopped else .stopping_failed
             , stoppedCell := some c, stopTask := some .doneStop } := by
  have hCov : CoverUpTo spec s spec.length pend := by
    have h2 := hInv.pendCover
    rw [hst] at h2
    exact h2
  have hstT : isFinishedSt s.startTask = true :=
    hInv.passStart (by rw [hst]; rfl)
  have hDone : ∀ q, q < spec.length →
      FinTask.isDone (s.guide (spec.length - 1 - q)).finTask = true := by
    intro q hq
    rcases hCov q hq with hd | hm
    · exact hd
    · exact List.all_eq_true.mp hall _ hm
  refine
    { len := hInv.len, depInst := hInv.depInst, waitInv := hInv.waitInv,
      runInv := hInv.runInv, stageDeps := hInv.stageDeps,
      mstageCorr := hInv.mstageCorr, doneVal := hInv.doneVal,
      issuance := hDone, pendCover := trivial, barrierHist := trivial,
      verdict := trivial, doneSummary := ?_, cellDone := ?_,
      intrPend := ?_, intrRes := ?_, intrPhase := ?_, passStart := ?_,
      phaseReady := ?_, phaseStF := ?_, phaseStarting := ?_, taskPhase := ?_,
      stoppingTask := ?_, waitIntr := ?_, cfgFresh := ?_,
      startRun := ?_, startSet := ?_, startFinT := ?_, startFinF := ?_,
      startFinI := ?_ }
  · intro _
    refine ⟨?_, ?_⟩
    · show (if c then Phase.stopped else Phase.stopping_failed) =
        (if allRes spec s spec.length then Phase.stopped else Phase.stopping_failed)
      rw [hc]
    · show some c = some (allRes spec s spec.length)
      rw [hc]
  · intro b _
    rfl
  · intro h
    exfalso
    have h2 := (hInv.intrPend h).2
    rw [hst] at h2
    simp at h2
  · intro h
    exact hInv.intrRes h
  · intro _
    rcases Bool.eq_false_or_eq_true c with hcb | hcb
    · refine .inr (.inl ?_)
      show (if c then Phase.stopped else Phase.stopping_failed) = Phase.stopped
      rw [hcb]
      simp
    · refine .inr (.inr ?_)
      show (if c then Phase.stopped else Phase.stopping_failed) = Phase.stopping_failed
      rw [hcb]
      simp
  · intro _
    exact hstT
  · intro h
    have h2 : (if c then Phase.stopped else Phase.stopping_failed) = Phase.ready := h
    rcases Bool.eq_false_or_eq_true c with hcb | hcb <;> rw [hcb] at h2 <;> simp at h2
  · intro h
    have h2 : (if c then Phase.stopped else Phase.stopping_failed) =
      Phase.starting_failed := h
    rcases Bool.eq_false_or_eq_true c with hcb | hcb <;> rw [hcb] at h2 <;> simp at h2
  · intro h
    have h2 : (if c then Phase.stopped else Phase.stopping_failed) = Phase.starting := h
    rcases Bool.eq_false_or_eq_true c with hcb | hcb <;> rw [hcb] at h2 <;> simp at h2
  · intro _
    rcases Bool.eq_false_or_eq_true c with hcb | hcb
    · refine .inr (.inl ?_)
      show (if c then Phase.stopped else Phase.stopping_failed) = Phase.stopped
      rw [hcb]
      simp
    · refine .inr (.inr ?_)
      show (if c then Phase.stopped else Phase.stopping_failed) = Phase.stopping_failed
      rw [hcb]
      simp
  · intro _
    show (some StopTask.doneStop : Option StopTask) ≠ none
    simp
  · intro h
    have h2 : (some StopTask.doneStop : Option StopTask) = some .waitingInterrupt := h
    simp at h2
  · intro h
    have h2 : (if c then Phase.stopped else Phase.stopping_failed) = Phase.configured := h
    rcases Bool.eq_false_or_eq_true c with hcb | hcb <;> rw [hcb] at h2 <;> simp at h2
  · intro k lft h
    exfalso
    have h' : s.startTask = .initRunning k lft := h
    rw [h'] at hstT
    simp [isFinishedSt] at hstT
  · intro k h
    exfalso
    have h' : s.startTask = .initSettled k := h
    rw [h'] at hstT
    simp [isFinishedSt] at hstT
  · intro b h
    exact hInv.startFinT b h
  · intro b h hin
    exact hInv.startFinF b h hin
  · intro b h hin
    exact hInv.startFinI b h hin

theorem inv_stopFinish {spec : List GSpec} {auto : Bool} {s : EState}
    {pend : List FinRef}
    (hInv : Inv spec auto s) (hst : s.stopTask = some (.finalWait pend))
    (hall : pend.all (refSettled s) = true) :
    Inv spec auto
      { s with
          phase := if pend.all (refStoredVal s) then Phase.stopped else .stopping_failed
        , stoppedCell := some (pend.all (refStoredVal s))
        , stopTask := some .doneStop } := by
  have hVer0 : pend.all (refVal spec s) = allRes spec s spec.length := by
    have h2 := hInv.verdict
    rw [hst] at h2
    exact h2
  have hc : pend.all (refStoredVal s) = allRes spec s spec.length :=
    (all_congrB pend _ _ (fun r hr => refStored_eq hInv.doneVal r
      (List.all_eq_true.mp hall r hr))).trans hVer0
  exact inv_stopFinish_aux hInv hst hall hc

theorem inv_contFail {spec : List GSpec} {auto : Bool} {s : EState} {k : Nat}
    (hInv : Inv spec auto s) (hst : s.startTask = .initSettled k)
    (hint : s.interrupt = none) (hinst : (s.guide k).hasInst = false) :
    Inv spec auto
      (if auto then
        stopCallFn { s with phase := .starting_failed, startTask := .finishedSt false auto }
       else { s with phase := .starting_failed, startTask := .finishedSt false auto }) := by
  have hbase := inv_contFail_base hInv hst hint hinst
  cases auto with
  | false => exact hbase
  | true => exact inv_stopCalled hbase

/-- One machine step preserves the reachability invariant. -/
theorem inv_step {spec : List GSpec} {auto : Bool} {s s' : EState} {l : Lbl}
    (hInv : Inv spec auto s) (h : stepFn spec auto s l = some s') :
    Inv spec auto s' := by
  cases stepFn_shape h with
  | startEmpty hph hlen => exact inv_startEmpty hInv hph hlen
  | startFirst hph hlen => exact inv_startFirst hInv hph hlen
  | initTick k l hst => exact inv_initTick hInv hst
  | initSettleOk k hst hok => exact inv_initSettleOk hInv hst hok
  | initSettleFail k hst hok => exact inv_initSettleFail hInv hst hok
  | contInterrupt k hst hint => exact inv_contInterrupt hInv hst hint
  | contFail k hst hint hinst => exact inv_contFail hInv hst hint hinst
  | contAdvance k hst hint hinst hlt => exact inv_contAdvance hInv hst hint hinst hlt
  | contReady k hst hint hinst hlt => exact inv_contReady hInv hst hint hinst hlt
  | stopCalled => exact inv_stopCalled hInv
  | stopWake hst hint => exact inv_stopWake hInv hst hint
  | barrierEnter pos pend hst hpos hord => exact inv_barrierEnter hInv hst hpos
  | finIssue pos pend hst hpos hord => exact inv_finIssue hInv hst hpos hord
  | loopEnd pos pend hst hpos => exact inv_loopEnd hInv hst hpos
  | barrierPass pos pend hst hall => exact inv_barrierPass hInv hst hall
  | stopFinish pend hst hall => exact inv_stopFinish hInv hst hall
  | guideResume i snap hlen hft hall => exact inv_guideResume hInv hlen hft hall
  | guideTick i l hlen hft => exact inv_guideTick hInv hlen hft
  | guideSettle i hlen hft => exact inv_guideSettle hInv hlen hft

/-- Every state reachable from a state satisfying the invariant satisfies
the invariant. -/
theorem reaches_inv {spec : List GSpec} {auto : Bool} :
    ∀ {s s' : EState} {tr : List Lbl},
      Inv spec auto s → Reaches spec auto s tr s' → Inv spec auto s'
  | _, _, _, hInv, .refl _ => hInv
  | _, _, _, hInv, .head hstep hrest => reaches_inv (inv_step hInv hstep) hrest

/-- Every state reachable from the initial state satisfies the invariant. -/
theorem reach_inv {spec : List GSpec} {auto : Bool} {s : EState} {tr : List Lbl}
    (h : Reaches spec auto (initState spec) tr s) : Inv spec auto s :=
  reaches_inv (inv_init spec auto) h

/-! ### Persistence of dependent registrations -/

theorem regDeps_dep_mem (k : Nat) :
    ∀ (ds : List Nat) (gs : List GuideDyn) (j D : Nat),
      D ∈ (gs.getD j freshGuide).dependents →
      D ∈ ((regDeps k ds gs).1.getD j freshGuide).dependents
  | [], _, _, _, h => h
  | d :: ds, gs, j, D, h => by
      simp only [regDeps]
      split
      · apply regDeps_dep_mem k ds
        rcases getD_set_cases gs d j (pushDependent k (gs.getD d freshGuide)) freshGuide
          with ⟨heq, hdj⟩ | heq
        · subst hdj
          rw [heq]
          show D ∈ (gs.getD d freshGuide).dependents ++ [k]
          exact List.mem_append.2 (.inl h)
        · rw [heq]
          exact h
      · exact h

theorem issueInit_dep_mem (spec : List GSpec) (s : EState) (k j D : Nat)
    (h : D ∈ (s.guide j).dependents) :
    D ∈ ((issueInit spec s k).guide j).dependents := by
  rw [issueInit_guide_eq]
  apply regDeps_dep_mem
  rcases guide_setGuide_cases s k j { s.guide k with mstate := .initializing } with
    ⟨heq, hkj⟩ | heq
  · subst hkj
    show D ∈ ((setGuide s k { s.guide k with mstate := ModState.initializing }).guide k).dependents
    rw [heq]
    exact h
  · show D ∈ ((setGuide s k { s.guide k with mstate := ModState.initializing }).guide j).dependents
    rw [heq]
    exact h

theorem shape_dep_mono {spec : List GSpec} {auto : Bool} {s s' : EState}
    (hs : StepShape spec auto s s') (P D : Nat)
    (h : D ∈ (s.guide P).dependents) : D ∈ (s'.guide P).dependents := by
  have triv : ∀ {t : EState}, t.guide P = s.guide P → D ∈ (t.guide P).dependents := by
    intro t ht
    rw [ht]
    exact h
  have hdep : ∀ {t : EState} (i : Nat) (g : GuideDyn),
      t.guide P = (setGuide s i g).guide P → g.dependents = (s.guide i).dependents →
      D ∈ (t.guide P).dependents := by
    intro t i g ht hg
    rw [ht]
    rcases guide_setGuide_cases s i P g with ⟨heq, hij⟩ | heq
    · subst hij
      rw [heq, hg]
      exact h
    · rw [heq]
      exact h
  cases hs with
  | startEmpty hph hlen => exact triv rfl
  | startFirst hph hlen => exact issueInit_dep_mem spec _ 0 P D h
  | initTick k l hst => exact triv rfl
  | initSettleOk k hst hok => exact hdep k _ rfl rfl
  | initSettleFail k hst hok => exact hdep k _ rfl rfl
  | contInterrupt k hst hint => exact triv rfl
  | contFail k hst hint hinst =>
      cases auto with
      | false => exact triv rfl
      | true =>
          simp only [if_true]
          exact triv (stopCallFn_guide _ P)
  | contAdvance k hst hint hinst hlt => exact issueInit_dep_mem spec s (k+1) P D h
  | contReady k hst hint hinst hlt => exact triv rfl
  | stopCalled => exact triv (stopCallFn_guide s P)
  | stopWake hst hint => exact triv rfl
  | barrierEnter pos pend hst hpos hord => exact triv rfl
  | finIssue pos pend hst hpos hord => exact hdep _ _ rfl (finalizeEffect_dependents _ _)
  | loopEnd pos pend hst hpos => exact triv rfl
  | barrierPass pos pend hst hall => exact hdep _ _ rfl (finalizeEffect_dependents _ _)
  | stopFinish pend hst hall => exact triv rfl
  | guideResume i snap hlen hft hall => exact hdep i _ rfl (startCbGuide_dependents _ _)
  | guideTick i l hlen hft => exact hdep i _ rfl rfl
  | guideSettle i hlen hft => exact hdep i _ rfl rfl

theorem reaches_dep_mono {spec : List GSpec} {auto : Bool} :
    ∀ {s s' : EState} {tr : List Lbl} {P D : Nat},
      Reaches spec auto s tr s' → D ∈ (s.guide P).dependents →
      D ∈ (s'.guide P).dependents
  | _, _, _, _, _, .refl _, h => h
  | _, _, _, _, _, .head hstep hrest, h =>
      reaches_dep_mono hrest (shape_dep_mono (stepFn_shape hstep) _ _ h)

/-! ### Stability of the stopped signal -/

theorem step_cell_stable {spec : List GSpec} {auto : Bool} {s s' : EState} {l : Lbl}
    {c : Bool} (hInv : Inv spec auto s) (h : stepFn spec auto s l = some s')
    (hc : s.stoppedCell = some c) : s'.stoppedCell = some c := by
  cases stepFn_shape h with
  | startEmpty hph hlen => exact hc
  | startFirst hph hlen =>
      rw [(issueInit_const spec _ 0).2.2.1]
      exact hc
  | initTick k l hst => exact hc
  | initSettleOk k hst hok => exact hc
  | initSettleFail k hst hok => exact hc
  | contInterrupt k hst hint => exact hc
  | contFail k hst hint hinst =>
      cases auto with
      | false => exact hc
      | true =>
          simp only [if_true]
          rw [stopCallFn_stoppedCell]
          exact hc
  | contAdvance k hst hint hinst hlt =>
      rw [(issueInit_const spec s (k+1)).2.2.1]
      exact hc
  | contReady k hst hint hinst hlt => exact hc
  | stopCalled =>
      rw [stopCallFn_stoppedCell]
      exact hc
  | stopWake hst hint => exact hc
  | barrierEnter pos pend hst hpos hord => exact hc
  | finIssue pos pend hst hpos hord => exact hc
  | loopEnd pos pend hst hpos => exact hc
  | barrierPass pos pend hst hall => exact hc
  | stopFinish pend hst hall =>
      exfalso
      have h2 := hInv.cellDone c hc
      rw [hst] at h2
      simp at h2
  | guideResume i snap hlen hft hall => exact hc
  | guideTick i l hlen hft => exact hc
  | guideSettle i hlen hft => exact hc

/-- While the `stop()`-created interrupt is still pending, every step keeps
the phase at `stopping` and starts no new module initialization. -/
theorem step_interrupt_freeze {spec : List GSpec} {auto : Bool} {s s' : EState}
    {l : Lbl} (hInv : Inv spec auto s) (hint : s.interrupt = some false)
    (h : stepFn spec auto s l = some s') (j : Nat) :
    s'.phase = .stopping ∧
    ((s'.guide j).mstate = .initializing → (s.guide j).mstate = .initializing) := by
  obtain ⟨hph, hstT⟩ := hInv.intrPend hint
  cases stepFn_shape h with
  | startEmpty hph2 hlen =>
      rw [hph2] at hph
      exact absurd hph (by simp)
  | startFirst hph2 hlen =>
      rw [hph2] at hph
      exact absurd hph (by simp)
  | initTick k l hst => exact ⟨hph, fun hh => hh⟩
  | initSettleOk k hst hok =>
      refine ⟨hph, ?_⟩
      intro hh
      rcases guide_setGuide_cases s k j
          { s.guide k with mstate := .initialized, hasInst := true } with ⟨hgj, hkj⟩ | hgj
      · subst hkj
        have hh2 : ({ s.guide k with mstate := ModState.initialized, hasInst := true } :
          GuideDyn).mstate = .initializing := by rw [← hgj]; exact hh
        simp at hh2
      · have hh2 : (s.guide j).mstate = .initializing := by rw [← hgj]; exact hh
        exact hh2
  | initSettleFail k hst hok =>
      refine ⟨hph, ?_⟩
      intro hh
      rcases guide_setGuide_cases s k j
          { s.guide k with mstate := .initialization_failed } with ⟨hgj, hkj⟩ | hgj
      · subst hkj
        have hh2 : ({ s.guide k with mstate := ModState.initialization_failed } :
          GuideDyn).mstate = .initializing := by rw [← hgj]; exact hh
        simp at hh2
      · have hh2 : (s.guide j).mstate = .initializing := by rw [← hgj]; exact hh
        exact hh2
  | contInterrupt k hst hint2 => exact ⟨hph, fun hh => hh⟩
  | contFail k hst hint2 hinst =>
      rw [hint] at hint2
      exact absurd hint2 (by simp)
  | contAdvance k hst hint2 hinst hlt =>
      rw [hint] at hint2
      exact absurd hint2 (by simp)
  | contReady k hst hint2 hinst hlt =>
      rw [hint] at hint2
      exact absurd hint2 (by simp)
  | stopCalled =>
      have hno : stopCallFn s = s := by
        simp only [stopCallFn]
        rw [if_pos (Or.inl hph)]
      rw [hno]
      exact ⟨hph, fun hh => hh⟩
  | stopWake hst hint2 =>
      rw [hint] at hint2
      exact absurd hint2 (by simp)
  | barrierEnter pos pend hst hpos hord =>
      rw [hstT] at hst
      exact absurd hst (by simp)
  | finIssue pos pend hst hpos hord =>
      rw [hstT] at hst
      exact absurd hst (by simp)
  | loopEnd pos pend hst hpos =>
      rw [hstT] at hst
      exact absurd hst (by simp)
  | barrierPass pos pend hst hall =>
      rw [hstT] at hst
      exact absurd hst (by simp)
  | stopFinish pend hst hall =>
      rw [hstT] at hst
      exact absurd hst (by simp)
  | guideResume i snap hlen hft hall =>
      refine ⟨hph, ?_⟩
      intro hh
      rcases guide_setGuide_cases s i j
          (startCbGuide (spec.getD i default) (s.guide i)) with ⟨hgj, hij⟩ | hgj
      · subst hij
        have hh2 : (startCbGuide (spec.getD i default) (s.guide i)).mstate =
          .initializing := by rw [← hgj]; exact hh
        rcases startCbGuide_cases (spec.getD i default) (s.guide i) with
          ⟨_, hc⟩ | ⟨_, hc⟩ <;> rw [hc] at hh2 <;>
          · have hh3 : (_ : ModState) = ModState.initializing := hh2
            simp at hh3
      · have hh2 : (s.guide j).mstate = .initializing := by rw [← hgj]; exact hh
        exact hh2
  | guideTick i l hlen hft =>
      refine ⟨hph, ?_⟩
      intro hh
      rcases guide_setGuide_cases s i j
          { s.guide i with finTask := some (.runningCb l) } with ⟨hgj, hij⟩ | hgj
      · subst hij
        have hh2 : ({ s.guide i with finTask := some (FinTask.runningCb l) } :
          GuideDyn).mstate = .initializing := by rw [← hgj]; exact hh
        exact hh2
      · have hh2 : (s.guide j).mstate = .initializing := by rw [← hgj]; exact hh
        exact hh2
  | guideSettle i hlen hft =>
      refine ⟨hph, ?_⟩
      intro hh
      rcases guide_setGuide_cases s i j
          { s.guide i with
              mstate := if cbResult (spec.getD i default).cb then .finalized
                        else .finalization_failed
            , finTask := some (.done (cbResult (spec.getD i default).cb)) } with
        ⟨hgj, hij⟩ | hgj
      · subst hij
        exfalso
        rw [hgj] at hh
        have hh2 : (if cbResult (spec.getD i default).cb then ModState.finalized
            else ModState.finalization_failed) = .initializing := hh
        rcases Bool.eq_false_or_eq_true (cbResult (spec.getD i default).cb) with
          hcb | hcb <;> rw [hcb] at hh2 <;> simp at hh2
      · have hh2 : (s.guide j).mstate = .initializing := by rw [← hgj]; exact hh
        exact hh2

theorem reaches_cell_stable {spec : List GSpec} {auto : Bool} :
    ∀ {s s' : EState} {tr : List Lbl} {c : Bool},
      Inv spec auto s → Reaches spec auto s tr s' → s.stoppedCell = some c →
      s'.stoppedCell = some c
  | _, _, _, _, _, .refl _, hc => hc
  | _, _, _, _, hInv, .head hstep hrest, hc =>
      reaches_cell_stable (inv_step hInv hstep) hrest (step_cell_stable hInv hstep hc)

/-! ### Concrete fixtures (for exercising the claims on closed runs) -/

def specA : List GSpec :=
  [⟨[], 0, true, true, 0, .retTrue, false⟩, ⟨[0], 0, true, true, 0, .retTrue, false⟩]

def scriptA1 : List Lbl :=
  [.startCall, .startStep, .startStep, .startStep, .startStep, .stopCall,
   .stopStep, .guideStep 1]

def scriptA2 : List Lbl :=
  [.stopStep, .guideStep 0, .guideStep 0, .stopStep, .stopStep]

def scriptA : List Lbl := scriptA1 ++ scriptA2

def stA : EState := (runL specA false (initState specA) scriptA).getD (initState specA)

def stA1 : EState := (runL specA false (initState specA) scriptA1).getD (initState specA)

def specB : List GSpec :=
  [⟨[], 0, true, true, 0, .retTrue, false⟩, ⟨[], 0, true, false, 0, .retTrue, true⟩,
   ⟨[], 0, true, true, 0, .retFalse, false⟩]

def scriptB1 : List Lbl :=
  [.startCall, .startStep, .startStep, .startStep, .startStep, .startStep, .startStep,
   .stopCall, .stopStep, .guideStep 2, .stopStep]

def scriptBF : List Lbl :=
  scriptB1 ++ [.stopStep, .stopStep, .guideStep 0, .stopStep, .stopStep]

def stB1 : EState := (runL specB false (initState specB) scriptB1).getD (initState specB)

def stBF : EState := (runL specB false (initState specB) scriptBF).getD (initState specB)

def specC : List GSpec := [⟨[], 1, true, false, 0, .retTrue, false⟩]

def scriptC : List Lbl := [.startCall, .stopCall]

def stC : EState := (runL specC false (initState specC) scriptC).getD (initState specC)

def stC2 : EState :=
  (runL specC false (initState specC) (scriptC ++ [.startStep])).getD (initState specC)

def specD : List GSpec :=
  [⟨[], 0, false, false, 0, .retTrue, false⟩, ⟨[], 0, true, false, 0, .retTrue, false⟩]

def scriptD : List Lbl := [.startCall, .startStep]

def stD : EState := (runL specD false (initState specD) scriptD).getD (initState specD)

def modsW : List ModDesc := [⟨"a", some (.retFail ["x"])⟩, ⟨"b", none⟩]

def guidesW : List (String × ModState × Option StatusVal) :=
  [("m", .initialized, some [("k", "v")])]

def gW : GuideA := ⟨.configured, true, .undef, false⟩

def restW : List (GuideA × InitBehavior) :=
  [(⟨.configured, true, .undef, false⟩, .resolveInst .jsObj false)]

theorem stage2_run_or_done {t : Option FinTask} (h : 2 ≤ FinTask.stage t) :
    (∃ lft, t = some (.runningCb lft)) ∨ ∃ b, t = some (.done b) := by
  cases t with
  | none => simp [FinTask.stage] at h
  | some u =>
      cases u with
      | waitingDeps snap => simp [FinTask.stage] at h
      | runningCb lft => exact .inl ⟨lft, rfl⟩
      | done b => exact .inr ⟨b, rfl⟩

/-! ## The claims -/

/-- C1: a dependent registration persists; a module with a registered
dependent never reaches a finalize-terminal state (`finalized` /
`finalization_failed`) and its finalize never settles before that
dependent's finalize outcome has settled; when dependents are registered,
`finalize()` first moves the module to `awaiting_finalization` blocking on
exactly the registered dependents, and the wait resumes (moving on to
`finalizing` / the callback) only when every captured dependent's
finalization has settled, regardless of the individual results. -/
theorem C1_finalize_waits_for_dependents (spec : List GSpec) (auto : Bool) :
    (∀ s1 tr2 s2 P D,
        Reaches spec auto s1 tr2 s2 →
        D ∈ (s1.guide P).dependents → D ∈ (s2.guide P).dependents) ∧
    (∀ tr s P D, Reaches spec auto (initState spec) tr s →
        D ∈ (s.guide P).dependents →
        ((s.guide P).mstate = .finalized ∨ (s.guide P).mstate = .finalization_failed ∨
          FinTask.isDone (s.guide P).finTask = true) →
        FinTask.isDone (s.guide D).finTask = true) ∧
    (∀ sp g, g.finTask = none → g.hasInst = true → g.dependents ≠ [] →
        finalizeEffect sp g =
          { g with mstate := .awaiting_finalization
                 , finTask := some (.waitingDeps g.dependents) }) ∧
    (∀ s i snap s', (s.guide i).finTask = some (.waitingDeps snap) →
        guideStepFn spec s i = some s' →
        snap.all (fun d => FinTask.isDone (s.guide d).finTask) = true ∧
        s'.guide i = startCbGuide (spec.getD i default) (s.guide i)) := by
  refine ⟨?_, ?_, ?_, ?_⟩
  · intro s1 tr2 s2 P D hr hmem
    exact reaches_dep_mono hr hmem
  · intro tr s P D hr hmem hterm
    have hInv := reach_inv hr
    have hstage : 2 ≤ FinTask.stage (s.guide P).finTask := by
      rcases hterm with h | h | h
      · exact hInv.mstageCorr P (.inr (.inl h))
      · exact hInv.mstageCorr P (.inr (.inr h))
      · exact isDone_stage h
    exact hInv.stageDeps P hstage D hmem
  · intro sp g h1 h2 h3
    unfold finalizeEffect
    rw [h1]
    simp [h2, h3]
  · intro s i snap s' hft hstep
    by_cases hlen : i < s.guides.length
    · simp only [guideStepFn, hlen, hft, if_true] at hstep
      split at hstep
      · injection hstep with hstep
        subst hstep
        exact ⟨by assumption, guide_setGuide_self hlen⟩
      · cases hstep
    · simp only [guideStepFn, hlen, if_false] at hstep
      cases hstep

/-- C2: at a guide flagged `orderedFinalization` the finalize pass first
suspends at a barrier; the barrier is passed only when every finalize
issued so far in the pass has settled, collapsing the pending array into a
single resolved entry that carries their aggregate verdict (equal to the
conjunction of the eventual results of everything issued so far) before
the flagged guide's own finalize is issued; consequently no guide after
the flagged one in reverse order finishes before the flagged guide's
finalize has started, and while the flagged guide is at or past the
barrier everything issued before it has settled. -/
theorem C2_ordered_finalization_barrier (spec : List GSpec) (auto : Bool) :
    (∀ s pos pend, s.stopTask = some (.finLoop pos pend) → pos < spec.length →
        (spec.getD (spec.length - 1 - pos) default).ordered = true →
        stopStepFn spec s = some { s with stopTask := some (.atBarrier pos pend) }) ∧
    (∀ s pos pend s', s.stopTask = some (.atBarrier pos pend) →
        stopStepFn spec s = some s' →
        pend.all (refSettled s) = true ∧
        s' = { setGuide s (spec.length - 1 - pos)
                 (finalizeEffect (spec.getD (spec.length - 1 - pos) default)
                   (s.guide (spec.length - 1 - pos))) with
               stopTask := some (.finLoop (pos+1)
                 [.resolvedRef (pend.all (refStoredVal s)),
                  .guideRef (spec.length - 1 - pos)]) }) ∧
    (∀ tr s pos pend, Reaches spec auto (initState spec) tr s →
        s.stopTask = some (.atBarrier pos pend) → pend.all (refSettled s) = true →
        pend.all (refStoredVal s) = allRes spec s pos) ∧
    (∀ tr s pos pend b r, Reaches spec auto (initState spec) tr s →
        (s.stopTask = some (.finLoop pos pend) ∨
          s.stopTask = some (.atBarrier pos pend)) →
        b < r → r < spec.length →
        (spec.getD (spec.length - 1 - b) default).ordered = true →
        FinTask.isDone (s.guide (spec.length - 1 - r)).finTask = true →
        (s.guide (spec.length - 1 - b)).finTask ≠ none) ∧
    (∀ tr s pos pend b r, Reaches spec auto (initState spec) tr s →
        (s.stopTask = some (.finLoop pos pend) ∨
          s.stopTask = some (.atBarrier pos pend)) →
        b < pos → (spec.getD (spec.length - 1 - b) default).ordered = true →
        r < b →
        FinTask.isDone (s.guide (spec.length - 1 - r)).finTask = true) := by
  refine ⟨?_, ?_, ?_, ?_, ?_⟩
  · intro s pos pend hst hpos hord
    simp only [stopStepFn, hst]
    rw [if_pos hpos, if_pos hord]
  · intro s pos pend s' hst hstep
    simp only [stopStepFn, hst] at hstep
    split at hstep
    · injection hstep with hstep
      exact ⟨by assumption, hstep.symm⟩
    · cases hstep
  · intro tr s pos pend hr hst hall
    have hInv := reach_inv hr
    have hVer0 : pend.all (refVal spec s) = allRes spec s pos := by
      have h2 := hInv.verdict
      rw [hst] at h2
      exact h2
    exact (all_congrB pend _ _ (fun r hr2 => refStored_eq hInv.doneVal r
      (List.all_eq_true.mp hall r hr2))).trans hVer0
  · intro tr s pos pend b r hr hst hbr hrn hord hdone
    have hInv := reach_inv hr
    have hne : (s.guide (spec.length - 1 - r)).finTask ≠ none := by
      intro hn
      rw [hn] at hdone
      simp [FinTask.isDone] at hdone
    rcases hst with hst | hst
    · have hIss : pos ≤ spec.length ∧ ∀ q, q < spec.length →
          ((s.guide (spec.length - 1 - q)).finTask ≠ none ↔ q < pos) := by
        have h2 := hInv.issuance
        rw [hst] at h2
        exact h2
      have hrp := (hIss.2 r hrn).1 hne
      exact (hIss.2 b (by omega)).2 (by omega)
    · have hIss : pos < spec.length ∧ ∀ q, q < spec.length →
          ((s.guide (spec.length - 1 - q)).finTask ≠ none ↔ q < pos) := by
        have h2 := hInv.issuance
        rw [hst] at h2
        exact h2
      have hrp := (hIss.2 r hrn).1 hne
      exact (hIss.2 b (by omega)).2 (by omega)
  · intro tr s pos pend b r hr hst hbp hord hrb
    have hInv := reach_inv hr
    rcases hst with hst | hst
    · have hHist : HistUpTo spec s pos := by
        have h2 := hInv.barrierHist
        rw [hst] at h2
        exact h2
      exact hHist b hbp hord r hrb
    · have hHist : HistUpTo spec s pos := by
        have h2 := hInv.barrierHist
        rw [hst] at h2
        exact h2
      exact hHist b hbp hord r hrb

/-- C3: `stop()` called while the phase is `starting` immediately moves the
phase to `stopping`, creates the pending interrupt, and parks the pass on
it; the `start()` loop aborts at its next resumption after the awaited
initialize settles — the interrupt check wins, the phase is not mutated
further, the waiter is signalled, and the loop's result is
`{started:false, stopping:true}`; while the interrupt is pending no step
changes the phase or begins another module's initialize; and the finalize
pass issues nothing before the interrupted loop has signalled. -/
theorem C3_stop_during_start (spec : List GSpec) (auto : Bool) :
    (∀ s, s.phase = .starting →
        stopCallFn s = { s with interrupt := some false, phase := .stopping
                              , stopTask := some .waitingInterrupt }) ∧
    (∀ s k, s.startTask = .initSettled k → s.interrupt.isSome = true →
        startStepFn spec auto s =
          some { s with interrupt := some true
                      , startTask := .finishedSt false true }) ∧
    (∀ tr s l s' j, Reaches spec auto (initState spec) tr s →
        s.interrupt = some false → stepFn spec auto s l = some s' →
        s'.phase = .stopping ∧
        ((s'.guide j).mstate = .initializing → (s.guide j).mstate = .initializing)) ∧
    (∀ tr s, Reaches spec auto (initState spec) tr s →
        s.stopTask = some .waitingInterrupt →
        (∀ i, (s.guide i).finTask = none) ∧
        (∀ s', stopStepFn spec s = some s' →
          s.interrupt = some true ∧ s' = { s with stopTask := some (.finLoop 0 []) })) ∧
    (∀ tr s, Reaches spec auto (initState spec) tr s →
        s.interrupt = some true → s.startTask = .finishedSt false true) := by
  refine ⟨?_, ?_, ?_, ?_, ?_⟩
  · intro s hph
    simp only [stopCallFn]
    rw [if_neg (by rw [hph]; simp), if_pos hph]
  · intro s k hst hint
    simp only [startStepFn, hst]
    rw [if_pos hint]
  · intro tr s l s' j hr hint hstep
    exact step_interrupt_freeze (reach_inv hr) hint hstep j
  · intro tr s hr hst
    have hInv := reach_inv hr
    refine ⟨?_, ?_⟩
    · have h2 := hInv.issuance
      rw [hst] at h2
      exact h2
    · intro s' hstep
      simp only [stopStepFn, hst] at hstep
      split at hstep
      · injection hstep with hstep
        exact ⟨by assumption, hstep.symm⟩
      · cases hstep
  · intro tr s hr hint
    exact (reach_inv hr).intrRes hint

/-- C4: a guide's finalization outcome is computed once and memoized — a
repeated `finalize()` call returns the existing computation unchanged, a
settled outcome never changes along any execution, and it equals the one
true result determined by the instance and the descriptor's callback; the
callback-running segment is entered at most once over the whole lifecycle;
and `stop()` while already `stopping` or after `stopped` is a no-op that
changes nothing. -/
theorem C4_finalize_idempotent (spec : List GSpec) (auto : Bool) :
    (∀ sp g, g.finTask.isSome = true → finalizeEffect sp g = g) ∧
    (∀ s tr s' i b, Reaches spec auto s tr s' →
        (s.guide i).finTask = some (.done b) →
        (s'.guide i).finTask = some (.done b)) ∧
    (∀ tr s i b, Reaches spec auto (initState spec) tr s →
        (s.guide i).finTask = some (.done b) → b = finResultD spec s i) ∧
    (∀ s1 s2 l1 trm u1 u2 l2 i,
        stepFn spec auto s1 l1 = some s2 → Reaches spec auto s2 trm u1 →
        stepFn spec auto u1 l2 = some u2 →
        (∀ lft, (s1.guide i).finTask ≠ some (.runningCb lft)) →
        (∃ lft, (s2.guide i).finTask = some (.runningCb lft)) →
        (∀ lft, (u1.guide i).finTask ≠ some (.runningCb lft)) →
        (∃ lft, (u2.guide i).finTask = some (.runningCb lft)) → False) ∧
    (∀ s, s.phase = .stopping ∨ s.phase = .stopped → stopCallFn s = s) := by
  refine ⟨?_, ?_, ?_, ?_, ?_⟩
  · intro sp g h
    exact finalizeEffect_memo sp g h
  · intro s tr s' i b hr hdone
    exact (reaches_guide_mono hr i).2.1 b hdone
  · intro tr s i b hr hdone
    exact (reach_inv hr).doneVal i b hdone
  · intro s1 s2 l1 trm u1 u2 l2 i hstep1 hmid hstep2 hpre1 hpost1 hpre2 hpost2
    obtain ⟨a, ha⟩ := hpost1
    have hst2 : 2 ≤ FinTask.stage (s2.guide i).finTask := by
      rw [ha]
      simp [FinTask.stage]
    have hstu : 2 ≤ FinTask.stage (u1.guide i).finTask :=
      Nat.le_trans hst2 (reaches_guide_mono hmid i).1
    rcases stage2_run_or_done hstu with ⟨lft, hrun⟩ | ⟨b, hdone⟩
    · exact hpre2 lft hrun
    · have hu2 := (step_guide_mono hstep2 i).2.1 b hdone
      obtain ⟨c, hc⟩ := hpost2
      rw [hu2] at hc
      simp at hc
  · intro s hph
    simp only [stopCallFn]
    rw [if_pos hph]

theorem stopCallFn_startFailed (s : EState) (hph : s.phase = .starting_failed)
    (hint : s.interrupt = none) :
    stopCallFn s = { s with phase := .stopping, stopTask := some (.finLoop 0 []) } := by
  simp only [stopCallFn]
  rw [if_neg (by rw [hph]; simp), if_neg (by rw [hph]; simp), if_pos (Or.inr hph), hint]
  rfl

/-- C5: the start loop runs strictly in registration order — while guide
`k`'s initialize is awaited or just settled, every earlier guide succeeded
and every later guide is untouched; the next guide is issued only after the
current one settled with an instance; on a missing instance the loop stops
with `starting_failed`, invokes `stop()` iff `autoStopOnError`, resolves
`{started:false, stopping:auto}` and touches no other guide; afterwards a
failing guide exists with all later guides never initialized; on success
the phase becomes `ready` with result `{started:true}` and every guide
succeeded. -/
theorem C5_start_order_and_failure (spec : List GSpec) (auto : Bool) :
    (∀ tr s k lft, Reaches spec auto (initState spec) tr s →
        s.startTask = .initRunning k lft →
        k < spec.length ∧ (∀ j, j < k → runGood spec s j) ∧
        ∀ j, k < j → freshish s j) ∧
    (∀ s k, s.startTask = .initSettled k → s.interrupt = none →
        (s.guide k).hasInst = true → k + 1 < spec.length →
        startStepFn spec auto s = some (issueInit spec s (k+1))) ∧
    (∀ tr s k, Reaches spec auto (initState spec) tr s →
        s.startTask = .initSettled k → s.interrupt = none →
        (s.guide k).hasInst = false →
        ∃ s', startStepFn spec auto s = some s' ∧
          s'.startTask = .finishedSt false auto ∧
          (auto = false → s'.phase = .starting_failed ∧ s'.stopTask = none) ∧
          (auto = true → s'.phase = .stopping ∧
            s'.stopTask = some (.finLoop 0 [])) ∧
          ∀ j, s'.guide j = s.guide j) ∧
    (∀ tr s b, Reaches spec auto (initState spec) tr s →
        s.startTask = .finishedSt false b → s.interrupt = none →
        b = auto ∧ ∃ k, k < spec.length ∧ (spec.getD k default).initOk = false ∧
          (∀ j, j < k → runGood spec s j) ∧ (∀ j, k < j → freshish s j)) ∧
    (∀ s k, s.startTask = .initSettled k → s.interrupt = none →
        (s.guide k).hasInst = true → ¬ k + 1 < spec.length →
        startStepFn spec auto s = some
          { s with phase := .ready, startTask := .finishedSt true false }) ∧
    (∀ tr s b, Reaches spec auto (initState spec) tr s →
        s.startTask = .finishedSt true b →
        b = false ∧ ∀ j, j < spec.length → runGood spec s j) := by
  refine ⟨?_, ?_, ?_, ?_, ?_, ?_⟩
  · intro tr s k lft hr hst
    obtain ⟨hk, _, _, _, hgood, hfresh⟩ := (reach_inv hr).startRun k lft hst
    exact ⟨hk, hgood, hfresh⟩
  · intro s k hst hint hinst hlt
    simp only [startStepFn, hst]
    rw [if_neg (by rw [hint]; simp), if_neg (by rw [hinst]; simp), if_pos hlt]
  · intro tr s k hr hst hint hinst
    have hInv := reach_inv hr
    obtain ⟨hNW, hFTN⟩ := prePass_of_notFinished hInv (by rw [hst]; rfl)
    have hstopN : s.stopTask = none := by
      rcases hNW with hn | hn
      · exact hn
      · exact absurd (hInv.waitIntr hn) (by simp [hint])
    have hstep : startStepFn spec auto s =
        some (if auto then
          stopCallFn { s with phase := .starting_failed
                            , startTask := .finishedSt false auto }
         else { s with phase := .starting_failed
                     , startTask := .finishedSt false auto }) := by
      simp only [startStepFn, hst]
      rw [if_neg (by rw [hint]; simp), if_pos hinst]
    refine ⟨_, hstep, ?_, ?_, ?_, ?_⟩
    · cases auto with
      | false => rfl
      | true =>
          simp only [if_true]
          rw [stopCallFn_startTask]
    · intro hauto
      subst hauto
      exact ⟨rfl, hstopN⟩
    · intro hauto
      subst hauto
      simp only [if_true]
      rw [stopCallFn_startFailed
        { s with phase := Phase.starting_failed, startTask := StartTask.finishedSt false true }
        rfl hint]
      exact ⟨rfl, rfl⟩
    · intro j
      cases auto with
      | false => rfl
      | true =>
          simp only [if_true]
          rw [stopCallFn_guide]
          rfl
  · intro tr s b hr hst hint
    obtain ⟨hb, k, hk, hok, hgood, hfresh, _⟩ := (reach_inv hr).startFinF b hst hint
    exact ⟨hb, k, hk, hok, hgood, hfresh⟩
  · intro s k hst hint hinst hlt
    simp only [startStepFn, hst]
    rw [if_neg (by rw [hint]; simp), if_neg (by rw [hinst]; simp), if_neg hlt]
  · intro tr s b hr hst
    exact (reach_inv hr).startFinT b hst

theorem all_map_comp {A B : Type} (f : A → B) (p : B → Bool) :
    ∀ l : List A, (l.map f).all p = l.all (fun a => p (f a))
  | [] => rfl
  | x :: xs => by
      simp only [List.map_cons, List.all_cons]
      rw [all_map_comp f p xs]

theorem map_map_comp {A B C : Type} (f : A → B) (g : B → C) :
    ∀ l : List A, (l.map f).map g = l.map (fun a => g (f a))
  | [] => rfl
  | x :: xs => by
      simp only [List.map_cons]
      rw [map_map_comp f g xs]

theorem lifecycleConfigure_loading (mods : List ModDesc) :
    lifecycleConfigure .loading mods = .ok
      { phase := if mods.all (fun d => ((guideConfigure d).2.2).isOk) then Phase.configured
                 else .configuration_failed
      , result := if mods.all (fun d => ((guideConfigure d).2.2).isOk) then .ok
                  else .fail ((mods.map
                    (fun d => prefixFailures d.name ((guideConfigure d).2.2).failures)).flatten)
      , calls := mods.map (·.name) } := by
  have hA : (mods.map (fun d => (d.name, (guideConfigure d).2.2))).all (fun r => r.2.isOk)
      = mods.all (fun d => ((guideConfigure d).2.2).isOk) :=
    all_map_comp _ _ mods
  have hM : (mods.map (fun d => (d.name, (guideConfigure d).2.2))).map
      (fun p => prefixFailures p.1 p.2.failures)
      = mods.map (fun d => prefixFailures d.name ((guideConfigure d).2.2).failures) :=
    map_map_comp _ _ mods
  simp only [lifecycleConfigure, changePhase]
  rw [if_pos (show Phase.loading ∈ [Phase.loading] by simp)]
  rw [hA, hM]
  rcases Bool.eq_false_or_eq_true
      (mods.all fun d => ((guideConfigure d).2.2).isOk) with hA2 | hA2 <;>
    rw [hA2] <;> simp [CfgResult.isOk]

theorem flatten_nil_of_all_ok (mods : List ModDesc)
    (h : ∀ d ∈ mods, ((guideConfigure d).2.2).isOk = true) :
    (mods.map (fun d => prefixFailures d.name ((guideConfigure d).2.2).failures)).flatten
      = [] := by
  induction mods with
  | nil => rfl
  | cons d ds ih =>
      simp only [List.map_cons, List.flatten_cons]
      have hd := h d (by simp)
      have hfl : ((guideConfigure d).2.2).failures = [] := by
        cases hres : (guideConfigure d).2.2 with
        | ok => rfl
        | fail fs =>
            rw [hres] at hd
            simp [CfgResult.isOk] at hd
      rw [hfl]
      show prefixFailures d.name [] ++ _ = []
      rw [ih (fun x hx => h x (by simp [hx]))]
      rfl

/-- C6: `configure(envVars)` entered from `loading` calls every guide's
configure exactly once in registration order unconditionally (failures skip
nothing); the result is `ok` iff every guide succeeded, in which case the
phase becomes `configured`, else `configuration_failed`; the failure list
collects every failing guide's failure strings, each prefixed with the
guide's bracketed name, in registration order. -/
theorem C6_configure_aggregation (mods : List ModDesc) :
    ∃ out, lifecycleConfigure .loading mods = .ok out ∧
      out.calls = mods.map (fun d => d.name) ∧
      (out.result.isOk = true ↔ ∀ d ∈ mods, ((guideConfigure d).2.2).isOk = true) ∧
      out.phase = (if out.result.isOk then Phase.configured
                   else .configuration_failed) ∧
      out.result.failures =
        (mods.map (fun d => prefixFailures d.name ((guideConfigure d).2.2).failures)).flatten
      := by
  refine ⟨_, lifecycleConfigure_loading mods, rfl, ?_, ?_, ?_⟩
  · rcases Bool.eq_false_or_eq_true
        (mods.all fun d => ((guideConfigure d).2.2).isOk) with hA | hA <;> rw [hA]
    · exact ⟨fun _ => List.all_eq_true.1 hA, fun _ => rfl⟩
    · constructor
      · intro h
        exact absurd h (by simp [CfgResult.isOk])
      · intro hforall
        rw [List.all_eq_true.2 hforall] at hA
        exact Bool.noConfusion hA
  · rcases Bool.eq_false_or_eq_true
        (mods.all fun d => ((guideConfigure d).2.2).isOk) with hA | hA <;>
      rw [hA] <;> simp [CfgResult.isOk]
  · rcases Bool.eq_false_or_eq_true
        (mods.all fun d => ((guideConfigure d).2.2).isOk) with hA | hA <;> rw [hA]
    · rw [flatten_nil_of_all_ok mods (List.all_eq_true.1 hA)]
      rfl
    · simp [CfgResult.failures]

/-- C7: a failing finalize callback (explicit `false` result or a thrown
error) marks only its own guide `finalization_failed` with settled outcome
`false`; the pass still issues every guide — once the pass has completed,
every module's finalization has settled; the final wait then fixes the
phase to `stopped` iff every module's finalize succeeded (else
`stopping_failed`) and resolves the `stopped()` signal with that aggregate
verdict, which never changes afterwards. -/
theorem C7_finalize_failure_aggregation (spec : List GSpec) (auto : Bool) :
    (∀ s i, i < s.guides.length → (s.guide i).finTask = some (.runningCb 0) →
        cbResult (spec.getD i default).cb = false →
        guideStepFn spec s i = some (setGuide s i
          { s.guide i with mstate := .finalization_failed
                         , finTask := some (.done false) })) ∧
    (∀ s pend, s.stopTask = some (.finalWait pend) → pend.all (refSettled s) = true →
        stopStepFn spec s = some
          { s with phase := if pend.all (refStoredVal s) then Phase.stopped
                            else .stopping_failed
                 , stoppedCell := some (pend.all (refStoredVal s))
                 , stopTask := some .doneStop }) ∧
    (∀ tr s, Reaches spec auto (initState spec) tr s →
        s.stopTask = some .doneStop →
        (∀ q, q < spec.length →
          FinTask.isDone (s.guide (spec.length - 1 - q)).finTask = true) ∧
        s.phase = (if allRes spec s spec.length then Phase.stopped
                   else .stopping_failed) ∧
        s.stoppedCell = some (allRes spec s spec.length)) ∧
    (∀ tr s tr2 s' c, Reaches spec auto (initState spec) tr s →
        Reaches spec auto s tr2 s' → s.stoppedCell = some c →
        s'.stoppedCell = some c) := by
  refine ⟨?_, ?_, ?_, ?_⟩
  · intro s i hlen hft hcb
    simp only [guideStepFn, hlen, hft, if_true]
    rw [hcb]
    rfl
  · intro s pend hst hall
    simp only [stopStepFn, hst]
    rw [if_pos hall]
  · intro tr s hr hst
    have hInv := reach_inv hr
    have hDone : ∀ q, q < spec.length →
        FinTask.isDone (s.guide (spec.length - 1 - q)).finTask = true := by
      have h2 := hInv.issuance
      rw [hst] at h2
      exact h2
    exact ⟨hDone, hInv.doneSummary hst⟩
  · intro tr s tr2 s' c hr hr2 hc
    exact reaches_cell_stable (reach_inv hr) hr2 hc

/-- C8: `status()` reports the current phase, the `inStoppablePhase` flag
that holds exactly in `ready` and `starting_failed`, and the per-guide
statuses keyed by name in registration order; a guide's status is its
module state together with the descriptor's status value, or an empty
object when the descriptor provided none. -/
theorem C8_status_shape (cur : Phase)
    (guides : List (String × ModState × Option StatusVal)) :
    (lifecycleStatus cur guides).phase = cur ∧
    ((lifecycleStatus cur guides).inStoppablePhase = true ↔
      (cur = .ready ∨ cur = .starting_failed)) ∧
    (lifecycleStatus cur guides).modules =
      guides.map (fun g => (g.1, guideStatus g.2.1 g.2.2)) ∧
    (∀ st, guideStatus st none = { state := st, status := [] }) ∧
    (∀ st v, guideStatus st (some v) = { state := st, status := v }) := by
  refine ⟨rfl, ?_, rfl, fun st => rfl, fun st v => rfl⟩
  show specInStoppablePhase cur = true ↔ _
  simp [specInStoppablePhase]

/-- C9: every illegal lifecycle operation for the current phase throws a
`phase.incorrect` error synchronously and leaves the phase (and the whole
engine state) unchanged: `configure()` outside `loading` (in particular a
second `configure()`), `start()` outside `configured` (e.g. from
`loading`), and `stop()` from a phase where it is neither legal nor an
idempotent no-op. -/
theorem C9_phase_incorrect_errors (spec : List GSpec) :
    (∀ cur mods, cur ≠ Phase.loading →
        lifecycleConfigure cur mods =
          .error ⟨"phase.incorrect", "Cannot change lifecycle phase."⟩) ∧
    (∀ cur, cur ≠ Phase.configured →
        startPhaseCheck cur =
          .error ⟨"phase.incorrect", "Cannot change lifecycle phase."⟩) ∧
    (∀ s, s.phase ≠ .configured → startCallFn spec s = none) ∧
    (∀ cur, ¬ (cur = .stopping ∨ cur = .stopped) →
        ¬ (cur = .ready ∨ cur = .starting_failed ∨ cur = .starting) →
        stopPhaseCheck cur =
          (.errorOut ⟨"phase.incorrect", "Cannot change lifecycle phase."⟩, cur)) ∧
    (∀ s, ¬ (s.phase = .stopping ∨ s.phase = .stopped) →
        s.phase ≠ .starting → ¬ (s.phase = .ready ∨ s.phase = .starting_failed) →
        stopCallFn s = s) := by
  refine ⟨?_, ?_, ?_, ?_, ?_⟩
  · intro cur mods h
    simp only [lifecycleConfigure, changePhase]
    rw [if_neg (by simp [h])]
  · intro cur h
    simp only [startPhaseCheck, changePhase]
    rw [if_neg (by simp [h])]
  · intro s h
    simp only [startCallFn]
    rw [if_neg h]
  · intro cur h1 h2
    simp only [stopPhaseCheck, changePhase]
    rw [if_neg h1, if_neg (by simpa using h2)]
  · intro s h1 h2 h3
    simp only [stopCallFn]
    rw [if_neg h1, if_neg h2, if_neg h3]

/-- C10: a descriptor initialize that resolves with a defined but falsy
instance (such as `0`, `''` or `false`) leaves the guide `initialized`
with that instance retrievable via `getInstance`, yet the value the
initialize promise resolves with is falsy, so `start()`'s truthiness check
treats the module as failed: the phase becomes `starting_failed` and no
later module is initialized; for the same reason `finalize()` resolves
`true` immediately without ever invoking the descriptor's finalize
callback. -/
theorem C10_falsy_instance (g : GuideA) (v : JsVal) (hf : Bool) (cb : CbBehavior)
    (rest : List (GuideA × InitBehavior))
    (hcfg : g.cfgResolved = true) (hdef : v ≠ .undef) (hfalsy : truthy v = false) :
    (guideInitialize g (.resolveInst v hf)).1.mstate = .initialized ∧
    (guideInitialize g (.resolveInst v hf)).1.inst = v ∧
    getInstance (guideInitialize g (.resolveInst v hf)).1 = .ok v ∧
    truthy (guideInitialize g (.resolveInst v hf)).2 = false ∧
    startLoopA ((g, .resolveInst v hf) :: rest) =
      (.starting_failed, (guideInitialize g (.resolveInst v hf)).1 :: rest.map (·.1)) ∧
    guideFinalizeBody (guideInitialize g (.resolveInst v hf)).1 cb = (true, false) := by
  have hr : guideInitialize g (.resolveInst v hf) =
      ({ g with mstate := .initialized, inst := v, hasFinalizeCb := hf },
        coalesceNull v) := by
    simp [guideInitialize, hcfg]
  have hco : truthy (coalesceNull v) = false := by
    unfold coalesceNull
    split
    · rfl
    · exact hfalsy
  refine ⟨?_, ?_, ?_, ?_, ?_, ?_⟩
  · rw [hr]
  · rw [hr]
  · rw [hr]
    simp [getInstance, hdef]
  · rw [hr]
    exact hco
  · simp only [startLoopA]
    rw [hr]
    rw [if_pos (by rw [hco]; simp)]
  · rw [hr]
    simp [guideFinalizeBody, hfalsy]

/-! ## Concrete witnesses -/

theorem C1_finalize_waits_for_dependents_witness :
    1 ∈ (stA.guide 0).dependents ∧ (stA.guide 0).mstate = ModState.finalized ∧
    FinTask.isDone (stA.guide 1).finTask = true :=
  ⟨by decide, by decide,
    (C1_finalize_waits_for_dependents specA false).2.1 scriptA stA 0 1
      (runL_reaches (by decide)) (by decide) (.inl (by decide))⟩

theorem C2_ordered_finalization_barrier_witness :
    stB1.stopTask = some (.atBarrier 1 [.guideRef 2]) ∧
    [FinRef.guideRef 2].all (refSettled stB1) = true ∧
    [FinRef.guideRef 2].all (refStoredVal stB1) = allRes specB stB1 1 :=
  ⟨by decide, by decide,
    (C2_ordered_finalization_barrier specB false).2.2.1 scriptB1 stB1 1 [.guideRef 2]
      (runL_reaches (by decide)) (by decide) (by decide)⟩

theorem C3_stop_during_start_witness :
    stC.interrupt = some false ∧ stC2.phase = .stopping :=
  ⟨by decide,
    ((C3_stop_during_start specC false).2.2.1 scriptC stC .startStep stC2 0
      (runL_reaches (by decide)) (by decide) (by decide)).1⟩

theorem C4_finalize_idempotent_witness :
    (stA1.guide 1).finTask = some (.done true) ∧
    (stA.guide 1).finTask = some (.done true) :=
  ⟨by decide,
    (C4_finalize_idempotent specA false).2.1 stA1 scriptA2 stA 1 true
      (runL_reaches (by decide)) (by decide)⟩

theorem C5_start_order_and_failure_witness :
    stD.startTask = .initSettled 0 ∧ stD.interrupt = none ∧
    (stD.guide 0).hasInst = false ∧
    ∃ s', startStepFn specD false stD = some s' ∧
      s'.startTask = .finishedSt false false ∧
      (false = false → s'.phase = .starting_failed ∧ s'.stopTask = none) ∧
      (false = true → s'.phase = .stopping ∧ s'.stopTask = some (.finLoop 0 [])) ∧
      ∀ j, s'.guide j = stD.guide j :=
  ⟨by decide, by decide, by decide,
    (C5_start_order_and_failure specD false).2.2.1 scriptD stD 0
      (runL_reaches (by decide)) (by decide) (by decide) (by decide)⟩

theorem C6_configure_aggregation_witness :
    ∃ out, lifecycleConfigure .loading modsW = .ok out ∧
      out.calls = modsW.map (fun d => d.name) ∧
      (out.result.isOk = true ↔ ∀ d ∈ modsW, ((guideConfigure d).2.2).isOk = true) ∧
      out.phase = (if out.result.isOk then Phase.configured
                   else .configuration_failed) ∧
      out.result.failures =
        (modsW.map (fun d => prefixFailures d.name ((guideConfigure d).2.2).failures)).flatten
      :=
  C6_configure_aggregation modsW

theorem C7_finalize_failure_aggregation_witness :
    stBF.stopTask = some .doneStop ∧
    ((∀ q, q < specB.length →
        FinTask.isDone (stBF.guide (specB.length - 1 - q)).finTask = true) ∧
      stBF.phase = (if allRes specB stBF specB.length then Phase.stopped
                    else .stopping_failed) ∧
      stBF.stoppedCell = some (allRes specB stBF specB.length)) :=
  ⟨by decide,
    (C7_finalize_failure_aggregation specB false).2.2.1 scriptBF stBF
      (runL_reaches (by decide)) (by decide)⟩

theorem C8_status_shape_witness :
    (lifecycleStatus .ready guidesW).phase = .ready ∧
    ((lifecycleStatus .ready guidesW).inStoppablePhase = true ↔
      (Phase.ready = .ready ∨ Phase.ready = .starting_failed)) ∧
    (lifecycleStatus .ready guidesW).modules =
      guidesW.map (fun g => (g.1, guideStatus g.2.1 g.2.2)) ∧
    (∀ st, guideStatus st none = { state := st, status := [] }) ∧
    (∀ st v, guideStatus st (some v) = { state := st, status := v }) :=
  C8_status_shape .ready guidesW

theorem C9_phase_incorrect_errors_witness :
    Phase.configured ≠ Phase.loading ∧
    lifecycleConfigure .configured modsW =
      .error ⟨"phase.incorrect", "Cannot change lifecycle phase."⟩ :=
  ⟨by decide, (C9_phase_incorrect_errors []).1 .configured modsW (by decide)⟩

theorem C10_falsy_instance_witness :
    gW.cfgResolved = true ∧ JsVal.jsNum 0 ≠ .undef ∧ truthy (.jsNum 0) = false ∧
    startLoopA ((gW, .resolveInst (.jsNum 0) true) :: restW) =
      (.starting_failed,
        (guideInitialize gW (.resolveInst (.jsNum 0) true)).1 :: restW.map (·.1)) :=
  ⟨by decide, by decide, by decide,
    (C10_falsy_instance gW (.jsNum 0) true .retTrue restW
      (by decide) (by decide) (by decide)).2.2.2.2.1⟩

end Modstack
